import Mathlib

/-!
# Clipboard scripts of the dome/tree grid: a shallow embedding

The development follows the browser scripts of the repository:

* `drag_area_copy_simplified.js` (class `DragAreaCopySystem`): copying a rectangular
  area of trees, analysing mother/cutting relationships, validating and executing a paste;
* `unified_clipboard_system.js`: the dome-scoped clipboard store kept in `localStorage`
  and mirrored in `window.dragClipboard` / `window.clipboardArea`;
* `clipboard_debug_fix.js`, `complete_clipboard_fix.js`, `paste_button_fix.js`: the
  paste-button display functions and the loading of a persisted clipboard;
* `static/js/backend_clipboard.js`, `static/js/cross_grid_clipboard.js`: the clipboard
  kept by the backend and its reconciliation with the local copies.

Conventions of the embedding.

* Page globals that the scripts read as free variables (`trees`, `currentRows`,
  `currentCols`, `domeId`) are explicit parameters.
* Identifiers and grid coordinates are integers (`Int`); on an integer `parseInt` is the
  identity, so `parseInt(x)` is embedded as `x`.
* A property that may be missing, `undefined` or `null` is an `Option`; JavaScript
  truthiness (`if (x)`, `x || d`) is spelled out by `truthyInt` and `truthyStr`.
* Network and storage effects are explicit: the outcome of each `fetch` and whether
  `localStorage.setItem` throws are inputs of the embedded functions.
-/

namespace Raisara

/-! ## JavaScript truthiness -/

/-- Truthiness of a possibly missing number: `undefined`, `null` and `0` are falsy. -/
def truthyInt : Option Int → Bool
  | some n => n != 0
  | none => false

/-- Truthiness of a possibly missing string: `undefined`, `null` and `''` are falsy. -/
def truthyStr : Option String → Bool
  | some s => s != ""
  | none => false

/-- The expression `s || d` for a possibly missing string `s` and a string default `d`. -/
def orStr (s : Option String) (d : String) : String :=
  match s with
  | some v => if v != "" then v else d
  | none => d

/-- The expression `n || null` for a possibly missing number `n`. -/
def orNull (n : Option Int) : Option Int :=
  match n with
  | some v => if v != 0 then some v else none
  | none => none

/-! ## Data model -/

/-- A tree record of the page global `trees`, and of `clipboard.trees` once it carries
the `isInOriginalArea` mark. -/
structure Tree where
  id : Int
  name : Option String := none
  breed : Option String := none
  plant_type : Option String := none
  mother_plant_id : Option Int := none
  internal_row : Int
  internal_col : Int
  info : Option String := none
  isInOriginalArea : Option Bool := none
  deriving DecidableEq, Repr

/-- A drag area of the page global `dragAreas`. -/
structure Area where
  id : Int := 0
  name : Option String := none
  minRow : Int
  maxRow : Int
  minCol : Int
  maxCol : Int
  width : Option Int := none
  height : Option Int := none
  color : Option String := none
  deriving DecidableEq, Repr

/-- The object returned by `analyzeRelationships`. -/
structure RelationshipData where
  motherTrees : Nat
  cuttingTrees : Nat
  relatedTrees : List Tree
  totalRelationships : Nat
  deriving DecidableEq, Repr

/-- The `plant_relationships` part of the clipboard summary. -/
structure PlantRelationships where
  mother_trees : Nat
  cutting_trees : Nat
  complete_relationships : Nat
  deriving DecidableEq, Repr

/-- The `summary` part of the clipboard. -/
structure Summary where
  total_trees : Nat
  trees_in_original_area : Nat
  related_trees_outside_area : Nat
  plant_relationships : PlantRelationships
  deriving DecidableEq, Repr

/-- The clipboard object built by `createClipboardData` and held in `this.clipboard`. -/
structure Clipboard where
  id : String
  type : String
  name : Option String
  width : Int
  height : Int
  minRow : Int
  maxRow : Int
  minCol : Int
  maxCol : Int
  color : Option String
  trees : List Tree
  trees_data : List Tree
  tree_count : Nat
  tree_ids : List Int
  summary : Summary
  source_dome_id : Int
  copied_at : String
  clipboard_source : String
  deriving DecidableEq, Repr

/-! ## `DragAreaCopySystem`: copy side -/

/-- `findTreesInArea(area)`: the trees of the population lying in the area bounds. -/
def findTreesInArea (trees : List Tree) (area : Area) : List Tree :=
  trees.filter fun tree =>
    let treeRow := tree.internal_row
    let treeCol := tree.internal_col
    let minRow := area.minRow
    let maxRow := area.maxRow
    let minCol := area.minCol
    let maxCol := area.maxCol
    decide (treeRow ≥ minRow) && decide (treeRow ≤ maxRow) &&
      decide (treeCol ≥ minCol) && decide (treeCol ≤ maxCol)

/-- The object spread `{...tree, isInOriginalArea: false}`. -/
def markOutside (t : Tree) : Tree := { t with isInOriginalArea := some false }

/-- The object spread `{...tree, isInOriginalArea: true}`. -/
def markInside (t : Tree) : Tree := { t with isInOriginalArea := some true }

/-- First `forEach` of `analyzeRelationships`: one step for an in-area cutting, pushing
its mother when the reference is truthy, the mother is found and is not in the area. -/
def pushMotherOf (trees treesInArea : List Tree) (relatedTrees : List Tree)
    (cutting : Tree) : List Tree :=
  if truthyInt cutting.mother_plant_id then
    match trees.find? (fun t => some t.id == cutting.mother_plant_id) with
    | some mother =>
      if !treesInArea.contains mother then relatedTrees ++ [markOutside mother]
      else relatedTrees
    | none => relatedTrees
  else relatedTrees

/-- Second `forEach` of `analyzeRelationships`: one step for an in-area mother, pushing
each tree of the population that references it and is not in the area. -/
def pushCuttingsOf (trees treesInArea : List Tree) (relatedTrees : List Tree)
    (mother : Tree) : List Tree :=
  let cuttings := trees.filter fun t => t.mother_plant_id == some mother.id
  cuttings.foldl
    (fun acc cutting =>
      if !treesInArea.contains cutting then acc ++ [markOutside cutting] else acc)
    relatedTrees

/-- `analyzeRelationships(treesInArea)`, with the page global `trees` as a parameter.
`treesInArea.includes(x)` compares object identity; the in-area list holds objects of
the population, embedded as equality of the records. -/
def analyzeRelationships (trees treesInArea : List Tree) : RelationshipData :=
  let motherTrees := treesInArea.filter fun t => t.plant_type == some "mother"
  let cuttingTrees := treesInArea.filter fun t => t.plant_type == some "cutting"
  let relatedTrees : List Tree := []
  let relatedTrees := cuttingTrees.foldl (pushMotherOf trees treesInArea) relatedTrees
  let relatedTrees := motherTrees.foldl (pushCuttingsOf trees treesInArea) relatedTrees
  { motherTrees := motherTrees.length
    cuttingTrees := cuttingTrees.length
    relatedTrees := relatedTrees
    totalRelationships := motherTrees.length + cuttingTrees.length }

/-- `createClipboardData(area, treesInArea, relationshipData)`; `now` stands for
`Date.now()`, `isoNow` for `new Date().toISOString()` and `domeId` for the page global. -/
def createClipboardData (domeId : Int) (now : Nat) (isoNow : String) (area : Area)
    (treesInArea : List Tree) (relationshipData : RelationshipData) : Clipboard :=
  let markedTrees := treesInArea.map markInside
  let allTrees := markedTrees ++ relationshipData.relatedTrees
  { id := "clipboard_" ++ toString now
    type := "dragArea"
    name := area.name
    width := if truthyInt area.width then area.width.getD 0
             else area.maxCol - area.minCol + 1
    height := if truthyInt area.height then area.height.getD 0
              else area.maxRow - area.minRow + 1
    minRow := area.minRow
    maxRow := area.maxRow
    minCol := area.minCol
    maxCol := area.maxCol
    color := area.color
    trees := allTrees
    trees_data := allTrees
    tree_count := allTrees.length
    tree_ids := allTrees.map fun t => t.id
    summary :=
      { total_trees := allTrees.length
        trees_in_original_area := treesInArea.length
        related_trees_outside_area := relationshipData.relatedTrees.length
        plant_relationships :=
          { mother_trees := relationshipData.motherTrees
            cutting_trees := relationshipData.cuttingTrees
            complete_relationships := relationshipData.totalRelationships } }
    source_dome_id := domeId
    copied_at := isoNow
    clipboard_source := "drag_area_copy" }

/-! ## `DragAreaCopySystem`: paste side -/

/-- The values taken by a loop `for (let i = lo; i <= hi; i++)`, in order. -/
def loopRange (lo hi : Int) : List Int :=
  (List.range (hi + 1 - lo).toNat).map fun (k : Nat) => lo + (k : Int)

/-- `canPasteAt(targetRow, targetCol)` for the clipboard `this.clipboard`, with the page
globals `currentRows`, `currentCols` and `trees` as parameters. The nested loops return
`false` at the first occupied cell, `true` when they run to completion. -/
def canPasteAt (currentRows currentCols : Int) (trees : List Tree) (clipboard : Clipboard)
    (targetRow targetCol : Int) : Bool :=
  let endRow := targetRow + clipboard.height - 1
  let endCol := targetCol + clipboard.width - 1
  if decide (endRow ≥ currentRows) || decide (endCol ≥ currentCols) then
    false
  else
    (loopRange targetRow endRow).all fun row =>
      (loopRange targetCol endCol).all fun col =>
        let existingTree := trees.find? fun t =>
          decide (t.internal_row = row) && decide (t.internal_col = col)
        match existingTree with
        | some _ => false
        | none => true

/-- Outcome of one `fetch` of `executePaste`: a response with `ok` true, a response with
`ok` false, or a rejected request (the inner `catch`). -/
inductive FetchOutcome where
  | ok
  | notOk
  | threw
  deriving DecidableEq, Repr

/-- The JSON body of one `POST /api/dome/<domeId>/trees` request. -/
structure CreateRequest where
  name : Option String
  breed : String
  internal_row : Int
  internal_col : Int
  plant_type : String
  mother_plant_id : Option Int
  info : String
  deriving DecidableEq, Repr

/-- One call `showStatus(message, level)`. -/
structure Status where
  message : String
  level : String
  deriving DecidableEq, Repr

/-- The loop variables of `executePaste`: the requests issued so far and the counters. -/
structure PasteLoop where
  requests : List CreateRequest := []
  createdCount : Nat := 0
  failedCount : Nat := 0
  deriving DecidableEq, Repr

/-- What `executePaste` leaves behind: the requests it issued, its counters, the status
messages shown, the click-to-paste flag and whether a page reload was scheduled. -/
structure PasteResult where
  requests : List CreateRequest
  createdCount : Nat
  failedCount : Nat
  statuses : List Status
  clickToPasteMode : Bool
  reloadScheduled : Bool
  deriving DecidableEq, Repr

/-- The body sent for `tree` at the shifted position. -/
def createRequest (tree : Tree) (newRow newCol : Int) : CreateRequest :=
  { name := tree.name
    breed := orStr tree.breed ""
    internal_row := newRow
    internal_col := newCol
    plant_type := orStr tree.plant_type "mother"
    mother_plant_id := orNull tree.mother_plant_id
    info := orStr tree.info "" }

/-- One iteration of `for (const tree of this.clipboard.trees)`; `outcome k` is the
outcome of the `k`-th request issued (counting from 0). -/
def pasteStep (offsetRow offsetCol : Int) (outcome : Nat → FetchOutcome)
    (st : PasteLoop) (tree : Tree) : PasteLoop :=
  if tree.isInOriginalArea != some true then st
  else
    let newRow := tree.internal_row + offsetRow
    let newCol := tree.internal_col + offsetCol
    let issued := st.requests ++ [createRequest tree newRow newCol]
    match outcome st.requests.length with
    | .ok => { st with requests := issued, createdCount := st.createdCount + 1 }
    | .notOk => { st with requests := issued, failedCount := st.failedCount + 1 }
    | .threw => { st with requests := issued, failedCount := st.failedCount + 1 }

/-- `executePaste(targetRow, targetCol)` for the clipboard `this.clipboard`. -/
def executePaste (clipboard : Clipboard) (outcome : Nat → FetchOutcome)
    (targetRow targetCol : Int) : PasteResult :=
  let offsetRow := targetRow - clipboard.minRow
  let offsetCol := targetCol - clipboard.minCol
  let final := clipboard.trees.foldl (pasteStep offsetRow offsetCol outcome) {}
  { requests := final.requests
    createdCount := final.createdCount
    failedCount := final.failedCount
    statuses :=
      [ { message := "Pasting trees...", level := "info" },
        if final.createdCount > 0 then
          { message := "Successfully pasted " ++ toString final.createdCount ++ " trees!",
            level := "success" }
        else
          { message := "Failed to paste any trees", level := "error" } ]
    clickToPasteMode := false
    reloadScheduled := decide (final.createdCount > 0) }

/-! ## `unified_clipboard_system.js`: the dome-scoped clipboard store -/

/-- The value of the property `copied_tree_data` of a single-tree entry: the copied tree
(`tree`) and the number of its cuttings (`relationships.total_cuttings`). -/
structure CopiedTreeData where
  tree : Option Tree := none
  total_cuttings : Option Int := none
  source_dome_id : Option Int := none
  deriving DecidableEq, Repr

/-- One element of `relationship_metadata.mother_cutting_pairs`. -/
structure RelationPair where
  mother_original_id : Option Int := none
  cutting_original_id : Option Int := none
  relationship_preserved : Option Bool := none
  deriving DecidableEq, Repr

/-- The property `relationship_metadata` of an entry. -/
structure RelationshipMetadata where
  mother_cutting_pairs : Option (List RelationPair) := none
  deriving DecidableEq, Repr

/-- One value of the object `motherGroups` built by `fixedHandlePasteButtonClick`. -/
structure MotherGroup where
  mother : RelationPair
  cuttings : List RelationPair
  deriving DecidableEq, Repr

/-- The property `processedRelationships` that `fixedHandlePasteButtonClick` attaches to an
entry; `motherGroups` lists the groups by key, in order of creation. -/
structure ProcessedRelationships where
  motherGroups : List (Option Int × MotherGroup)
  totalRelationships : Nat
  preservedRelationships : Nat
  deriving DecidableEq, Repr

/-- A clipboard entry as the store scripts handle it: an object whose properties may be
missing. The properties listed are those the store, the paste-button display and the
paste planner read or write; `tree` and `total_cuttings` (for
`relationships.total_cuttings`) are the properties read on `window.copiedTreeData`,
`data_trees` and `content_trees` stand for `data.trees` and `clipboard_content.trees`. -/
structure ClipboardEntry where
  id : Option String := none
  type : Option String := none
  name : Option String := none
  width : Option Int := none
  height : Option Int := none
  minRow : Option Int := none
  maxRow : Option Int := none
  minCol : Option Int := none
  maxCol : Option Int := none
  color : Option String := none
  trees : Option (List Tree) := none
  trees_data : Option (List Tree) := none
  tree_count : Option Int := none
  tree_ids : Option (List Int) := none
  summary : Option Summary := none
  source_dome_id : Option Int := none
  copied_at : Option String := none
  clipboard_source : Option String := none
  unified_version : Option String := none
  copied_tree_data : Option CopiedTreeData := none
  tree : Option Tree := none
  total_cuttings : Option Int := none
  source_farm_id : Option Int := none
  timestamp : Option Nat := none
  source_dome_name : Option String := none
  source_farm_name : Option String := none
  data_trees : Option (List Tree) := none
  content_trees : Option (List Tree) := none
  relationship_metadata : Option RelationshipMetadata := none
  processedRelationships : Option ProcessedRelationships := none
  deriving DecidableEq, Repr

/-- What `JSON.parse` can return, as far as the scripts distinguish: `null`, an object
(read through the properties of `ClipboardEntry`), or a number, string or boolean, of
which only the truthiness is kept. -/
inductive JsonValue where
  | null
  | object (data : ClipboardEntry)
  | scalar (truthy : Bool)
  deriving DecidableEq, Repr

/-- A string held by `localStorage`, represented by what `JSON.parse` makes of it: the
text of a JSON value (`JSON.stringify v` is `json v`), or a text `s` on which `JSON.parse`
throws. -/
inductive StoredText where
  | json (v : JsonValue)
  | unparseable (s : String)
  deriving DecidableEq, Repr

/-- Truthiness of a stored string (`if (stored)`): only the empty string is falsy. -/
def StoredText.truthy : StoredText → Bool
  | .json _ => true
  | .unparseable s => s != ""

/-- The content of `localStorage`: `getItem key` is `none` for an absent key. -/
abbrev Storage := String → Option StoredText

/-- `localStorage.setItem(key, value)` when it does not throw. -/
def Storage.setItem (ls : Storage) (key : String) (value : StoredText) : Storage :=
  fun k => if k = key then some value else ls k

/-- `localStorage.removeItem(key)`. -/
def Storage.removeItem (ls : Storage) (key : String) : Storage :=
  fun k => if k = key then none else ls k

/-- The clipboard state of the page: `localStorage`, the closure variables
`_dragClipboard` and `_clipboardArea` behind the accessors `window.dragClipboard` and
`window.clipboardArea` (step 6 of the script), and `window.copiedTreeData`. The paste
button and the status line, which `updatePasteButtonDisplay` and `showStatus` write, are
not part of this state. -/
structure PageState where
  localStorage : Storage
  _dragClipboard : Option ClipboardEntry
  _clipboardArea : Option ClipboardEntry
  copiedTreeData : Option ClipboardEntry

/-- The assignment `window.dragClipboard = value` (setter of step 6); the setter also
schedules `updatePasteButtonDisplay`, which writes the paste button only. -/
def PageState.setDragClipboard (s : PageState) (value : Option ClipboardEntry) : PageState :=
  { s with _dragClipboard := value, _clipboardArea := value }

/-- The assignment `window.clipboardArea = value` (setter of step 6); the setter also
schedules `updatePasteButtonDisplay`, which writes the paste button only. -/
def PageState.setClipboardArea (s : PageState) (value : Option ClipboardEntry) : PageState :=
  { s with _clipboardArea := value, _dragClipboard := value }

/-- The list `allPossibleKeys` of `clearAllClipboardData`. -/
def allPossibleKeys (domeId : Int) : List String :=
  [ "globalDragClipboard",
    "globalTreeClipboard",
    "globalRegularClipboard",
    "copiedTreeData",
    "clipboardArea",
    "dragClipboard",
    "clipboardBroadcast",
    "globalDragClipboardTimestamp",
    "globalRegularClipboardTimestamp",
    "globalClipboardTimestamp",
    "domeClipboard_" ++ toString domeId,
    "dragClipboard_dome_" ++ toString domeId,
    "areaClipboard_dome_" ++ toString domeId,
    "globalDragClipboard_dome_" ++ toString domeId,
    "globalTreeClipboard_dome_" ++ toString domeId ]

/-- `clearAllClipboardData()`. -/
def clearAllClipboardData (domeId : Int) (s : PageState) : PageState :=
  let s := { s with
    localStorage := (allPossibleKeys domeId).foldl (fun ls key => ls.removeItem key)
      s.localStorage }
  let s := s.setDragClipboard none
  let s := s.setClipboardArea none
  { s with copiedTreeData := none }

/-- The constant `UNIFIED_CLIPBOARD_KEY`. -/
def UNIFIED_CLIPBOARD_KEY (domeId : Int) : String :=
  "unifiedClipboard_dome_" ++ toString domeId

/-- The object spread `{...clipboardData}`; spreading `null` or `undefined` gives `{}`. -/
def spreadEntry (clipboardData : Option ClipboardEntry) : ClipboardEntry :=
  clipboardData.getD {}

/-- `saveUnifiedClipboard(clipboardData, source)`: the returned value and the new state.
`isoNow` stands for `new Date().toISOString()`; `setItemThrows` tells whether
`localStorage.setItem` throws (quota exceeded), in which case the `catch` returns `null`. -/
def saveUnifiedClipboard (domeId : Int) (isoNow : String) (setItemThrows : Bool)
    (clipboardData : Option ClipboardEntry) (source : Option String) (s : PageState) :
    Option ClipboardEntry × PageState :=
  let unifiedData : ClipboardEntry :=
    { spreadEntry clipboardData with
      source_dome_id := some domeId
      copied_at := some isoNow
      clipboard_source := source
      unified_version := some "1.0" }
  if setItemThrows then (none, s)
  else
    let s := { s with
      localStorage := s.localStorage.setItem (UNIFIED_CLIPBOARD_KEY domeId)
        (.json (.object unifiedData)) }
    let s := s.setDragClipboard (some unifiedData)
    let s := s.setClipboardArea (some unifiedData)
    (some unifiedData, s)

/-- `loadUnifiedClipboard()`: the returned value and the new state. A `JSON.parse` that
throws, and the property read on `null`, end in the `catch`. -/
def loadUnifiedClipboard (domeId : Int) (s : PageState) : Option ClipboardEntry × PageState :=
  match s.localStorage (UNIFIED_CLIPBOARD_KEY domeId) with
  | none => (none, s)
  | some stored =>
    if stored.truthy then
      match stored with
      | .unparseable _ => (none, s)
      | .json .null => (none, s)
      | .json (.scalar _) => (none, s)
      | .json (.object data) =>
        if data.source_dome_id = some domeId then
          let s := s.setDragClipboard (some data)
          let s := s.setClipboardArea (some data)
          (some data, s)
        else (none, s)
    else (none, s)

/-! ## The paste button and its display (`clipboard_debug_fix.js`, `complete_clipboard_fix.js`) -/

/-- The expression `n || d` for a possibly missing number `n` and a number default `d`. -/
def orInt (n : Option Int) (d : Int) : Int :=
  match n with
  | some v => if v != 0 then v else d
  | none => d

/-- The element `#pasteAreaBtn`: `style.display`, `textContent`, and whether its class
list holds `paste-btn-cross-dome`. -/
structure PasteButton where
  display : String
  textContent : String
  crossDome : Bool
  deriving DecidableEq, Repr

/-- The two assignments `window.dragClipboard = value; window.clipboardArea = value;` made
in sequence: with plain properties as with the accessors of the unified system, both
mirrors hold `value` afterwards. -/
def PageState.assignBoth (s : PageState) (value : Option ClipboardEntry) : PageState :=
  { s with _dragClipboard := value, _clipboardArea := value }

/-- The label of a single tree: `'📋 Paste "' + treeName + '"'`, followed by
`' (+' + relationshipCount + ')'` when `relationshipCount > 0`. -/
def treeLabel (treeName : String) (relationshipCount : Int) : String :=
  if relationshipCount > 0 then
    "📋 Paste \"" ++ treeName ++ "\" (+" ++ toString relationshipCount ++ ")"
  else
    "📋 Paste \"" ++ treeName ++ "\""

/-- The cross-dome marking that ends each branch of the display functions, for the
`source_dome_id` of the entry shown. -/
def markCrossDome (domeId : Int) (source_dome_id : Option Int) (pasteBtn : PasteButton) :
    PasteButton :=
  if truthyInt source_dome_id && decide (source_dome_id ≠ some domeId) then
    { pasteBtn with
      textContent := pasteBtn.textContent ++ " [Cross-Dome]"
      crossDome := true }
  else
    { pasteBtn with crossDome := false }

/-- The label the display functions write for `dragClipboard`, and again, with the same
text, for `clipboardArea`: the single-tree label when `type` is `'single_tree'`, the area
label otherwise. -/
def entryLabel (entry : ClipboardEntry) : String :=
  if entry.type = some "single_tree" then
    let treeName :=
      orStr ((entry.copied_tree_data.bind fun c => c.tree).bind fun t => t.name)
        (orStr entry.name "Tree")
    let relationshipCount := orInt (entry.copied_tree_data.bind fun c => c.total_cuttings) 0
    treeLabel treeName relationshipCount
  else
    let treeCount :=
      orInt entry.tree_count (orInt (entry.trees.map fun l => (l.length : Int)) 0)
    "📋 Paste " ++ orStr entry.name "Area" ++ " (" ++ toString treeCount ++ " trees)"

/-- The block the display functions run for `dragClipboard`, and again, with the same
text, for `clipboardArea`: show the button, write the label, then mark a cross-dome
entry. -/
def showEntry (domeId : Int) (entry : ClipboardEntry) (pasteBtn : PasteButton) :
    PasteButton :=
  let pasteBtn := { pasteBtn with display := "block" }
  let pasteBtn := { pasteBtn with textContent := entryLabel entry }
  markCrossDome domeId entry.source_dome_id pasteBtn

/-- The block the display functions run for `copiedTreeData`, once `treeName` is known. -/
def showCopiedTree (domeId : Int) (copiedTreeData : ClipboardEntry) (treeName : String)
    (pasteBtn : PasteButton) : PasteButton :=
  let pasteBtn := { pasteBtn with display := "block" }
  let relationshipCount := orInt copiedTreeData.total_cuttings 0
  let pasteBtn := { pasteBtn with textContent := treeLabel treeName relationshipCount }
  markCrossDome domeId copiedTreeData.source_dome_id pasteBtn

/-- The last branch of the display functions: hide the button and reset its label. -/
def hidePasteButton (pasteBtn : PasteButton) : PasteButton :=
  { pasteBtn with display := "none", textContent := "📋 Paste Area" }

/-- `updatePasteButtonDisplayFixed()` of `clipboard_debug_fix.js`; `pasteBtn` is what
`document.getElementById('pasteAreaBtn')` returns, `none` when the element is absent. -/
def updatePasteButtonDisplayFixed (domeId : Int) (s : PageState)
    (pasteBtn : Option PasteButton) : Option PasteButton :=
  match pasteBtn with
  | none => none
  | some pasteBtn =>
    let dragClipboard := s._dragClipboard
    let clipboardArea := s._clipboardArea
    let copiedTreeData := s.copiedTreeData
    match dragClipboard.filter fun d => truthyStr d.name with
    | some dragClipboard => some (showEntry domeId dragClipboard pasteBtn)
    | none =>
      match clipboardArea.filter fun a => truthyStr a.name with
      | some clipboardArea => some (showEntry domeId clipboardArea pasteBtn)
      | none =>
        match copiedTreeData.filter fun c => truthyStr (c.tree.bind fun t => t.name) with
        | some copiedTreeData =>
          let treeName := ((copiedTreeData.tree.bind fun t => t.name).getD "")
          some (showCopiedTree domeId copiedTreeData treeName pasteBtn)
        | none => some (hidePasteButton pasteBtn)

/-- `updatePasteButtonDisplay()` of `complete_clipboard_fix.js` (the same body stands in
`fixed_updatePasteButtonDisplay.js` and `dome_isolation_fix.js`). -/
def updatePasteButtonDisplay (domeId : Int) (s : PageState)
    (pasteBtn : Option PasteButton) : Option PasteButton :=
  match pasteBtn with
  | none => none
  | some pasteBtn =>
    let dragClipboard := s._dragClipboard
    let clipboardArea := s._clipboardArea
    let copiedTreeData := s.copiedTreeData
    match dragClipboard with
    | some dragClipboard => some (showEntry domeId dragClipboard pasteBtn)
    | none =>
      match clipboardArea with
      | some clipboardArea => some (showEntry domeId clipboardArea pasteBtn)
      | none =>
        match copiedTreeData with
        | some copiedTreeData =>
          let treeName := orStr (copiedTreeData.tree.bind fun t => t.name) "Tree"
          some (showCopiedTree domeId copiedTreeData treeName pasteBtn)
        | none => some (hidePasteButton pasteBtn)

/-! ## `clipboard_debug_fix.js`: `loadExistingClipboard` -/

/-- The constant `UNIFIED_KEY` of `fixedUnifiedClipboardSystem`. -/
def UNIFIED_KEY (domeId : Int) : String := "unifiedClipboard_dome_" ++ toString domeId

/-- The first `try` of `loadExistingClipboard`: the entry under the unified key, when it
carries the active dome and a name. A `JSON.parse` that throws and the property read on
`null` end in the `catch`. -/
def readUnifiedEntry (domeId : Int) (s : PageState) : Option ClipboardEntry :=
  match s.localStorage (UNIFIED_KEY domeId) with
  | none => none
  | some stored =>
    if stored.truthy then
      match stored with
      | .unparseable _ => none
      | .json .null => none
      | .json (.scalar _) => none
      | .json (.object data) =>
        if decide (data.source_dome_id = some domeId) && truthyStr data.name then some data
        else none
    else none

/-- The loop `for (const key of otherKeys)` of `loadExistingClipboard`, from the key list
still to visit. A throwing `JSON.parse` or `setItem` ends in the `catch`, and the loop goes
on with the next key. -/
def migrateOtherKeys (domeId : Int) (isoNow : String) (setItemThrows : Bool)
    (s : PageState) : List String → Option ClipboardEntry × PageState
  | [] => (none, s)
  | key :: rest =>
    match s.localStorage key with
    | none => migrateOtherKeys domeId isoNow setItemThrows s rest
    | some stored =>
      if stored.truthy then
        match stored with
        | .unparseable _ => migrateOtherKeys domeId isoNow setItemThrows s rest
        | .json .null => migrateOtherKeys domeId isoNow setItemThrows s rest
        | .json (.scalar _) => migrateOtherKeys domeId isoNow setItemThrows s rest
        | .json (.object data) =>
          if truthyStr data.name then
            let unifiedData : ClipboardEntry :=
              { data with
                source_dome_id := some domeId
                copied_at := some isoNow
                unified_version := some "1.0" }
            if setItemThrows then migrateOtherKeys domeId isoNow setItemThrows s rest
            else
              let s := { s with
                localStorage := s.localStorage.setItem (UNIFIED_KEY domeId)
                  (.json (.object unifiedData)) }
              (some unifiedData, s.assignBoth (some unifiedData))
          else migrateOtherKeys domeId isoNow setItemThrows s rest
      else migrateOtherKeys domeId isoNow setItemThrows s rest

/-- The list `otherKeys` of `loadExistingClipboard`. -/
def otherKeys : List String := ["globalDragClipboard", "globalTreeClipboard", "copiedTreeData"]

/-- `loadExistingClipboard()`: the returned value and the new state. -/
def loadExistingClipboard (domeId : Int) (isoNow : String) (setItemThrows : Bool)
    (s : PageState) : Option ClipboardEntry × PageState :=
  match readUnifiedEntry domeId s with
  | some data => (some data, s.assignBoth (some data))
  | none => migrateOtherKeys domeId isoNow setItemThrows s otherKeys

/-! ## `paste_button_fix.js`: `enhancedPasteButtonDisplay` -/

/-- The constant `BACKUP_KEY` of `enhancedPasteButtonDisplay`. -/
def BACKUP_KEY (domeId : Int) : String := "clipboardBackup_dome_" ++ toString domeId

/-- The first half of `enhancedPasteButtonDisplay`: the value of `clipboardData` after the
search through the mirrors and, failing them, through `localStorage`, and the page state
(an entry found in storage is restored to both mirrors). -/
def findClipboardData (domeId : Int) (s : PageState) : Option ClipboardEntry × PageState :=
  let dragClipboard := s._dragClipboard
  let clipboardArea := s._clipboardArea
  let copiedTreeData := s.copiedTreeData
  match dragClipboard.filter fun d => truthyStr d.name with
  | some dragClipboard => (some dragClipboard, s)
  | none =>
    match clipboardArea.filter fun a => truthyStr a.name with
    | some clipboardArea => (some clipboardArea, s)
    | none =>
      match copiedTreeData.filter fun c => truthyStr (c.tree.bind fun t => t.name) with
      | some copiedTreeData => (some copiedTreeData, s)
      | none =>
        let stored :=
          match (s.localStorage (UNIFIED_KEY domeId)).filter fun t => t.truthy with
          | some stored => some stored
          | none => s.localStorage (BACKUP_KEY domeId)
        match stored with
        | none => (none, s)
        | some stored =>
          if stored.truthy then
            match stored with
            | .unparseable _ => (none, s)
            | .json .null => (none, s)
            | .json (.scalar _) => (none, s)
            | .json (.object data) =>
              if truthyStr data.name && decide (data.source_dome_id = some domeId) then
                (some data, s.assignBoth (some data))
              else (none, s)
          else (none, s)

/-- `enhancedPasteButtonDisplay()`: the new page state and the new paste button. -/
def enhancedPasteButtonDisplay (domeId : Int) (s : PageState)
    (pasteBtn : Option PasteButton) : PageState × Option PasteButton :=
  match pasteBtn with
  | none => (s, none)
  | some pasteBtn =>
    let found := findClipboardData domeId s
    match found.1.filter fun c => truthyStr c.name with
    | some clipboardData => (found.2, some (showEntry domeId clipboardData pasteBtn))
    | none => (found.2, some (hidePasteButton pasteBtn))

/-! ## `static/js/backend_clipboard.js` and `static/js/cross_grid_clipboard.js` -/

/-- The object `source_info` of the backend answers. -/
structure SourceInfo where
  dome_name : Option String := none
  farm_name : Option String := none
  deriving DecidableEq, Repr

/-- The object `clipboard_data` of the backend answers. -/
structure BackendRecord where
  name : Option String := none
  tree_count : Option Int := none
  clipboard_content : Option ClipboardEntry := none
  source_dome_id : Option Int := none
  source_farm_id : Option Int := none
  width : Option Int := none
  height : Option Int := none
  source_info : Option SourceInfo := none
  deriving DecidableEq, Repr

/-- What `POST /api/clipboard/save` gives: a rejected `fetch` or `response.json()`, or
the parsed answer. -/
inductive SaveResponse where
  | threw (message : String)
  | answer (success : Bool) (clipboard_id : Option Int)
      (clipboard_data : Option BackendRecord) (error : Option String)
  deriving DecidableEq, Repr

/-- What `GET /api/clipboard/load` gives: a rejected `fetch` or `response.json()`, or the
parsed answer. -/
inductive LoadResponse where
  | threw
  | answer (success : Bool) (has_clipboard : Bool) (clipboard_data : Option BackendRecord)
  deriving DecidableEq, Repr

/-- The body of a save request. -/
structure SavePayload where
  clipboard_type : String
  name : String
  source_dome_id : Option Int
  source_farm_id : Option Int
  clipboard_content : ClipboardEntry
  expires_in_hours : Option Int := none
  deriving DecidableEq, Repr

/-- A request sent to the backend. -/
inductive NetRequest where
  | save (payload : SavePayload)
  | load
  | status
  | clear
  deriving DecidableEq, Repr

/-- The page as the backend scripts act on it: the clipboard state, the paste button
(`none` when the element is absent), the calls made to `showStatus`, the requests sent,
and whether `showStatus` is defined. The element `#clipboardStatus`, which only
`updateClipboardIndicators` writes, is left out. -/
structure Browser where
  page : PageState
  pasteBtn : Option PasteButton
  statuses : List Status := []
  requests : List NetRequest := []
  showStatusDefined : Bool := true

/-- The call `showStatus(message, level)` guarded by `typeof showStatus === 'function'`. -/
def Browser.showStatus (w : Browser) (message level : String) : Browser :=
  if w.showStatusDefined then
    { w with statuses := w.statuses ++ [{ message := message, level := level }] }
  else w

/-- Truthiness of a parsed JSON value. -/
def JsonValue.truthy : JsonValue → Bool
  | .null => false
  | .object _ => true
  | .scalar b => b

/-- A parsed JSON value as a mirror holds it, as far as the scripts observe a mirror (its
truthiness and its properties): `null` and a falsy scalar read as no entry, a truthy scalar
as an object without properties. -/
def JsonValue.asEntry : JsonValue → Option ClipboardEntry
  | .null => none
  | .object data => some data
  | .scalar true => some {}
  | .scalar false => none

/-- An instance of the class `BackendClipboard`. -/
structure BackendClipboard where
  isEnabled : Bool := true
  currentClipboard : Option BackendRecord := none
  lastSaveTime : Option Nat := none
  autoSaveEnabled : Bool := true
  deriving DecidableEq, Repr

/-- What `BackendClipboard.saveToBackend` returns: `false` when disabled, the success
object, or the failure object. -/
inductive SaveOutcome where
  | disabled
  | saved (clipboardId : Option Int) (data : Option BackendRecord)
  | failed (error : Option String)
  deriving DecidableEq, Repr

/-- The property `success` read on the value returned by `saveToBackend`. -/
def SaveOutcome.success : SaveOutcome → Bool
  | .saved _ _ => true
  | _ => false

/-- The property `error` read on the value returned by `saveToBackend`. -/
def SaveOutcome.error : SaveOutcome → Option String
  | .failed e => e
  | _ => none

/-- `BackendClipboard.updateClipboardIndicators(hasClipboard)`, on the paste button. -/
def BackendClipboard.updateClipboardIndicators (bc : BackendClipboard) (hasClipboard : Bool)
    (pasteBtn : Option PasteButton) : Option PasteButton :=
  match pasteBtn with
  | none => none
  | some pasteBtn =>
    if hasClipboard then
      let pasteBtn := { pasteBtn with display := "block", crossDome := true }
      match bc.currentClipboard with
      | some currentClipboard =>
        let treeCount := orInt currentClipboard.tree_count 0
        let clipboardName := orStr currentClipboard.name "Area"
        some { pasteBtn with
          textContent :=
            "📋 Paste " ++ clipboardName ++ " (" ++ toString treeCount ++ " trees)" }
      | none => some pasteBtn
    else
      some { pasteBtn with display := "none", crossDome := false }

/-- `BackendClipboard.saveToBackend(clipboardData, options)`. `domeId` and `farmId` stand
for `window.domeId` and `window.farmId`, `now` for `new Date()`, `response` for what the
save request gives. -/
def BackendClipboard.saveToBackend (bc : BackendClipboard) (w : Browser) (domeId : Int)
    (farmId : Option Int) (now : Nat) (response : SaveResponse)
    (clipboardData : ClipboardEntry) (expiresInHours : Option Int) :
    SaveOutcome × BackendClipboard × Browser :=
  if !bc.isEnabled then (.disabled, bc, w)
  else
    let payload : SavePayload :=
      { clipboard_type := orStr clipboardData.type "drag_area"
        name := orStr clipboardData.name "Unnamed Clipboard"
        source_dome_id := orNull (some domeId)
        source_farm_id := orNull farmId
        clipboard_content := clipboardData
        expires_in_hours := orNull expiresInHours }
    let w := { w with requests := w.requests ++ [.save payload] }
    match response with
    | .threw message => (.failed (some message), bc, w)
    | .answer success clipboard_id clipboard_data error =>
      if success then
        let bc := { bc with currentClipboard := clipboard_data, lastSaveTime := some now }
        let w := { w with pasteBtn := bc.updateClipboardIndicators true w.pasteBtn }
        (.saved clipboard_id clipboard_data, bc, w)
      else (.failed error, bc, w)

/-- `BackendClipboard.loadFromBackend()`. A missing `clipboard_data` makes the property
read throw, which ends in the `catch`. -/
def BackendClipboard.loadFromBackend (bc : BackendClipboard) (w : Browser)
    (response : LoadResponse) : Option ClipboardEntry × BackendClipboard × Browser :=
  if !bc.isEnabled then (none, bc, w)
  else
    let w := { w with requests := w.requests ++ [.load] }
    match response with
    | .threw => (none, bc, w)
    | .answer success has_clipboard clipboard_data =>
      if success && has_clipboard then
        match clipboard_data with
        | none => (none, bc, w)
        | some clipboard_data =>
          let bc := { bc with currentClipboard := some clipboard_data }
          let w := { w with pasteBtn := bc.updateClipboardIndicators true w.pasteBtn }
          (clipboard_data.clipboard_content, bc, w)
      else
        let w := { w with pasteBtn := bc.updateClipboardIndicators false w.pasteBtn }
        (none, bc, w)

/-- The object returned by `BackendClipboard.enhancedCopy`. -/
structure CopyResult where
  success : Bool
  frontend : Bool
  backend : Bool
  error : Option String := none
  deriving DecidableEq, Repr

/-- The two `localStorage.setItem` calls in the `try` of `enhancedCopy`; `throwsOn key`
tells whether `setItem` throws for that key, which ends the `try`. -/
def backupToStorage (domeId : Int) (throwsOn : String → Bool) (clipboardData : ClipboardEntry)
    (ls : Storage) : Storage :=
  if throwsOn "globalDragClipboard" then ls
  else
    let ls := ls.setItem "globalDragClipboard" (.json (.object clipboardData))
    if throwsOn ("domeClipboard_" ++ toString domeId) then ls
    else ls.setItem ("domeClipboard_" ++ toString domeId) (.json (.object clipboardData))

/-- `BackendClipboard.enhancedCopy(clipboardData)`. -/
def BackendClipboard.enhancedCopy (bc : BackendClipboard) (w : Browser) (domeId : Int)
    (farmId : Option Int) (now : Nat) (throwsOn : String → Bool) (response : SaveResponse)
    (clipboardData : ClipboardEntry) : CopyResult × BackendClipboard × Browser :=
  let page := w.page.assignBoth (some clipboardData)
  let page := { page with
    localStorage := backupToStorage domeId throwsOn clipboardData page.localStorage }
  let w := { w with page := page }
  let saved := bc.saveToBackend w domeId farmId now response clipboardData none
  let backendResult := saved.1
  if backendResult.success then
    ({ success := true, frontend := true, backend := true }, saved.2)
  else
    ({ success := true, frontend := true, backend := false, error := backendResult.error },
      saved.2)

/-- `copyAreaToBackendClipboard(areaData)`, for the global instance `bc`. -/
def copyAreaToBackendClipboard (bc : BackendClipboard) (w : Browser) (domeId : Int)
    (farmId : Option Int) (now : Nat) (throwsOn : String → Bool) (response : SaveResponse)
    (areaData : ClipboardEntry) : Bool × BackendClipboard × Browser :=
  let copied := bc.enhancedCopy w domeId farmId now throwsOn response areaData
  let result := copied.1
  let bc := copied.2.1
  let w := copied.2.2
  if result.success then
    let message :=
      if result.backend then
        "Area \"" ++ areaData.name.getD "undefined" ++ "\" copied to clipboard (backend saved)"
      else
        "Area \"" ++ areaData.name.getD "undefined" ++ "\" copied to clipboard (frontend only)"
    (true, bc, w.showStatus message (if result.backend then "success" else "warning"))
  else
    (false, bc, w.showStatus "Failed to copy area to clipboard" "error")

/-- The object returned by `BackendClipboard.enhancedLoad`. -/
structure LoadResult where
  success : Bool
  data : JsonValue
  source : String
  deriving DecidableEq, Repr

/-- `BackendClipboard.enhancedLoad()`. -/
def BackendClipboard.enhancedLoad (bc : BackendClipboard) (w : Browser)
    (response : LoadResponse) : LoadResult × BackendClipboard × Browser :=
  let loaded := bc.loadFromBackend w response
  let bc := loaded.2.1
  let w := loaded.2.2
  match loaded.1 with
  | some backendData =>
    let w := { w with page := w.page.assignBoth (some backendData) }
    ({ success := true, data := .object backendData, source := "backend" }, bc, w)
  | none =>
    let frontendData : JsonValue :=
      match w.page._dragClipboard with
      | some dragClipboard => .object dragClipboard
      | none =>
        match w.page._clipboardArea with
        | some clipboardArea => .object clipboardArea
        | none =>
          match w.page.localStorage "globalDragClipboard" with
          | none => .null
          | some globalClipboard =>
            if globalClipboard.truthy then
              match globalClipboard with
              | .unparseable _ => .null
              | .json v => v
            else .null
    if frontendData.truthy then
      ({ success := true, data := frontendData, source := "frontend" }, bc, w)
    else
      ({ success := false, data := .null, source := "none" }, bc, w)

/-- An instance of the class `CrossGridClipboard`. -/
structure CrossGridClipboard where
  isEnabled : Bool := true
  autoSaveEnabled : Bool := true
  deriving DecidableEq, Repr

/-- `CrossGridClipboard.updatePasteButton(hasClipboard, clipboardData)`. -/
def CrossGridClipboard.updatePasteButton (w : Browser) (hasClipboard : Bool)
    (clipboardData : Option ClipboardEntry) : Browser :=
  match w.pasteBtn with
  | none => w
  | some pasteBtn =>
    match (if hasClipboard then clipboardData else none) with
    | some clipboardData =>
      let treeCount :=
        orInt clipboardData.tree_count
          (orInt (clipboardData.trees.map fun l => (l.length : Int)) 0)
      let clipboardName := orStr clipboardData.name "Area"
      let pasteBtn : PasteButton :=
        { display := "block"
          textContent :=
            "📋 Paste " ++ clipboardName ++ " (" ++ toString treeCount ++ " trees)"
          crossDome := true }
      let w := { w with pasteBtn := some pasteBtn }
      w.showStatus
        ("Clipboard available: " ++ clipboardName ++ " (" ++ toString treeCount ++ " trees)")
        "info"
    | none =>
      { w with pasteBtn := some { pasteBtn with display := "none", crossDome := false } }

/-- `CrossGridClipboard.saveToBackend(clipboardData)`. -/
def CrossGridClipboard.saveToBackend (cg : CrossGridClipboard) (w : Browser) (domeId : Int)
    (farmId : Option Int) (response : SaveResponse)
    (clipboardData : Option ClipboardEntry) : Bool × Browser :=
  match (if cg.isEnabled then clipboardData else none) with
  | none => (false, w)
  | some clipboardData =>
    let payload : SavePayload :=
      { clipboard_type := orStr clipboardData.type "drag_area"
        name := orStr clipboardData.name "Copied Area"
        source_dome_id := orNull (some domeId)
        source_farm_id := orNull farmId
        clipboard_content := clipboardData }
    let w := { w with requests := w.requests ++ [.save payload] }
    match response with
    | .threw _ => (false, w)
    | .answer success _ _ _ =>
      if success then (true, CrossGridClipboard.updatePasteButton w true (some clipboardData))
      else (false, w)

/-- `CrossGridClipboard.loadFromBackend()`. `JSON.stringify(undefined)` is `undefined`,
which `setItem` stores as the text `undefined`. -/
def CrossGridClipboard.loadFromBackend (cg : CrossGridClipboard) (w : Browser)
    (throwsOn : String → Bool) (response : LoadResponse) :
    Option ClipboardEntry × Browser :=
  if !cg.isEnabled then (none, w)
  else
    let w := { w with requests := w.requests ++ [.load] }
    match response with
    | .threw => (none, w)
    | .answer success has_clipboard clipboard_data =>
      if success && has_clipboard then
        match clipboard_data with
        | none => (none, w)
        | some clipboard_data =>
          let clipboardContent := clipboard_data.clipboard_content
          let page := w.page.assignBoth clipboardContent
          let page :=
            if throwsOn "globalDragClipboard" then page
            else
              { page with
                localStorage := page.localStorage.setItem "globalDragClipboard"
                  (match clipboardContent with
                   | some content => .json (.object content)
                   | none => .unparseable "undefined") }
          let w := { w with page := page }
          (clipboardContent, CrossGridClipboard.updatePasteButton w true clipboardContent)
      else (none, CrossGridClipboard.updatePasteButton w false none)

/-- `CrossGridClipboard.checkForClipboard()`; `loadResponse` and `saveResponse` are what
the load request and the save request, if sent, give. -/
def CrossGridClipboard.checkForClipboard (cg : CrossGridClipboard) (w : Browser)
    (domeId : Int) (farmId : Option Int) (throwsOn : String → Bool)
    (loadResponse : LoadResponse) (saveResponse : SaveResponse) : Browser :=
  let loaded := cg.loadFromBackend w throwsOn loadResponse
  let w := loaded.2
  match loaded.1 with
  | some _ => w
  | none =>
    match w.page.localStorage "globalDragClipboard" with
    | none => w
    | some localData =>
      if localData.truthy then
        match localData with
        | .unparseable _ => w
        | .json v =>
          let clipboardData := v.asEntry
          let w := { w with page := w.page.assignBoth clipboardData }
          let w := CrossGridClipboard.updatePasteButton w true clipboardData
          (cg.saveToBackend w domeId farmId saveResponse clipboardData).2
      else w

/-! ## `unified_clipboard_system.js`: `window.clearClipboardStorage` -/

/-- What the global name `updatePasteButtonDisplay` is bound to when a script calls it
under the guard `typeof updatePasteButtonDisplay === 'function'`: nothing, or one of the
functions that the scripts of the repository install under that name: the
`updatePasteButtonDisplay` of `complete_clipboard_fix.js`, `dome_isolation_fix.js` and
`fixed_updatePasteButtonDisplay.js`, the `updatePasteButtonDisplayFixed` of
`clipboard_debug_fix.js`, or the `enhancedPasteButtonDisplay` of `paste_button_fix.js`
(`corrected_paste_button_fix.js` wraps the function it finds and adds a timer only). -/
inductive DisplayFunction where
  | notDefined
  | plainDisplay
  | fixedDisplay
  | enhancedDisplay
  deriving DecidableEq, Repr

/-- The guarded call `updatePasteButtonDisplay()`: the page and the paste button as the
function bound to the name leaves them. -/
def DisplayFunction.call (domeId : Int) (display : DisplayFunction) (s : PageState)
    (pasteBtn : Option PasteButton) : PageState × Option PasteButton :=
  match display with
  | .notDefined => (s, pasteBtn)
  | .plainDisplay => (s, updatePasteButtonDisplay domeId s pasteBtn)
  | .fixedDisplay => (s, updatePasteButtonDisplayFixed domeId s pasteBtn)
  | .enhancedDisplay => enhancedPasteButtonDisplay domeId s pasteBtn

/-- `window.clearClipboardStorage()` of `unified_clipboard_system.js`; `display` is the
binding of the global `updatePasteButtonDisplay` at the time of the call. -/
def clearClipboardStorage (domeId : Int) (display : DisplayFunction) (w : Browser) :
    Browser :=
  let page := clearAllClipboardData domeId w.page
  let page := { page with
    localStorage := page.localStorage.removeItem (UNIFIED_CLIPBOARD_KEY domeId) }
  let shown := display.call domeId page w.pasteBtn
  let w := { w with page := shown.1, pasteBtn := shown.2 }
  w.showStatus "Clipboard cleared" "info"

/-! ## `DragAreaCopySystem`: click-to-paste mode -/

/-- A function registered as a `click` listener on `document`: the method
`this.handlePasteClick` itself, or the function returned by the `n`-th call of
`this.handlePasteClick.bind(this)` (each call of `bind` returns a new function). -/
inductive ClickListener where
  | handlePasteClick
  | boundHandlePasteClick (n : Nat)
  deriving DecidableEq, Repr

/-- `document.addEventListener('click', listener, ...)`: a function already registered
for the event is not registered a second time. -/
def addEventListener (listeners : List ClickListener) (listener : ClickListener) :
    List ClickListener :=
  if listener ∈ listeners then listeners else listeners ++ [listener]

/-- `document.removeEventListener('click', listener)`. -/
def removeEventListener (listeners : List ClickListener) (listener : ClickListener) :
    List ClickListener :=
  listeners.filter fun l => l != listener

/-- The state that click-to-paste mode acts on: `this.clipboard`, the flag
`window.clickToPasteMode`, whether the grid carries the class `click-to-paste-mode`
(`none` when the element `#treeGrid` is absent), the `click` listeners of `document`, the
number of calls of `bind` made so far, and the calls made to `showStatus`. -/
structure ClickPasteState where
  clipboard : Option Clipboard
  clickToPasteMode : Bool := false
  grid : Option Bool := some false
  listeners : List ClickListener := []
  bindCalls : Nat := 0
  statuses : List Status := []
  deriving DecidableEq, Repr

/-- `enableClickToPaste()`. -/
def enableClickToPaste (st : ClickPasteState) : ClickPasteState :=
  match st.clipboard with
  | none =>
    { st with statuses := st.statuses ++ [{ message := "No area in clipboard", level := "error" }] }
  | some _ =>
    { st with
      clickToPasteMode := true
      grid := st.grid.map fun _ => true
      statuses := st.statuses ++
        [{ message := "Click on an empty area to paste", level := "info" }]
      listeners := addEventListener st.listeners (.boundHandlePasteClick st.bindCalls)
      bindCalls := st.bindCalls + 1 }

/-- `disableClickToPaste()`. -/
def disableClickToPaste (st : ClickPasteState) : ClickPasteState :=
  { st with
    clickToPasteMode := false
    grid := st.grid.map fun _ => false
    listeners := removeEventListener st.listeners .handlePasteClick }

/-- The number of times one click on a grid cell where `canPasteAt` holds starts
`executePaste`: once per registered listener that runs `handlePasteClick`, the mode being
on and a clipboard present. With a tree to create, `executePaste` is suspended at its
first `fetch` before it leaves the mode, so every listener of the click finds the mode
on. -/
def pastesStartedByClick (st : ClickPasteState) : Nat :=
  if st.clickToPasteMode && st.clipboard.isSome then st.listeners.length else 0

/-! ## `unified_clipboard_system.js`: the property watchers -/

/-- An assignment to one of the two watched properties. -/
inductive MirrorAssignment where
  | dragClipboard (value : Option ClipboardEntry)
  | clipboardArea (value : Option ClipboardEntry)
  deriving DecidableEq, Repr

/-- The value assigned. -/
def MirrorAssignment.value : MirrorAssignment → Option ClipboardEntry
  | .dragClipboard v => v
  | .clipboardArea v => v

/-- Step 6 of the script: the closure variables start as `null`. -/
def installWatchers (s : PageState) : PageState :=
  { s with _dragClipboard := none, _clipboardArea := none }

/-- One assignment, through the setter of the property assigned. -/
def PageState.assign (s : PageState) : MirrorAssignment → PageState
  | .dragClipboard v => s.setDragClipboard v
  | .clipboardArea v => s.setClipboardArea v

/-- A sequence of assignments, in order. -/
def PageState.assignAll (s : PageState) (assignments : List MirrorAssignment) : PageState :=
  assignments.foldl PageState.assign s

/-! ## `dome_isolation_fix.js`: `clearClipboardStorage` -/

/-- The block `if (globalDrag) { try { ... } catch (e) { ... } }` of
`clearClipboardStorage`, for the value `stored` read under `key` beforehand; `timestampKey`
is the second key removed in the `try` (only for `globalDragClipboard`). A `JSON.parse`
that throws and the property read on `null` end in the `catch`, which removes `key`. -/
def clearGlobalKey (domeId : Int) (key : String) (timestampKey : Option String)
    (stored : Option StoredText) (ls : Storage) : Storage :=
  match stored with
  | none => ls
  | some stored =>
    if stored.truthy then
      match stored with
      | .unparseable _ => ls.removeItem key
      | .json .null => ls.removeItem key
      | .json (.scalar _) =>
        let ls := ls.removeItem key
        match timestampKey with
        | some t => ls.removeItem t
        | none => ls
      | .json (.object data) =>
        if !truthyInt data.source_dome_id || decide (data.source_dome_id = some domeId) then
          let ls := ls.removeItem key
          match timestampKey with
          | some t => ls.removeItem t
          | none => ls
        else ls
    else ls

/-- `clearClipboardStorage()` of `dome_isolation_fix.js` (the same body stands in
`complete_clipboard_fix.js`). The three mirrors have separate watchers in these files; the
paste button is written by the `updatePasteButtonDisplay` of the same file. -/
def DomeIsolation.clearClipboardStorage (domeId : Int) (w : Browser) : Browser :=
  let ls := w.page.localStorage.removeItem ("domeClipboard_" ++ toString domeId)
  let globalDrag := ls "globalDragClipboard"
  let globalTree := ls "globalTreeClipboard"
  let ls := clearGlobalKey domeId "globalDragClipboard" (some "globalDragClipboardTimestamp")
    globalDrag ls
  let ls := clearGlobalKey domeId "globalTreeClipboard" none globalTree ls
  let page : PageState :=
    { localStorage := ls, _dragClipboard := none, _clipboardArea := none,
      copiedTreeData := none }
  let w := { w with page := page, pasteBtn := updatePasteButtonDisplay domeId page w.pasteBtn }
  w.showStatus "Clipboard cleared" "info"

/-! ## `corrected_paste_button_fix.js`: `fixedHandlePasteButtonClick` -/

/-- One step of `motherCuttingPairs.forEach`: the group of the pair's mother is created
when it does not exist yet, and the pair is pushed to its cuttings when the pair's
`cutting_original_id` is truthy. -/
def groupPair (motherGroups : List (Option Int × MotherGroup)) (pair : RelationPair) :
    List (Option Int × MotherGroup) :=
  let motherId := pair.mother_original_id
  let motherGroups :=
    if motherGroups.any fun g => g.1 == motherId then motherGroups
    else motherGroups ++ [(motherId, { mother := pair, cuttings := [] })]
  if truthyInt pair.cutting_original_id then
    motherGroups.map fun g =>
      if g.1 == motherId then (g.1, { g.2 with cuttings := g.2.cuttings ++ [pair] }) else g
  else motherGroups

/-- The block `if (clipboard && clipboard.relationship_metadata) { ... }` of
`fixedHandlePasteButtonClick`: the entry as the block leaves it. -/
def processRelationships (clipboard : ClipboardEntry) : ClipboardEntry :=
  match clipboard.relationship_metadata with
  | none => clipboard
  | some relationshipData =>
    let motherCuttingPairs := relationshipData.mother_cutting_pairs.getD []
    if motherCuttingPairs.length > 0 then
      { clipboard with
        processedRelationships := some
          { motherGroups := motherCuttingPairs.foldl groupPair []
            totalRelationships := motherCuttingPairs.length
            preservedRelationships :=
              (motherCuttingPairs.filter fun p => p.relationship_preserved == some true).length } }
    else clipboard

/-- A write into the properties of the entry object `old`, which becomes `new`, as the two
mirrors show it: a mirror holding the object shows the written entry. The two mirrors are
taken to hold one object when they hold equal records (the scripts assign one object to
both). -/
def PageState.mutateEntry (s : PageState) (old new : ClipboardEntry) : PageState :=
  { s with
    _dragClipboard := if s._dragClipboard = some old then some new else s._dragClipboard
    _clipboardArea := if s._clipboardArea = some old then some new else s._clipboardArea }

/-- The part of `fixedHandlePasteButtonClick` that follows the lookup of `clipboard`: the
relationship block, then the dialog, or the status when `showPasteOptionsDialog` is not a
function. The first component tells whether the dialog was shown. -/
def openPasteDialog (dialogDefined : Bool) (clipboard : ClipboardEntry) (w : Browser) :
    Bool × Browser :=
  let w := { w with page := w.page.mutateEntry clipboard (processRelationships clipboard) }
  if dialogDefined then (true, w)
  else (false, w.showStatus "Paste dialog not available" "error")

/-- `fixedHandlePasteButtonClick()`; `dialogDefined` tells whether
`typeof showPasteOptionsDialog === 'function'`. The first component of the result tells
whether `showPasteOptionsDialog()` was called. -/
def fixedHandlePasteButtonClick (domeId : Int) (dialogDefined : Bool) (w : Browser) :
    Bool × Browser :=
  match w.page._dragClipboard.orElse fun _ => w.page._clipboardArea with
  | some clipboard => openPasteDialog dialogDefined clipboard w
  | none =>
    let stored :=
      match w.page.localStorage (UNIFIED_KEY domeId) with
      | some t => if t.truthy then some t else w.page.localStorage (BACKUP_KEY domeId)
      | none => w.page.localStorage (BACKUP_KEY domeId)
    match stored with
    | none => (false, w.showStatus "No area in clipboard" "warning")
    | some t =>
      if t.truthy then
        match t with
        | .unparseable _ => (false, w.showStatus "Error loading clipboard" "error")
        | .json (.object data) =>
          if truthyStr data.name && decide (data.source_dome_id = some domeId) then
            openPasteDialog dialogDefined data
              { w with page := w.page.assignBoth (some data) }
          else (false, w.showStatus "No area in clipboard" "warning")
        | .json _ => (false, w.showStatus "No area in clipboard" "warning")
      else (false, w.showStatus "No area in clipboard" "warning")

/-! ## `static/js/clipboard_fix.js`: `enhanceClipboardData` -/

/-- The parsed answer of `GET /api/clipboard/load` as `enhanceClipboardData` reads it. In
its `clipboard_data`, a `clipboard_content` of `none` stands for any value that is falsy
or not an object. -/
structure BackendResult where
  clipboard_data : Option BackendRecord := none
  deriving DecidableEq, Repr

/-- The statement `if (!clipboardContent.name && backendResult.clipboard_data.name)
clipboardContent.name = ...` of `enhanceClipboardData`. -/
def fillName (clipboard_data : BackendRecord) (clipboardContent : ClipboardEntry) :
    ClipboardEntry :=
  if !truthyStr clipboardContent.name && truthyStr clipboard_data.name then
    { clipboardContent with name := clipboard_data.name }
  else clipboardContent

/-- The same statement for `tree_count`. -/
def fillTreeCount (clipboard_data : BackendRecord) (clipboardContent : ClipboardEntry) :
    ClipboardEntry :=
  if !truthyInt clipboardContent.tree_count && truthyInt clipboard_data.tree_count then
    { clipboardContent with tree_count := clipboard_data.tree_count }
  else clipboardContent

/-- The same statement for `width`. -/
def fillWidth (clipboard_data : BackendRecord) (clipboardContent : ClipboardEntry) :
    ClipboardEntry :=
  if !truthyInt clipboardContent.width && truthyInt clipboard_data.width then
    { clipboardContent with width := clipboard_data.width }
  else clipboardContent

/-- The same statement for `height`. -/
def fillHeight (clipboard_data : BackendRecord) (clipboardContent : ClipboardEntry) :
    ClipboardEntry :=
  if !truthyInt clipboardContent.height && truthyInt clipboard_data.height then
    { clipboardContent with height := clipboard_data.height }
  else clipboardContent

/-- The block `if (!clipboardContent.trees && !clipboardContent.trees_data) { ... }` of
`enhanceClipboardData`. An array is truthy, so the tests on `trees`, `trees_data`,
`data.trees` and `clipboard_content.trees` are tests of presence. -/
def extractTrees (clipboardContent : ClipboardEntry) : ClipboardEntry :=
  if !clipboardContent.trees.isSome && !clipboardContent.trees_data.isSome then
    if clipboardContent.data_trees.isSome then
      { clipboardContent with
        trees := clipboardContent.data_trees
        trees_data := clipboardContent.data_trees }
    else if clipboardContent.content_trees.isSome then
      { clipboardContent with
        trees := clipboardContent.content_trees
        trees_data := clipboardContent.content_trees }
    else clipboardContent
  else clipboardContent

/-- The four assignments of source information of `enhanceClipboardData`; `now` stands
for `Date.now()`. -/
def addSourceInformation (now : Nat) (clipboard_data : BackendRecord)
    (clipboardContent : ClipboardEntry) : ClipboardEntry :=
  { clipboardContent with
    source_dome_id := clipboard_data.source_dome_id
    source_farm_id := clipboard_data.source_farm_id
    clipboard_source := some "backend_api"
    timestamp := some now }

/-- The block `if (backendResult.clipboard_data.source_info) { ... }` of
`enhanceClipboardData`. -/
def addSourceNames (clipboard_data : BackendRecord) (clipboardContent : ClipboardEntry) :
    ClipboardEntry :=
  match clipboard_data.source_info with
  | some source_info =>
    { clipboardContent with
      source_dome_name := source_info.dome_name
      source_farm_name := source_info.farm_name }
  | none => clipboardContent

/-- `enhanceClipboardData(backendResult)`, its statements in order; `now` stands for
`Date.now()`. -/
def enhanceClipboardData (now : Nat) (backendResult : Option BackendResult) :
    Option ClipboardEntry :=
  match backendResult with
  | none => none
  | some backendResult =>
    match backendResult.clipboard_data with
    | none => none
    | some clipboard_data =>
      match clipboard_data.clipboard_content with
      | none => none
      | some clipboardContent =>
        let clipboardContent := fillName clipboard_data clipboardContent
        let clipboardContent := fillTreeCount clipboard_data clipboardContent
        let clipboardContent := fillWidth clipboard_data clipboardContent
        let clipboardContent := fillHeight clipboard_data clipboardContent
        let clipboardContent := extractTrees clipboardContent
        let clipboardContent := addSourceInformation now clipboard_data clipboardContent
        let clipboardContent := addSourceNames clipboard_data clipboardContent
        some clipboardContent

/-! ## `static/js/backend_clipboard.js`: the auto-save hook -/

/-- `BackendClipboard.autoSave(clipboardData)`. `now` stands for the `new Date()` of the
debounce test, in milliseconds; `savedAt` for the `new Date()` that `saveToBackend` reads
after the answer of the save request has arrived, to stamp `lastSaveTime`. The value
`false` is returned as `SaveOutcome.disabled`. -/
def BackendClipboard.autoSave (bc : BackendClipboard) (w : Browser) (domeId : Int)
    (farmId : Option Int) (now savedAt : Nat) (response : SaveResponse)
    (clipboardData : Option ClipboardEntry) : SaveOutcome × BackendClipboard × Browser :=
  match clipboardData with
  | none => (.disabled, bc, w)
  | some clipboardData =>
    if !bc.autoSaveEnabled then (.disabled, bc, w)
    else
      match bc.lastSaveTime with
      | some lastSaveTime =>
        if (now : Int) - (lastSaveTime : Int) < 2000 then (.disabled, bc, w)
        else bc.saveToBackend w domeId farmId savedAt response clipboardData none
      | none => bc.saveToBackend w domeId farmId savedAt response clipboardData none

/-- The function that the auto-save integration installs as `window.copyDragArea`, for the
global instance `bc`. `originalCopyDragArea` is the function found on `window` before: it
gives the truthiness of its result and the page as it leaves it. `now` and `savedAt` are
the two clock readings of `autoSave`. -/
def hookedCopyDragArea (originalCopyDragArea : Browser → Bool × Browser)
    (bc : BackendClipboard) (w : Browser) (domeId : Int) (farmId : Option Int)
    (now savedAt : Nat) (response : SaveResponse) : Bool × BackendClipboard × Browser :=
  let copied := originalCopyDragArea w
  let result := copied.1
  let w := copied.2
  if result && w.page._dragClipboard.isSome then
    let saved := bc.autoSave w domeId farmId now savedAt response w.page._dragClipboard
    (result, saved.2)
  else (result, bc, w)

/-! ## Scenario A of the specification -/

/-- Mother `id = 1` at cell (0,0). -/
def scenarioMother : Tree :=
  { id := 1, name := some "M1", plant_type := some "mother", internal_row := 0,
    internal_col := 0 }

/-- Cutting `id = 2` of mother 1 at cell (1,1), inside the copied area. -/
def scenarioCuttingIn : Tree :=
  { id := 2, name := some "C2", plant_type := some "cutting", mother_plant_id := some 1,
    internal_row := 1, internal_col := 1 }

/-- Cutting `id = 3` of mother 1 at cell (4,4), outside the copied area. -/
def scenarioCuttingOut : Tree :=
  { id := 3, name := some "C3", plant_type := some "cutting", mother_plant_id := some 1,
    internal_row := 4, internal_col := 4 }

/-- The population of scenario A. -/
def scenarioTrees : List Tree := [scenarioMother, scenarioCuttingIn, scenarioCuttingOut]

/-- The 2×2 area of scenario A, rows 0..1 and columns 0..1. -/
def scenarioArea : Area :=
  { id := 7, name := some "A", minRow := 0, maxRow := 1, minCol := 0, maxCol := 1 }

/-- The clipboard entry obtained by copying the area of scenario A. -/
def scenarioClipboard : Clipboard :=
  let treesInArea := findTreesInArea scenarioTrees scenarioArea
  createClipboardData 1 0 "" scenarioArea treesInArea
    (analyzeRelationships scenarioTrees treesInArea)

/-! ## Further concrete inputs -/

/-- A tree whose `plant_type` is the empty string; its other fields are all present. -/
def blankTypeTree : Tree :=
  { id := 4, name := some "T4", breed := some "Monthong", plant_type := some "",
    mother_plant_id := none, internal_row := 0, internal_col := 0, info := some "row A" }

/-- The clipboard obtained by copying the scenario area when the population is
`[blankTypeTree]`. -/
def blankTypeClipboard : Clipboard :=
  createClipboardData 1 0 "" scenarioArea (findTreesInArea [blankTypeTree] scenarioArea)
    (analyzeRelationships [blankTypeTree] (findTreesInArea [blankTypeTree] scenarioArea))

/-- The scenario area (columns 0..1, rows 0..1) carrying its own `width` and `height`
fields with the value 5. -/
def staleSizeArea : Area := { scenarioArea with width := some 5, height := some 5 }

/-- What a creation request `q` carries for the copied tree `t`: the name as it is; breed,
info and plant type as they are when they are non-empty strings, else `''`, `''` and
`'mother'`; the mother reference as it is when it is a non-zero number, else `null`. -/
def CarriesFields (t : Tree) (q : CreateRequest) : Prop :=
  q.name = t.name ∧
  (∀ s, t.breed = some s → s ≠ "" → q.breed = s) ∧
  (t.breed = none ∨ t.breed = some "" → q.breed = "") ∧
  (∀ s, t.plant_type = some s → s ≠ "" → q.plant_type = s) ∧
  (t.plant_type = none ∨ t.plant_type = some "" → q.plant_type = "mother") ∧
  (∀ n, t.mother_plant_id = some n → n ≠ 0 → q.mother_plant_id = some n) ∧
  (t.mother_plant_id = none ∨ t.mother_plant_id = some 0 → q.mother_plant_id = none) ∧
  (∀ s, t.info = some s → s ≠ "" → q.info = s) ∧
  (t.info = none ∨ t.info = some "" → q.info = "")

/-- A mother tree whose identifier is 0, standing outside the scenario area. -/
def zeroIdMother : Tree :=
  { id := 0, name := some "M0", plant_type := some "mother", internal_row := 5,
    internal_col := 5 }

/-- A cutting inside the scenario area whose `mother_plant_id` is 0. -/
def zeroRefCutting : Tree :=
  { id := 1, name := some "C1", plant_type := some "cutting", mother_plant_id := some 0,
    internal_row := 0, internal_col := 0 }

/-- The population made of `zeroIdMother` and `zeroRefCutting`. -/
def zeroIdTrees : List Tree := [zeroIdMother, zeroRefCutting]

/-- A population in which the two cuttings of the scenario area (ids 2 and 3) share the
mother id 1, which stands outside the area at cell (4,4). -/
def sharedMotherTrees : List Tree :=
  [ { id := 1, name := some "M1", plant_type := some "mother", internal_row := 4,
      internal_col := 4 },
    { id := 2, name := some "C2", plant_type := some "cutting", mother_plant_id := some 1,
      internal_row := 0, internal_col := 0 },
    { id := 3, name := some "C3", plant_type := some "cutting", mother_plant_id := some 1,
      internal_row := 1, internal_col := 1 } ]

/-- The number of in-area trees to which the tree `t` is related: the in-area cuttings
whose truthy `mother_plant_id` is the id of `t`, plus the in-area mothers whose id is the
`mother_plant_id` of `t`. -/
def relationCount (treesInArea : List Tree) (t : Tree) : Nat :=
  treesInArea.countP (fun c => c.plant_type == some "cutting" &&
      (truthyInt c.mother_plant_id && c.mother_plant_id == some t.id)) +
    treesInArea.countP (fun m => m.plant_type == some "mother" &&
      t.mother_plant_id == some m.id)

/-- An area entry tagged as copied from dome 2. -/
def crossDomeEntry : ClipboardEntry :=
  { type := some "dragArea", name := some "A", width := some 2, height := some 2,
    minRow := some 0, maxRow := some 1, minCol := some 0, maxCol := some 1,
    trees := some [markInside scenarioMother], tree_count := some 1,
    source_dome_id := some 2 }

/-- A page with an empty `localStorage` and empty mirrors. -/
def emptyPage : PageState :=
  { localStorage := fun _ => none, _dragClipboard := none, _clipboardArea := none,
    copiedTreeData := none }

/-- A page of dome 1 whose unified key holds `crossDomeEntry`, an entry tagged with
dome 2 (as `saveClipboardBackup` of `paste_button_fix.js` can leave it). -/
def foreignStoredPage : PageState :=
  { emptyPage with
    localStorage := emptyPage.localStorage.setItem (UNIFIED_CLIPBOARD_KEY 1)
      (.json (.object crossDomeEntry)) }

/-- A page of dome 1 whose unified key holds a text that is not JSON. -/
def corruptStoredPage : PageState :=
  { emptyPage with
    localStorage := emptyPage.localStorage.setItem (UNIFIED_CLIPBOARD_KEY 1)
      (.unparseable "not json") }

/-- A page of dome 1 whose key `globalDragClipboard` holds `crossDomeEntry`, an entry
tagged with dome 2. -/
def legacyGlobalPage : PageState :=
  { emptyPage with
    localStorage := emptyPage.localStorage.setItem "globalDragClipboard"
      (.json (.object crossDomeEntry)) }

/-- The label rule of the specification for a named entry, without the icon prefix and
the cross-dome suffix: `Paste "<treeName>"`, followed by ` (+N)` exactly when the number
`N` of cuttings is greater than 0, for a single tree (the tree name being that of the
copied tree, else the entry name); `Paste <name> (<treeCount> trees)` otherwise, the
count being `tree_count` when non-zero, else the length of `trees`, else 0. -/
def labelRule (e : ClipboardEntry) : String :=
  if e.type = some "single_tree" then
    "Paste \"" ++
      (if truthyStr ((e.copied_tree_data.bind fun c => c.tree).bind fun t => t.name) then
        ((e.copied_tree_data.bind fun c => c.tree).bind fun t => t.name).getD ""
      else e.name.getD "") ++ "\"" ++
      (if 0 < (e.copied_tree_data.bind fun c => c.total_cuttings).getD 0 then
        " (+" ++ toString ((e.copied_tree_data.bind fun c => c.total_cuttings).getD 0) ++ ")"
      else "")
  else
    "Paste " ++ e.name.getD "" ++ " (" ++
      toString (if truthyInt e.tree_count then e.tree_count.getD 0
        else (e.trees.map fun l => (l.length : Int)).getD 0) ++ " trees)"

/-- The entry that `updatePasteButtonDisplayFixed` shows: the named `dragClipboard`, else
the named `clipboardArea`, else the `copiedTreeData` whose tree is named. -/
def ShownEntry (s : PageState) (e : ClipboardEntry) : Prop :=
  (s._dragClipboard = some e ∧ truthyStr e.name = true) ∨
  ((s._dragClipboard.filter fun d => truthyStr d.name) = none ∧
    s._clipboardArea = some e ∧ truthyStr e.name = true) ∨
  ((s._dragClipboard.filter fun d => truthyStr d.name) = none ∧
    (s._clipboardArea.filter fun a => truthyStr a.name) = none ∧
    s.copiedTreeData = some e ∧ truthyStr (e.tree.bind fun t => t.name) = true)

/-- A single-tree entry of dome 1 whose copied tree is the scenario mother, with two
cuttings. -/
def singleTreeEntry : ClipboardEntry :=
  { type := some "single_tree", name := some "Copied Tree",
    copied_tree_data := some { tree := some scenarioMother, total_cuttings := some 2 },
    source_dome_id := some 1 }

/-- An area entry of dome 1 that carries no name. -/
def namelessEntry : ClipboardEntry :=
  { type := some "dragArea", trees := some [], tree_count := some 0,
    source_dome_id := some 1 }

/-- The paste button in its hidden state. -/
def hiddenButton : PasteButton :=
  { display := "none", textContent := "📋 Paste Area", crossDome := false }

/-- The remote save fails: the request throws, or the answer carries `success: false`. -/
def SaveResponse.fails : SaveResponse → Prop
  | .threw _ => True
  | .answer success _ _ _ => success = false

/-- The backend holds the clipboard `content`: the load answers `success` and
`has_clipboard`, with a `clipboard_data` whose `clipboard_content` is `content`. -/
def LoadResponse.holds (r : LoadResponse) (content : ClipboardEntry) : Prop :=
  ∃ cd, r = .answer true true (some cd) ∧ cd.clipboard_content = some content

/-- The key `globalDragClipboard` is empty or unreadable: absent, not parseable, or the
text of a falsy value. -/
def globalEmpty (s : PageState) : Prop :=
  match s.localStorage "globalDragClipboard" with
  | none => True
  | some (.unparseable _) => True
  | some (.json v) => v.truthy = false

/-- A browser page with empty storage and mirrors, and the paste button hidden. -/
def emptyBrowser : Browser := { page := emptyPage, pasteBtn := some hiddenButton }

/-- An area entry whose `source_dome_id` is the number 0. -/
def zeroDomeEntry : ClipboardEntry :=
  { type := some "dragArea", name := some "Z", tree_count := some 3,
    source_dome_id := some 0 }

/-- The scenario-A clipboard held by a fresh `DragAreaCopySystem`: no listener yet. -/
def clickStart : ClickPasteState := { clipboard := some scenarioClipboard }

/-- The outcome pattern in which the first request succeeds and every later one gets a
response that is not ok. -/
def firstOkThenFail : Nat → FetchOutcome := fun k => if k = 0 then .ok else .notOk

/-- The number read from a list of characters taken as decimal digits. -/
def decimalValue (l : List Char) (start : Nat) : Nat :=
  l.foldl (fun acc c => 10 * acc + (c.toNat - 48)) start

/-- The scenario area (rows 0..1, columns 0..1) carrying its own `width` and `height`
fields with the value 1, smaller than its bounds. -/
def narrowSizeArea : Area := { scenarioArea with width := some 1, height := some 1 }

/-- The clipboard that `copyDragArea` builds for `area` on the population `trees`:
`createClipboardData` applied to `findTreesInArea(area)` and to the result of
`analyzeRelationships` on it. -/
def clipboardOfArea (domeId : Int) (now : Nat) (isoNow : String) (trees : List Tree)
    (area : Area) : Clipboard :=
  createClipboardData domeId now isoNow area (findTreesInArea trees area)
    (analyzeRelationships trees (findTreesInArea trees area))

/-- Placement safety of one creation request `q` of a paste at `(targetRow, targetCol)`:
its cell lies in the grid, in the destination rectangle of the clipboard, and on no cell
of an existing tree. -/
def PlacedSafely (currentRows currentCols : Int) (trees : List Tree) (clipboard : Clipboard)
    (targetRow targetCol : Int) (q : CreateRequest) : Prop :=
  0 ≤ q.internal_row ∧ q.internal_row < currentRows ∧
  0 ≤ q.internal_col ∧ q.internal_col < currentCols ∧
  targetRow ≤ q.internal_row ∧ q.internal_row ≤ targetRow + clipboard.height - 1 ∧
  targetCol ≤ q.internal_col ∧ q.internal_col ≤ targetCol + clipboard.width - 1 ∧
  ∀ e ∈ trees, ¬ (e.internal_row = q.internal_row ∧ e.internal_col = q.internal_col)

/-- The `source_dome_id` that `JSON.parse(stored).source_dome_id` reads: that of a stored
object, absent for any other parsed value. -/
def StoredText.sourceDome : StoredText → Option Int
  | .json (.object data) => data.source_dome_id
  | _ => none

/-- The stored text makes `JSON.parse(stored).source_dome_id` throw: it is not parseable,
or it is the text `null`. -/
def StoredText.unreadable : StoredText → Bool
  | .unparseable _ => true
  | .json .null => true
  | _ => false

/-- A browser page of dome 1 whose key `globalDragClipboard` holds `zeroDomeEntry`, an
entry tagged with the dome id 0. -/
def zeroDomeGlobalBrowser : Browser :=
  { emptyBrowser with
    page := { emptyPage with
      localStorage := emptyPage.localStorage.setItem "globalDragClipboard"
        (.json (.object zeroDomeEntry)) } }

/-- A browser page of dome 1 with mirrors set, `domeClipboard_1` holding an entry of dome
1 and `globalDragClipboard` holding `crossDomeEntry`, an entry of dome 2. -/
def mixedStorageBrowser : Browser :=
  { emptyBrowser with
    page :=
      { localStorage := (emptyPage.localStorage.setItem "domeClipboard_1"
          (.json (.object singleTreeEntry))).setItem "globalDragClipboard"
          (.json (.object crossDomeEntry))
        _dragClipboard := some singleTreeEntry
        _clipboardArea := some singleTreeEntry
        copiedTreeData := some singleTreeEntry } }

/-- The rule by which `enhanceClipboardData` fills a field from the backend metadata:
`own` when it is truthy, else `backend` when that one is truthy, else `own`. -/
def filledWhenFalsy {α : Type} (truthy : α → Bool) (own backend : α) : α :=
  if truthy own then own else if truthy backend then backend else own

/-- The content of an empty area: no trees and a `tree_count` of 0. -/
def emptyAreaContent : ClipboardEntry :=
  { type := some "dragArea", name := some "Empty", width := some 2, height := some 2,
    trees := some [], tree_count := some 0 }

/-- A backend answer whose metadata give 3 trees for the content `emptyAreaContent`. -/
def staleCountResult : BackendResult :=
  { clipboard_data := some
      { name := some "Empty", tree_count := some 3, clipboard_content := some emptyAreaContent,
        source_dome_id := some 2 } }

/-- A backend answer whose content lacks name and tree count, given by the metadata. -/
def bareContentResult : BackendResult :=
  { clipboard_data := some
      { name := some "A", tree_count := some 1,
        clipboard_content := some { trees := some [markInside scenarioMother] },
        source_dome_id := some 2, source_info := some { dome_name := some "Dome 2" } } }

/-- Modelled from the spec: the backend holds at most one clipboard, the remote copy of
the Clipboard Store. A save request it receives replaces the content held by the
`clipboard_content` of the request, a clear request empties it, the other requests leave
it as it is. -/
def backendContent (requests : List NetRequest) : Option ClipboardEntry :=
  requests.foldl
    (fun held r =>
      match r with
      | .save payload => some payload.clipboard_content
      | .clear => none
      | _ => held)
    none

/-- Modelled from the spec: the answer of the backend to a save request that it accepts,
for the entry `entry`. -/
def backendAccepts (entry : ClipboardEntry) : SaveResponse :=
  .answer true (some 1)
    (some { name := entry.name, tree_count := entry.tree_count,
            clipboard_content := some entry }) none

/-- An original `window.copyDragArea` that succeeds and leaves `entry` in the two
mirrors. -/
def copyLeaving (entry : ClipboardEntry) : Browser → Bool × Browser :=
  fun w => (true, { w with page := w.page.assignBoth (some entry) })

/-- One successful copy through the hooked `window.copyDragArea`: the clock reads `now`
when `autoSave` tests the debounce and `savedAt` when the answer of the save request has
arrived and `saveToBackend` stamps `lastSaveTime`; the copy leaves `entry` in the
mirrors. -/
structure CopyEvent where
  now : Nat
  savedAt : Nat
  entry : ClipboardEntry
  deriving DecidableEq, Repr

/-- A sequence of successful copies through the hooked `window.copyDragArea`, each one
ended before the next begins; the backend accepts every save request it receives. -/
def runCopies (domeId : Int) (farmId : Option Int) (start : BackendClipboard × Browser)
    (copies : List CopyEvent) : BackendClipboard × Browser :=
  copies.foldl
    (fun st c =>
      (hookedCopyDragArea (copyLeaving c.entry) st.1 st.2 domeId farmId c.now c.savedAt
        (backendAccepts c.entry)).2)
    start

/-- The entries carried by the save requests of a list of requests, in order. -/
def savedContents (requests : List NetRequest) : List ClipboardEntry :=
  requests.filterMap fun r =>
    match r with
    | .save payload => some payload.clipboard_content
    | _ => none

/-- Every copy of the sequence reaches its debounce test at least 2000 ms after the save
of the copy before it was stamped, the first one at least 2000 ms after the stamp `last`
of the last successful save, if any. -/
def Spaced : Option Nat → List CopyEvent → Prop
  | _, [] => True
  | last, c :: cs => (∀ t, last = some t → t + 2000 ≤ c.now) ∧ Spaced (some c.savedAt) cs

/-- A fresh page with the global `BackendClipboard` instance as its constructor leaves
it. -/
def freshBackend : BackendClipboard × Browser := ({}, emptyBrowser)

/-- The entry without its property `processedRelationships`. -/
def withoutProcessed (e : ClipboardEntry) : ClipboardEntry :=
  { e with processedRelationships := none }

/-- A named area entry of dome 1 whose relationship metadata hold one mother and cutting
pair. -/
def relatedEntry : ClipboardEntry :=
  { type := some "dragArea", name := some "R", tree_count := some 2, source_dome_id := some 1,
    relationship_metadata := some
      { mother_cutting_pairs := some
          [{ mother_original_id := some 1, cutting_original_id := some 2,
             relationship_preserved := some true }] } }

/-- A browser page of dome 1 with empty mirrors whose unified key holds `relatedEntry`. -/
def storedRelationsBrowser : Browser :=
  { emptyBrowser with
    page := { emptyPage with
      localStorage := emptyPage.localStorage.setItem (UNIFIED_KEY 1)
        (.json (.object relatedEntry)) } }

/-- A browser page of dome 1 whose two mirrors hold `singleTreeEntry`, an entry without
relationship metadata. -/
def heldEntryBrowser : Browser :=
  { emptyBrowser with page := emptyPage.assignBoth (some singleTreeEntry) }

/-- The status that `fixedHandlePasteButtonClick` reports when `showPasteOptionsDialog` is
not a function. -/
def dialogMissingStatus : Status :=
  { message := "Paste dialog not available", level := "error" }

/-- A browser page of dome 1 with empty mirrors whose key `clipboardBackup_dome_1`, written
by `saveClipboardBackup` of `paste_button_fix.js`, holds `singleTreeEntry`, a named entry of
dome 1. -/
def backupStoredBrowser : Browser :=
  { emptyBrowser with
    page := { emptyPage with
      localStorage := emptyPage.localStorage.setItem (BACKUP_KEY 1)
        (.json (.object singleTreeEntry)) } }

/-! ## Lemmas on loops -/

theorem mem_loopRange (lo hi x : Int) : x ∈ loopRange lo hi ↔ lo ≤ x ∧ x ≤ hi := by
  unfold loopRange
  simp only [List.mem_map, List.mem_range]
  constructor
  · rintro ⟨k, hk, rfl⟩
    have hk' : (k : Int) < hi + 1 - lo := Int.lt_toNat.mp hk
    omega
  · rintro ⟨h1, h2⟩
    refine ⟨(x - lo).toNat, ?_, ?_⟩
    · apply Int.lt_toNat.mpr
      rw [Int.toNat_of_nonneg (by omega)]
      omega
    · rw [Int.toNat_of_nonneg (by omega)]
      omega

/-- With the upper bounds of the grid respected, `canPasteAt` holds exactly when no tree
of the population lies in the destination rectangle. -/
theorem canPasteAt_iff_of_upper (currentRows currentCols : Int) (trees : List Tree)
    (clipboard : Clipboard) (targetRow targetCol : Int)
    (hr : targetRow + clipboard.height - 1 < currentRows)
    (hc : targetCol + clipboard.width - 1 < currentCols) :
    canPasteAt currentRows currentCols trees clipboard targetRow targetCol = true ↔
      ∀ t ∈ trees, ¬ (targetRow ≤ t.internal_row ∧
        t.internal_row ≤ targetRow + clipboard.height - 1 ∧
        targetCol ≤ t.internal_col ∧ t.internal_col ≤ targetCol + clipboard.width - 1) := by
  unfold canPasteAt
  have h1 : ¬ (targetRow + clipboard.height - 1 ≥ currentRows) := by omega
  have h2 : ¬ (targetCol + clipboard.width - 1 ≥ currentCols) := by omega
  simp only [h1, h2, decide_False, Bool.or_self, Bool.false_eq_true, if_false,
    List.all_eq_true, mem_loopRange]
  constructor
  · intro h t ht ⟨a, b, c, d⟩
    have := h t.internal_row ⟨a, b⟩ t.internal_col ⟨c, d⟩
    cases hf : List.find? (fun t' => decide (t'.internal_row = t.internal_row) &&
        decide (t'.internal_col = t.internal_col)) trees with
    | none =>
      rw [List.find?_eq_none] at hf
      exact hf t ht (by simp)
    | some v => simp [hf] at this
  · intro h row hrow col hcol
    cases hf : List.find? (fun t' => decide (t'.internal_row = row) &&
        decide (t'.internal_col = col)) trees with
    | none => rfl
    | some v =>
      exfalso
      have hp := List.find?_some hf
      have hm := List.mem_of_find?_eq_some hf
      simp only [Bool.and_eq_true, decide_eq_true_eq] at hp
      exact h v hm ⟨by omega, by omega, by omega, by omega⟩

/-! ## Claims on `canPasteAt` -/

/-- C1: for a clipboard of width and height at least 1 and a target whose destination
rectangle lies inside the grid, `canPasteAt` returns true if and only if no existing tree
has its cell inside the destination rectangle. -/
theorem canPasteAt_inside_iff_no_overlap (currentRows currentCols : Int)
    (trees : List Tree) (clipboard : Clipboard) (targetRow targetCol : Int)
    (_hw : 1 ≤ clipboard.width) (_hh : 1 ≤ clipboard.height)
    (_hrow : 0 ≤ targetRow) (_hcol : 0 ≤ targetCol)
    (hendRow : targetRow + clipboard.height - 1 ≤ currentRows - 1)
    (hendCol : targetCol + clipboard.width - 1 ≤ currentCols - 1) :
    canPasteAt currentRows currentCols trees clipboard targetRow targetCol = true ↔
      ∀ t ∈ trees, ¬ (targetRow ≤ t.internal_row ∧
        t.internal_row ≤ targetRow + clipboard.height - 1 ∧
        targetCol ≤ t.internal_col ∧ t.internal_col ≤ targetCol + clipboard.width - 1) :=
  canPasteAt_iff_of_upper currentRows currentCols trees clipboard targetRow targetCol
    (by omega) (by omega)

/-- Witness of C1 on a 10×10 grid with the scenario-A population and clipboard: the
target (5,5) lies inside the grid and is accepted, no tree standing in rows 5..6 and
columns 5..6. -/
theorem canPasteAt_inside_iff_no_overlap_witness :
    canPasteAt 10 10 scenarioTrees scenarioClipboard 5 5 = true ∧
    (canPasteAt 10 10 scenarioTrees scenarioClipboard 5 5 = true ↔
      ∀ t ∈ scenarioTrees, ¬ ((5 : Int) ≤ t.internal_row ∧
        t.internal_row ≤ 5 + scenarioClipboard.height - 1 ∧
        (5 : Int) ≤ t.internal_col ∧ t.internal_col ≤ 5 + scenarioClipboard.width - 1)) :=
  ⟨by decide,
    canPasteAt_inside_iff_no_overlap 10 10 scenarioTrees scenarioClipboard 5 5
      (by decide) (by decide) (by decide) (by decide) (by decide) (by decide)⟩

/-- C2 (the code departs from the claim): on a 10×10 grid holding the scenario-A
population, `canPasteAt` accepts the target (-1, 5) for the 2×2 scenario-A clipboard,
although the destination rows -1..0 are not contained in the grid rows 0..9; only the
upper bounds are compared with the grid size. -/
theorem canPasteAt_accepts_negative_target :
    canPasteAt 10 10 scenarioTrees scenarioClipboard (-1) 5 = true ∧
      ¬ ((0 : Int) ≤ -1 ∧ (-1 : Int) + scenarioClipboard.height - 1 ≤ 10 - 1 ∧
          (0 : Int) ≤ 5 ∧ (5 : Int) + scenarioClipboard.width - 1 ≤ 10 - 1) := by
  constructor
  · decide
  · decide

/-! ## Claims on `executePaste` -/

/-- The trees of a clipboard for which `executePaste` issues a request. -/
theorem pasteLoop_requests (offsetRow offsetCol : Int) (outcome : Nat → FetchOutcome)
    (trees : List Tree) (st : PasteLoop) :
    (trees.foldl (pasteStep offsetRow offsetCol outcome) st).requests =
      st.requests ++ (trees.filter fun t => t.isInOriginalArea == some true).map
        fun t => createRequest t (t.internal_row + offsetRow) (t.internal_col + offsetCol) := by
  induction trees generalizing st with
  | nil => simp
  | cons t ts ih =>
    rw [List.foldl_cons, ih]
    by_cases h : t.isInOriginalArea = some true
    · have hb : (t.isInOriginalArea == some true) = true := by simp [h]
      simp only [List.filter_cons, hb, if_true]
      have hs : (pasteStep offsetRow offsetCol outcome st t).requests =
          st.requests ++ [createRequest t (t.internal_row + offsetRow)
            (t.internal_col + offsetCol)] := by
        unfold pasteStep
        simp only [h, bne_self_eq_false, Bool.false_eq_true, if_false]
        cases outcome st.requests.length <;> rfl
      rw [hs]
      simp
    · have hb : (t.isInOriginalArea == some true) = false := by simp [h]
      simp only [List.filter_cons, hb, Bool.false_eq_true, if_false]
      have hs : pasteStep offsetRow offsetCol outcome st t = st := by
        unfold pasteStep
        simp [h]
      rw [hs]

/-- C3: the creation requests issued by `executePaste(targetRow, targetCol)` are, in
clipboard order, exactly one request per tree of `clipboard.trees` whose
`isInOriginalArea` is true, at row `tree.internal_row + (targetRow - clipboard.minRow)`
and column `tree.internal_col + (targetCol - clipboard.minCol)`; trees pulled in only as
a relationship get no request. Pasting the scenario-A entry at (5,5) creates the mother
at (5,5) and the in-area cutting at (6,6), and nothing for cutting id 3. -/
theorem executePaste_requests_in_area_shifted :
    (∀ (clipboard : Clipboard) (outcome : Nat → FetchOutcome) (targetRow targetCol : Int),
      (executePaste clipboard outcome targetRow targetCol).requests =
        (clipboard.trees.filter fun t => t.isInOriginalArea == some true).map fun t =>
          { name := t.name
            breed := orStr t.breed ""
            internal_row := t.internal_row + (targetRow - clipboard.minRow)
            internal_col := t.internal_col + (targetCol - clipboard.minCol)
            plant_type := orStr t.plant_type "mother"
            mother_plant_id := orNull t.mother_plant_id
            info := orStr t.info "" }) ∧
    (∀ outcome : Nat → FetchOutcome,
      (executePaste scenarioClipboard outcome 5 5).requests =
        [ { name := some "M1", breed := "", internal_row := 5, internal_col := 5,
            plant_type := "mother", mother_plant_id := none, info := "" },
          { name := some "C2", breed := "", internal_row := 6, internal_col := 6,
            plant_type := "cutting", mother_plant_id := some 1, info := "" } ]) := by
  have key : ∀ (clipboard : Clipboard) (outcome : Nat → FetchOutcome)
      (targetRow targetCol : Int),
      (executePaste clipboard outcome targetRow targetCol).requests =
        (clipboard.trees.filter fun t => t.isInOriginalArea == some true).map fun t =>
          createRequest t (t.internal_row + (targetRow - clipboard.minRow))
            (t.internal_col + (targetCol - clipboard.minCol)) := by
    intro clipboard outcome targetRow targetCol
    unfold executePaste
    simp only [pasteLoop_requests]
    simp
  refine ⟨fun clipboard outcome targetRow targetCol => ?_, fun outcome => ?_⟩
  · rw [key]
    rfl
  · rw [key]
    decide

theorem orStr_of_nonempty (s d : String) (h : s ≠ "") : orStr (some s) d = s := by
  simp [orStr, h]

theorem orStr_of_falsy (o : Option String) (d : String) (h : o = none ∨ o = some "") :
    orStr o d = d := by
  rcases h with h | h <;> subst h <;> simp [orStr]

theorem orNull_of_nonzero (n : Int) (h : n ≠ 0) : orNull (some n) = some n := by
  simp [orNull, h]

theorem orNull_of_falsy (o : Option Int) (h : o = none ∨ o = some 0) : orNull o = none := by
  rcases h with h | h <;> subst h <;> simp [orNull]

theorem createRequest_carriesFields (t : Tree) (newRow newCol : Int) :
    CarriesFields t (createRequest t newRow newCol) := by
  refine ⟨rfl, ?_, ?_, ?_, ?_, ?_, ?_, ?_, ?_⟩
  · intro s hs hne
    simp only [createRequest, hs]
    exact orStr_of_nonempty s "" hne
  · intro h
    exact orStr_of_falsy _ _ h
  · intro s hs hne
    simp only [createRequest, hs]
    exact orStr_of_nonempty s "mother" hne
  · intro h
    exact orStr_of_falsy _ _ h
  · intro n hn hne
    simp only [createRequest, hn]
    exact orNull_of_nonzero n hne
  · intro h
    exact orNull_of_falsy _ h
  · intro s hs hne
    simp only [createRequest, hs]
    exact orStr_of_nonempty s "" hne
  · intro h
    exact orStr_of_falsy _ _ h

/-- C4, as stated, fails: it is not true that for every clipboard the requests carry
breed, plant type, mother reference and info of the in-area trees unchanged. For the
clipboard holding `blankTypeTree`, whose `plant_type` is `''`, the request carries
`'mother'`. -/
theorem executePaste_fields_unchanged_fails :
    ¬ (∀ (clipboard : Clipboard) (outcome : Nat → FetchOutcome) (targetRow targetCol : Int),
      (executePaste clipboard outcome targetRow targetCol).requests.map
          (fun q => (q.name, some q.breed, some q.plant_type, q.mother_plant_id,
            some q.info)) =
        (clipboard.trees.filter fun t => t.isInOriginalArea == some true).map
          (fun t => (t.name, t.breed, t.plant_type, t.mother_plant_id, t.info))) := by
  intro h
  have h0 := h blankTypeClipboard (fun _ => FetchOutcome.ok) 0 0
  revert h0
  decide

/-- C4, amended: for every in-area tree of the clipboard, in clipboard order, the creation
request carries the tree's name unchanged; breed and info unchanged when they are
non-empty strings and `''` otherwise; plant type unchanged when it is a non-empty string
and `'mother'` otherwise; the mother reference unchanged when it is a non-zero number
and `null` otherwise. -/
theorem executePaste_requests_carry_fields (clipboard : Clipboard)
    (outcome : Nat → FetchOutcome) (targetRow targetCol : Int) :
    List.Forall₂ CarriesFields
      (clipboard.trees.filter fun t => t.isInOriginalArea == some true)
      (executePaste clipboard outcome targetRow targetCol).requests := by
  have hreq : (executePaste clipboard outcome targetRow targetCol).requests =
      (clipboard.trees.filter fun t => t.isInOriginalArea == some true).map fun t =>
        createRequest t (t.internal_row + (targetRow - clipboard.minRow))
          (t.internal_col + (targetCol - clipboard.minCol)) := by
    unfold executePaste
    simp only [pasteLoop_requests]
    simp
  rw [hreq, List.forall₂_map_right_iff, List.forall₂_same]
  intro t _
  exact createRequest_carriesFields t _ _

/-- Witness of the amended C4 on the clipboard holding `blankTypeTree`: the single request
carries the breed `'Monthong'` unchanged and the plant type `'mother'`. -/
theorem executePaste_requests_carry_fields_witness :
    (executePaste blankTypeClipboard (fun _ => FetchOutcome.ok) 0 0).requests.map
      (fun q => (q.breed, q.plant_type)) = [("Monthong", "mother")] ∧
    List.Forall₂ CarriesFields
      (blankTypeClipboard.trees.filter fun t => t.isInOriginalArea == some true)
      (executePaste blankTypeClipboard (fun _ => FetchOutcome.ok) 0 0).requests :=
  ⟨by decide,
    executePaste_requests_carry_fields blankTypeClipboard (fun _ => FetchOutcome.ok) 0 0⟩

/-! ## Claims on the relationship counts and the clipboard bounds -/

theorem countP_disjoint_le {α : Type} (p q : α → Bool) (l : List α)
    (h : ∀ x, ¬ (p x = true ∧ q x = true)) : l.countP p + l.countP q ≤ l.length := by
  induction l with
  | nil => simp
  | cons a as ih =>
    simp only [List.countP_cons, List.length_cons]
    have := h a
    by_cases hp : p a = true <;> by_cases hq : q a = true <;> simp_all <;> omega

/-- C7: `motherTrees` is the number of in-area trees of plant type `'mother'`,
`cuttingTrees` the number of in-area trees of plant type `'cutting'`, and
`totalRelationships` their sum; the three counts are the same whatever the population
from which outside trees are pulled in, and `totalRelationships` never exceeds the number
of in-area trees. -/
theorem analyzeRelationships_counts (trees treesInArea : List Tree) :
    (analyzeRelationships trees treesInArea).motherTrees =
        treesInArea.countP (fun t => t.plant_type == some "mother") ∧
    (analyzeRelationships trees treesInArea).cuttingTrees =
        treesInArea.countP (fun t => t.plant_type == some "cutting") ∧
    (analyzeRelationships trees treesInArea).totalRelationships =
        (analyzeRelationships trees treesInArea).motherTrees +
          (analyzeRelationships trees treesInArea).cuttingTrees ∧
    (∀ trees' : List Tree,
      (analyzeRelationships trees' treesInArea).motherTrees =
          (analyzeRelationships trees treesInArea).motherTrees ∧
      (analyzeRelationships trees' treesInArea).cuttingTrees =
          (analyzeRelationships trees treesInArea).cuttingTrees ∧
      (analyzeRelationships trees' treesInArea).totalRelationships =
          (analyzeRelationships trees treesInArea).totalRelationships) ∧
    (analyzeRelationships trees treesInArea).totalRelationships ≤ treesInArea.length := by
  refine ⟨?_, ?_, rfl, fun trees' => ⟨rfl, rfl, rfl⟩, ?_⟩
  · simp [analyzeRelationships, List.countP_eq_length_filter]
  · simp [analyzeRelationships, List.countP_eq_length_filter]
  · have := countP_disjoint_le (fun t : Tree => t.plant_type == some "mother")
      (fun t : Tree => t.plant_type == some "cutting") treesInArea (by
        intro x ⟨h1, h2⟩
        simp only [beq_iff_eq] at h1 h2
        rw [h1] at h2
        exact absurd h2 (by decide))
    simpa [analyzeRelationships, List.countP_eq_length_filter] using this

/-- C8, as stated, fails: for the area `staleSizeArea`, which spans columns 0..1 and rows
0..1 but carries `width = 5` and `height = 5`, the clipboard entry has width 5, not
`maxCol - minCol + 1 = 2`. -/
theorem createClipboardData_bounds_invariant_fails :
    ¬ (∀ (domeId : Int) (now : Nat) (isoNow : String) (area : Area)
        (treesInArea : List Tree) (relationshipData : RelationshipData),
      (createClipboardData domeId now isoNow area treesInArea relationshipData).width =
        (createClipboardData domeId now isoNow area treesInArea relationshipData).maxCol -
          (createClipboardData domeId now isoNow area treesInArea relationshipData).minCol
          + 1 ∧
      (createClipboardData domeId now isoNow area treesInArea relationshipData).height =
        (createClipboardData domeId now isoNow area treesInArea relationshipData).maxRow -
          (createClipboardData domeId now isoNow area treesInArea relationshipData).minRow
          + 1) := by
  intro h
  have h0 := (h 1 0 "" staleSizeArea [] (analyzeRelationships [] [])).1
  revert h0
  decide

/-- C8, amended: the clipboard entry takes `width` from the area when the area carries a
non-zero `width`, and is `maxCol - minCol + 1` when the area carries none (or 0);
likewise `height` is the area's non-zero `height`, else `maxRow - minRow + 1`. -/
theorem createClipboardData_bounds (domeId : Int) (now : Nat) (isoNow : String)
    (area : Area) (treesInArea : List Tree) (relationshipData : RelationshipData) :
    (∀ w, area.width = some w → w ≠ 0 →
      (createClipboardData domeId now isoNow area treesInArea relationshipData).width = w) ∧
    (area.width = none ∨ area.width = some 0 →
      (createClipboardData domeId now isoNow area treesInArea relationshipData).width =
        (createClipboardData domeId now isoNow area treesInArea relationshipData).maxCol -
          (createClipboardData domeId now isoNow area treesInArea relationshipData).minCol
          + 1) ∧
    (∀ h, area.height = some h → h ≠ 0 →
      (createClipboardData domeId now isoNow area treesInArea relationshipData).height = h) ∧
    (area.height = none ∨ area.height = some 0 →
      (createClipboardData domeId now isoNow area treesInArea relationshipData).height =
        (createClipboardData domeId now isoNow area treesInArea relationshipData).maxRow -
          (createClipboardData domeId now isoNow area treesInArea relationshipData).minRow
          + 1) := by
  refine ⟨?_, ?_, ?_, ?_⟩
  · intro w hw hne
    simp [createClipboardData, truthyInt, hw, hne]
  · rintro (h | h) <;> simp [createClipboardData, truthyInt, h]
  · intro w hw hne
    simp [createClipboardData, truthyInt, hw, hne]
  · rintro (h | h) <;> simp [createClipboardData, truthyInt, h]

/-- Witness of the amended C8: the scenario area carries no `width` and no `height`, and
its clipboard entry is 2 wide and 2 high; `staleSizeArea` carries 5 and 5, which the
entry takes over. -/
theorem createClipboardData_bounds_witness :
    scenarioClipboard.width = 1 - 0 + 1 ∧ scenarioClipboard.height = 1 - 0 + 1 ∧
    (createClipboardData 1 0 "" staleSizeArea [] (analyzeRelationships [] [])).width = 5 :=
  ⟨(createClipboardData_bounds 1 0 "" scenarioArea _ _).2.1 (Or.inl rfl),
   (createClipboardData_bounds 1 0 "" scenarioArea _ _).2.2.2 (Or.inl rfl),
   (createClipboardData_bounds 1 0 "" staleSizeArea [] _).1 5 rfl (by decide)⟩

/-! ## The outside relations of `analyzeRelationships` -/

theorem foldl_push {α β : Type} (f : List β → α → List β)
    (hf : ∀ acc x, f acc x = acc ++ f [] x) (l : List α) (acc : List β) :
    l.foldl f acc = acc ++ l.flatMap (f []) := by
  induction l generalizing acc with
  | nil => simp
  | cons a as ih =>
    rw [List.foldl_cons, ih, hf acc a]
    simp

theorem pushMotherOf_append (trees treesInArea acc : List Tree) (c : Tree) :
    pushMotherOf trees treesInArea acc c = acc ++ pushMotherOf trees treesInArea [] c := by
  unfold pushMotherOf
  split
  · split
    · split <;> simp
    · simp
  · simp

theorem pushCuttingsOf_eq (trees treesInArea acc : List Tree) (m : Tree) :
    pushCuttingsOf trees treesInArea acc m =
      acc ++ ((trees.filter fun t => t.mother_plant_id == some m.id).filter
        fun t => !treesInArea.contains t).map markOutside := by
  unfold pushCuttingsOf
  rw [foldl_push _ (by intro acc x; split <;> simp)]
  congr 1
  generalize (trees.filter fun t => t.mother_plant_id == some m.id) = l
  induction l with
  | nil => rfl
  | cons a as ih =>
    simp only [List.flatMap_cons, ih, List.filter_cons]
    split <;> simp

theorem relatedTrees_eq (trees treesInArea : List Tree) :
    (analyzeRelationships trees treesInArea).relatedTrees =
      (treesInArea.filter fun t => t.plant_type == some "cutting").flatMap
          (pushMotherOf trees treesInArea []) ++
        (treesInArea.filter fun t => t.plant_type == some "mother").flatMap
          (pushCuttingsOf trees treesInArea []) := by
  unfold analyzeRelationships
  simp only
  rw [foldl_push _ (pushMotherOf_append trees treesInArea),
    foldl_push _ (fun acc x => by
      rw [pushCuttingsOf_eq, pushCuttingsOf_eq trees treesInArea []]; simp)]
  simp

theorem mem_pushMotherOf (trees treesInArea : List Tree) (c e : Tree) :
    e ∈ pushMotherOf trees treesInArea [] c ↔
      truthyInt c.mother_plant_id = true ∧
        ∃ m, trees.find? (fun t => some t.id == c.mother_plant_id) = some m ∧
          m ∉ treesInArea ∧ e = markOutside m := by
  unfold pushMotherOf
  by_cases ht : truthyInt c.mother_plant_id = true
  · simp only [ht, if_true, true_and]
    cases hf : trees.find? (fun t => some t.id == c.mother_plant_id) with
    | none => simp
    | some m =>
      by_cases hm : m ∈ treesInArea
      · simp [hm]
      · simp [hm]
  · simp [ht]

theorem mem_pushCuttingsOf (trees treesInArea : List Tree) (m e : Tree) :
    e ∈ pushCuttingsOf trees treesInArea [] m ↔
      ∃ t ∈ trees, t.mother_plant_id = some m.id ∧ t ∉ treesInArea ∧ e = markOutside t := by
  rw [pushCuttingsOf_eq]
  simp only [List.nil_append, List.mem_map, List.mem_filter, beq_iff_eq, Bool.not_eq_true',
    List.contains, List.elem_eq_mem, decide_eq_false_iff_not]
  constructor
  · rintro ⟨t, ⟨⟨h1, h2⟩, h3⟩, rfl⟩
    exact ⟨t, h1, h2, h3, rfl⟩
  · rintro ⟨t, h1, h2, h3, rfl⟩
    exact ⟨t, ⟨⟨h1, h2⟩, h3⟩, rfl⟩

theorem eq_of_id_eq (trees : List Tree) (hids : (trees.map fun t => t.id).Nodup)
    (a b : Tree) (ha : a ∈ trees) (hb : b ∈ trees) (h : a.id = b.id) : a = b :=
  List.inj_on_of_nodup_map hids ha hb h

theorem find?_id_eq (trees : List Tree) (hids : (trees.map fun t => t.id).Nodup)
    (t : Tree) (ht : t ∈ trees) :
    trees.find? (fun x => some x.id == some t.id) = some t := by
  cases hf : trees.find? (fun x => some x.id == some t.id) with
  | none =>
    rw [List.find?_eq_none] at hf
    exact absurd (by simp) (hf t ht)
  | some m =>
    have hm := List.mem_of_find?_eq_some hf
    have hp := List.find?_some hf
    simp only [beq_iff_eq, Option.some.injEq] at hp
    rw [eq_of_id_eq trees hids m t hm ht hp]

theorem markOutside_id (t : Tree) : (markOutside t).id = t.id := rfl

theorem markOutside_flag (t : Tree) : (markOutside t).isInOriginalArea = some false := rfl

/-- C6, as stated, fails: in the population `zeroIdTrees` the in-area cutting references
the outside mother by the non-null `mother_plant_id` 0, yet the mother (id 0) is not put
in `relatedTrees`, because the reference is tested for truthiness. -/
theorem analyzeRelationships_related_fails :
    ¬ (∀ (trees treesInArea : List Tree), (trees.map fun t => t.id).Nodup →
      ∀ t ∈ trees,
        (markOutside t ∈ (analyzeRelationships trees treesInArea).relatedTrees ↔
          t ∉ treesInArea ∧
            ((∃ c ∈ treesInArea, c.plant_type = some "cutting" ∧
                c.mother_plant_id = some t.id) ∨
              (∃ m ∈ treesInArea, m.plant_type = some "mother" ∧
                t.mother_plant_id = some m.id)))) := by
  intro h
  have h0 := (h zeroIdTrees (findTreesInArea zeroIdTrees scenarioArea) (by decide)
    zeroIdMother (by decide)).mpr
    ⟨by decide, Or.inl ⟨zeroRefCutting, by decide, by decide, by decide⟩⟩
  revert h0
  decide

/-- C6, amended: for a population with distinct ids and any in-area list, a tree `t` of
the population appears in `relatedTrees` (marked `isInOriginalArea = false`) if and only
if it is not in the in-area list and either (a) it is the tree referenced by the non-null
and non-zero `mother_plant_id` of some in-area tree of plant type `'cutting'`, or (b) its
`mother_plant_id` is the id of some in-area tree of plant type `'mother'`; every entry of
`relatedTrees` is such a tree and has `isInOriginalArea = false`. -/
theorem analyzeRelationships_related_iff (trees treesInArea : List Tree)
    (hids : (trees.map fun t => t.id).Nodup) :
    (∀ t ∈ trees,
      (markOutside t ∈ (analyzeRelationships trees treesInArea).relatedTrees ↔
        t ∉ treesInArea ∧
          ((∃ c ∈ treesInArea, c.plant_type = some "cutting" ∧
              c.mother_plant_id = some t.id ∧ t.id ≠ 0) ∨
            (∃ m ∈ treesInArea, m.plant_type = some "mother" ∧
              t.mother_plant_id = some m.id)))) ∧
    (∀ e ∈ (analyzeRelationships trees treesInArea).relatedTrees,
      e.isInOriginalArea = some false ∧ ∃ t ∈ trees, e = markOutside t) := by
  rw [relatedTrees_eq]
  simp only [List.mem_append, List.mem_flatMap, List.mem_filter, mem_pushMotherOf,
    mem_pushCuttingsOf, beq_iff_eq]
  constructor
  · intro t ht
    constructor
    · rintro (⟨c, ⟨hc, hct⟩, htr, m, hf, hm, he⟩ | ⟨m, ⟨hm, hmt⟩, t', ht', href, hout, he⟩)
      · have hmem := List.mem_of_find?_eq_some hf
        have hp := List.find?_some hf
        simp only [beq_iff_eq] at hp
        have htm : t = m := eq_of_id_eq trees hids t m ht hmem (congrArg (fun x => x.id) he : (markOutside _).id = (markOutside _).id)
        subst htm
        refine ⟨hm, Or.inl ⟨c, hc, hct, hp.symm, ?_⟩⟩
        intro h0
        rw [← hp, h0] at htr
        simp [truthyInt] at htr
      · have htt : t = t' := eq_of_id_eq trees hids t t' ht ht' (congrArg (fun x => x.id) he : (markOutside _).id = (markOutside _).id)
        subst htt
        exact ⟨hout, Or.inr ⟨m, hm, hmt, href⟩⟩
    · rintro ⟨hout, ⟨c, hc, hct, href, hne⟩ | ⟨m, hm, hmt, href⟩⟩
      · refine Or.inl ⟨c, ⟨hc, hct⟩, ?_, t, ?_, hout, rfl⟩
        · simp [href, truthyInt, hne]
        · rw [href]
          exact find?_id_eq trees hids t ht
      · exact Or.inr ⟨m, ⟨hm, hmt⟩, t, ht, href, hout, rfl⟩
  · rintro e (⟨c, _, _, m, hf, _, he⟩ | ⟨m, _, t', ht', _, _, he⟩)
    · exact ⟨by rw [he]; rfl, m, List.mem_of_find?_eq_some hf, he⟩
    · exact ⟨by rw [he]; rfl, t', ht', he⟩

/-- Witness of the amended C6 on scenario A: the population has distinct ids, the
outside relations are exactly the cutting id 3, and the in-area mother id 1 is not among
them. -/
theorem analyzeRelationships_related_iff_witness :
    (scenarioTrees.map fun t => t.id).Nodup ∧
    (analyzeRelationships scenarioTrees
      (findTreesInArea scenarioTrees scenarioArea)).relatedTrees =
        [markOutside scenarioCuttingOut] ∧
    markOutside scenarioCuttingOut ∈ (analyzeRelationships scenarioTrees
      (findTreesInArea scenarioTrees scenarioArea)).relatedTrees ∧
    markOutside scenarioMother ∉ (analyzeRelationships scenarioTrees
      (findTreesInArea scenarioTrees scenarioArea)).relatedTrees :=
  ⟨by decide, by decide,
    ((analyzeRelationships_related_iff scenarioTrees
      (findTreesInArea scenarioTrees scenarioArea) (by decide)).1
        scenarioCuttingOut (by decide)).mpr
      ⟨by decide, Or.inr ⟨scenarioMother, by decide, by decide, by decide⟩⟩,
    fun h => (((analyzeRelationships_related_iff scenarioTrees
      (findTreesInArea scenarioTrees scenarioArea) (by decide)).1
        scenarioMother (by decide)).mp h).1 (by decide)⟩

theorem count_flatMap_indicator {α β : Type} [DecidableEq β] (l : List α)
    (h : α → List β) (b : β) (P : α → Bool)
    (hP : ∀ a ∈ l, (h a).count b = if P a then 1 else 0) :
    (l.flatMap h).count b = l.countP P := by
  induction l with
  | nil => simp
  | cons a as ih =>
    have ha := hP a (List.mem_cons_self a as)
    have ih' := ih (fun x hx => hP x (List.mem_cons_of_mem a hx))
    simp only [List.flatMap_cons, List.count_append, List.countP_cons, ha, ih']
    omega

theorem count_map_filter_of_nodup {α β : Type} [DecidableEq β] (f : α → β) (p : α → Bool)
    (l : List α) (hl : (l.map f).Nodup) (a : α) (ha : a ∈ l) :
    ((l.filter p).map f).count (f a) = if p a then 1 else 0 := by
  have hsub : ((l.filter p).map f).Nodup :=
    List.Nodup.sublist (List.Sublist.map f (List.filter_sublist l)) hl
  rw [List.count_eq_of_nodup hsub]
  have hmem : f a ∈ (l.filter p).map f ↔ p a = true := by
    simp only [List.mem_map, List.mem_filter]
    constructor
    · rintro ⟨x, ⟨hx, hpx⟩, hfx⟩
      rw [← List.inj_on_of_nodup_map hl hx ha hfx]
      exact hpx
    · intro hpa
      exact ⟨a, ⟨ha, hpa⟩, rfl⟩
  by_cases hpa : p a = true
  · simp [hmem, hpa]
  · simp [hmem, hpa]

theorem count_pushMotherOf (trees treesInArea : List Tree)
    (hids : (trees.map fun t => t.id).Nodup) (t : Tree) (ht : t ∈ trees)
    (hout : t ∉ treesInArea) (c : Tree) :
    ((pushMotherOf trees treesInArea [] c).map fun x => x.id).count t.id =
      if (truthyInt c.mother_plant_id && c.mother_plant_id == some t.id) then 1 else 0 := by
  unfold pushMotherOf
  by_cases htr : truthyInt c.mother_plant_id = true
  · simp only [htr, if_true, Bool.true_and]
    by_cases href : c.mother_plant_id = some t.id
    · rw [href, find?_id_eq trees hids t ht]
      simp [hout, markOutside_id]
    · cases hf : trees.find? (fun x => some x.id == c.mother_plant_id) with
      | none => simp [href]
      | some m =>
        have hp := List.find?_some hf
        simp only [beq_iff_eq] at hp
        have hne : m.id ≠ t.id := fun h => href (by rw [← hp, h])
        by_cases hm : m ∈ treesInArea
        · simp [hm, href]
        · simp [hm, href, markOutside_id, List.count_singleton, hne]
  · simp [htr]

theorem count_pushCuttingsOf (trees treesInArea : List Tree)
    (hids : (trees.map fun t => t.id).Nodup) (t : Tree) (ht : t ∈ trees)
    (hout : t ∉ treesInArea) (m : Tree) :
    ((pushCuttingsOf trees treesInArea [] m).map fun x => x.id).count t.id =
      if t.mother_plant_id == some m.id then 1 else 0 := by
  rw [pushCuttingsOf_eq, List.nil_append, List.map_map, List.filter_filter]
  have hfun : ((fun x : Tree => x.id) ∘ markOutside) = fun x : Tree => x.id := rfl
  rw [hfun, count_map_filter_of_nodup (fun x : Tree => x.id) _ trees hids t ht]
  simp [hout]

theorem count_relatedTrees (trees treesInArea : List Tree)
    (hids : (trees.map fun t => t.id).Nodup) (t : Tree) (ht : t ∈ trees)
    (hout : t ∉ treesInArea) :
    (((analyzeRelationships trees treesInArea).relatedTrees.map fun x => x.id).count t.id) =
      relationCount treesInArea t := by
  rw [relatedTrees_eq, List.map_append, List.count_append, List.map_flatMap,
    List.map_flatMap]
  rw [count_flatMap_indicator _ _ t.id
      (fun c => truthyInt c.mother_plant_id && c.mother_plant_id == some t.id)
      (fun c _ => count_pushMotherOf trees treesInArea hids t ht hout c),
    count_flatMap_indicator _ _ t.id (fun m => t.mother_plant_id == some m.id)
      (fun m _ => count_pushCuttingsOf trees treesInArea hids t ht hout m)]
  rw [List.countP_filter, List.countP_filter]
  unfold relationCount
  congr 1
  · congr 1
    funext c
    rw [Bool.and_comm]
  · congr 1
    funext m
    rw [Bool.and_comm]

theorem related_from_outside (trees treesInArea : List Tree) :
    ∀ e ∈ (analyzeRelationships trees treesInArea).relatedTrees,
      ∃ t ∈ trees, t ∉ treesInArea ∧ e = markOutside t := by
  rw [relatedTrees_eq]
  simp only [List.mem_append, List.mem_flatMap, List.mem_filter, mem_pushMotherOf,
    mem_pushCuttingsOf]
  rintro e (⟨c, _, _, m, hf, hm, he⟩ | ⟨m, _, t', ht', _, hout, he⟩)
  · exact ⟨m, List.mem_of_find?_eq_some hf, hm, he⟩
  · exact ⟨t', ht', hout, he⟩

theorem relatedTrees_nodup_iff (trees treesInArea : List Tree)
    (hids : (trees.map fun t => t.id).Nodup) :
    ((analyzeRelationships trees treesInArea).relatedTrees.map fun x => x.id).Nodup ↔
      ∀ t ∈ trees, t ∉ treesInArea → relationCount treesInArea t ≤ 1 := by
  rw [List.nodup_iff_count_le_one]
  constructor
  · intro h t ht hout
    rw [← count_relatedTrees trees treesInArea hids t ht hout]
    exact h t.id
  · intro h i
    by_cases hi : i ∈ (analyzeRelationships trees treesInArea).relatedTrees.map fun x => x.id
    · obtain ⟨e, he, rfl⟩ := List.mem_map.mp hi
      obtain ⟨t, ht, hout, rfl⟩ := related_from_outside trees treesInArea e he
      rw [markOutside_id, count_relatedTrees trees treesInArea hids t ht hout]
      exact h t ht hout
    · rw [List.count_eq_zero.mpr hi]
      omega

theorem clipboard_trees_ids (domeId : Int) (now : Nat) (isoNow : String) (area : Area)
    (treesInArea : List Tree) (rel : RelationshipData) :
    ((createClipboardData domeId now isoNow area treesInArea rel).trees.map fun x => x.id) =
      (treesInArea.map fun x => x.id) ++ rel.relatedTrees.map fun x => x.id := by
  simp [createClipboardData, markInside, Function.comp_def]

theorem clipboard_trees_nodup_iff (trees : List Tree) (area : Area)
    (hids : (trees.map fun t => t.id).Nodup) (domeId : Int) (now : Nat) (isoNow : String) :
    ((createClipboardData domeId now isoNow area (findTreesInArea trees area)
        (analyzeRelationships trees (findTreesInArea trees area))).trees.map
          fun x => x.id).Nodup ↔
      ((analyzeRelationships trees (findTreesInArea trees area)).relatedTrees.map
        fun x => x.id).Nodup := by
  rw [clipboard_trees_ids, List.nodup_append]
  constructor
  · exact fun h => h.2.1
  · intro h
    refine ⟨List.Nodup.sublist (List.Sublist.map _ (List.filter_sublist trees)) hids, h, ?_⟩
    rw [List.disjoint_left]
    intro i hin hrel
    obtain ⟨a, ha, rfl⟩ := List.mem_map.mp hin
    obtain ⟨e, he, hid⟩ := List.mem_map.mp hrel
    obtain ⟨t, ht, hout, rfl⟩ := related_from_outside trees _ e he
    have hat : a ∈ trees := List.mem_of_mem_filter ha
    have : t = a := eq_of_id_eq trees hids t a ht hat hid
    exact hout (this ▸ ha)

/-- C5, as stated, fails: in the population `sharedMotherTrees` (distinct ids) the
outside mother id 1 is pushed once for each of the two in-area cuttings that reference
it, so `relatedTrees` carries the id 1 twice. -/
theorem relatedTrees_nodup_fails :
    ¬ (∀ (trees : List Tree) (area : Area), (trees.map fun t => t.id).Nodup →
      ((analyzeRelationships trees (findTreesInArea trees area)).relatedTrees.map
          fun x => x.id).Nodup ∧
        ∀ (domeId : Int) (now : Nat) (isoNow : String),
          ((createClipboardData domeId now isoNow area (findTreesInArea trees area)
            (analyzeRelationships trees (findTreesInArea trees area))).trees.map
              fun x => x.id).Nodup) := by
  intro h
  have h0 := (h sharedMotherTrees scenarioArea (by decide)).1
  revert h0
  decide

/-- C5, amended: for a population with pairwise distinct ids and a selected area,
`relatedTrees` has no two entries with the same id, and likewise the `trees` list built by
`createClipboardData` has no duplicate id, exactly when every tree outside the area is
related to at most one in-area tree (`relationCount`); nothing is deduplicated. -/
theorem relatedTrees_nodup_iff_single_relation (trees : List Tree) (area : Area)
    (domeId : Int) (now : Nat) (isoNow : String)
    (hids : (trees.map fun t => t.id).Nodup) :
    (((analyzeRelationships trees (findTreesInArea trees area)).relatedTrees.map
        fun x => x.id).Nodup ↔
      ∀ t ∈ trees, t ∉ findTreesInArea trees area →
        relationCount (findTreesInArea trees area) t ≤ 1) ∧
    (((createClipboardData domeId now isoNow area (findTreesInArea trees area)
        (analyzeRelationships trees (findTreesInArea trees area))).trees.map
          fun x => x.id).Nodup ↔
      ∀ t ∈ trees, t ∉ findTreesInArea trees area →
        relationCount (findTreesInArea trees area) t ≤ 1) := by
  refine ⟨relatedTrees_nodup_iff trees _ hids, ?_⟩
  rw [clipboard_trees_nodup_iff trees area hids]
  exact relatedTrees_nodup_iff trees _ hids

/-- Witness of the amended C5: in scenario A all ids of the clipboard trees are distinct;
in `sharedMotherTrees` the outside mother is related to two in-area cuttings. -/
theorem relatedTrees_nodup_iff_single_relation_witness :
    (scenarioTrees.map fun t => t.id).Nodup ∧
    (scenarioClipboard.trees.map fun x => x.id).Nodup ∧
    ¬ ∀ t ∈ sharedMotherTrees, t ∉ findTreesInArea sharedMotherTrees scenarioArea →
        relationCount (findTreesInArea sharedMotherTrees scenarioArea) t ≤ 1 :=
  ⟨by decide,
    (relatedTrees_nodup_iff_single_relation scenarioTrees scenarioArea 1 0 ""
      (by decide)).2.mpr (by decide),
    fun h => absurd ((relatedTrees_nodup_iff_single_relation sharedMotherTrees scenarioArea
      1 0 "" (by decide)).1.mpr h) (by decide)⟩

/-! ## Claims on the unified clipboard store -/

theorem saveUnifiedClipboard_ok (domeId : Int) (isoNow : String) (setItemThrows : Bool)
    (clipboardData : Option ClipboardEntry) (source : Option String) (s : PageState)
    (h : (saveUnifiedClipboard domeId isoNow setItemThrows clipboardData source s).1 ≠ none) :
    setItemThrows = false := by
  cases setItemThrows with
  | false => rfl
  | true => exact absurd rfl h

theorem load_after_save (domeId : Int) (isoNow : String)
    (clipboardData : Option ClipboardEntry) (source : Option String) (s : PageState) :
    (loadUnifiedClipboard domeId
        (saveUnifiedClipboard domeId isoNow false clipboardData source s).2).1 =
      some { spreadEntry clipboardData with
        source_dome_id := some domeId
        copied_at := some isoNow
        clipboard_source := source
        unified_version := some "1.0" } := by
  simp [loadUnifiedClipboard, saveUnifiedClipboard, PageState.setDragClipboard,
    PageState.setClipboardArea, Storage.setItem, StoredText.truthy]

/-- C9, as stated, fails: saving in dome 1 the entry `crossDomeEntry`, whose
`source_dome_id` is 2, succeeds, and the following load returns an entry whose
`source_dome_id` is 1, not 2: the save stamps the active dome on the entry. -/
theorem unified_round_trip_source_fails :
    ¬ (∀ (domeId : Int) (isoNow : String) (setItemThrows : Bool) (e : ClipboardEntry)
        (source : Option String) (s : PageState),
      (saveUnifiedClipboard domeId isoNow setItemThrows (some e) source s).1 ≠ none →
      ∃ d, (loadUnifiedClipboard domeId
          (saveUnifiedClipboard domeId isoNow setItemThrows (some e) source s).2).1 = some d ∧
        d.name = e.name ∧ d.type = e.type ∧ d.trees = e.trees ∧
        d.tree_count = e.tree_count ∧ d.minRow = e.minRow ∧ d.maxRow = e.maxRow ∧
        d.minCol = e.minCol ∧ d.maxCol = e.maxCol ∧ d.width = e.width ∧
        d.height = e.height ∧ d.source_dome_id = e.source_dome_id) := by
  intro h
  obtain ⟨d, hd, -, -, -, -, -, -, -, -, -, -, hsrc⟩ :=
    h 1 "" false crossDomeEntry (some "drag_selector") emptyPage (by simp [saveUnifiedClipboard])
  rw [load_after_save] at hd
  cases hd
  revert hsrc
  decide

/-- C9, amended: `loadUnifiedClipboard()` called right after a successful
`saveUnifiedClipboard(e, source)` returns an entry equal to `e` in name, type, trees,
tree_count and the bounds (minRow, maxRow, minCol, maxCol, width, height), and whose
`source_dome_id` is the active `domeId`. -/
theorem unified_round_trip (domeId : Int) (isoNow : String) (setItemThrows : Bool)
    (e : ClipboardEntry) (source : Option String) (s : PageState)
    (hsave : (saveUnifiedClipboard domeId isoNow setItemThrows (some e) source s).1 ≠ none) :
    ∃ d, (loadUnifiedClipboard domeId
        (saveUnifiedClipboard domeId isoNow setItemThrows (some e) source s).2).1 = some d ∧
      d.name = e.name ∧ d.type = e.type ∧ d.trees = e.trees ∧
      d.tree_count = e.tree_count ∧ d.minRow = e.minRow ∧ d.maxRow = e.maxRow ∧
      d.minCol = e.minCol ∧ d.maxCol = e.maxCol ∧ d.width = e.width ∧
      d.height = e.height ∧ d.source_dome_id = some domeId := by
  have hthrow := saveUnifiedClipboard_ok domeId isoNow setItemThrows (some e) source s hsave
  subst hthrow
  exact ⟨_, load_after_save domeId isoNow (some e) source s,
    rfl, rfl, rfl, rfl, rfl, rfl, rfl, rfl, rfl, rfl, rfl⟩

/-- Witness of the amended C9: `crossDomeEntry` saved and loaded in dome 1. -/
theorem unified_round_trip_witness :
    ∃ d, (loadUnifiedClipboard 1
        (saveUnifiedClipboard 1 "" false (some crossDomeEntry) (some "drag_selector")
          emptyPage).2).1 = some d ∧
      d.name = crossDomeEntry.name ∧ d.type = crossDomeEntry.type ∧
      d.trees = crossDomeEntry.trees ∧ d.tree_count = crossDomeEntry.tree_count ∧
      d.minRow = crossDomeEntry.minRow ∧ d.maxRow = crossDomeEntry.maxRow ∧
      d.minCol = crossDomeEntry.minCol ∧ d.maxCol = crossDomeEntry.maxCol ∧
      d.width = crossDomeEntry.width ∧ d.height = crossDomeEntry.height ∧
      d.source_dome_id = some 1 :=
  unified_round_trip 1 "" false crossDomeEntry (some "drag_selector") emptyPage
    (by simp [saveUnifiedClipboard])

theorem foldl_removeItem (keys : List String) (ls : Storage) (k : String) :
    (keys.foldl (fun ls key => ls.removeItem key) ls) k = if k ∈ keys then none else ls k := by
  induction keys generalizing ls with
  | nil => simp
  | cons key keys ih =>
    rw [List.foldl_cons, ih]
    by_cases hk : k ∈ keys
    · simp [hk]
    · by_cases hkey : k = key
      · simp [hkey, Storage.removeItem]
      · simp [hk, hkey, Storage.removeItem]

theorem findClipboardData_storage (domeId : Int) (s : PageState) :
    (findClipboardData domeId s).2.localStorage = s.localStorage ∧
    (findClipboardData domeId s).2.copiedTreeData = s.copiedTreeData := by
  unfold findClipboardData
  simp only
  repeat' split
  all_goals exact ⟨rfl, rfl⟩

theorem displayCall_storage (domeId : Int) (display : DisplayFunction) (s : PageState)
    (pasteBtn : Option PasteButton) :
    (display.call domeId s pasteBtn).1.localStorage = s.localStorage ∧
    (display.call domeId s pasteBtn).1.copiedTreeData = s.copiedTreeData := by
  cases display with
  | notDefined => exact ⟨rfl, rfl⟩
  | plainDisplay => exact ⟨rfl, rfl⟩
  | fixedDisplay => exact ⟨rfl, rfl⟩
  | enhancedDisplay =>
    simp only [DisplayFunction.call, enhancedPasteButtonDisplay]
    cases pasteBtn with
    | none => exact ⟨rfl, rfl⟩
    | some b =>
      simp only
      split <;> exact findClipboardData_storage domeId s

theorem clearClipboardStorage_page_eq (domeId : Int) (display : DisplayFunction)
    (w : Browser) :
    (clearClipboardStorage domeId display w).page =
      (display.call domeId
        { clearAllClipboardData domeId w.page with
          localStorage := (clearAllClipboardData domeId w.page).localStorage.removeItem
            (UNIFIED_CLIPBOARD_KEY domeId) } w.pasteBtn).1 := by
  unfold clearClipboardStorage Browser.showStatus
  simp only
  split <;> rfl

/-- What `window.clearClipboardStorage()` does whatever function is bound to
`updatePasteButtonDisplay`: `copiedTreeData` is null, the unified key of the dome and
every key listed in `clearAllClipboardData` are absent, and a following
`loadUnifiedClipboard()` returns null; when the bound function is not
`enhancedPasteButtonDisplay`, the two mirrors are null as well. -/
theorem clearClipboardStorage_storage (domeId : Int) (display : DisplayFunction)
    (w : Browser) :
    (clearClipboardStorage domeId display w).page.copiedTreeData = none ∧
    (clearClipboardStorage domeId display w).page.localStorage
      (UNIFIED_CLIPBOARD_KEY domeId) = none ∧
    (∀ key ∈ allPossibleKeys domeId,
      (clearClipboardStorage domeId display w).page.localStorage key = none) ∧
    (loadUnifiedClipboard domeId (clearClipboardStorage domeId display w).page).1 = none ∧
    (display ≠ .enhancedDisplay →
      (clearClipboardStorage domeId display w).page._dragClipboard = none ∧
      (clearClipboardStorage domeId display w).page._clipboardArea = none) := by
  obtain ⟨hls, hct⟩ := displayCall_storage domeId display
    { clearAllClipboardData domeId w.page with
      localStorage := (clearAllClipboardData domeId w.page).localStorage.removeItem
        (UNIFIED_CLIPBOARD_KEY domeId) } w.pasteBtn
  rw [clearClipboardStorage_page_eq]
  have hkey : (display.call domeId
      { clearAllClipboardData domeId w.page with
        localStorage := (clearAllClipboardData domeId w.page).localStorage.removeItem
          (UNIFIED_CLIPBOARD_KEY domeId) } w.pasteBtn).1.localStorage
      (UNIFIED_CLIPBOARD_KEY domeId) = none := by
    rw [hls]
    simp [Storage.removeItem]
  refine ⟨?_, hkey, ?_, ?_, ?_⟩
  · rw [hct]
    rfl
  · intro key hmem
    rw [hls]
    simp only [clearAllClipboardData, PageState.setDragClipboard,
      PageState.setClipboardArea, Storage.removeItem]
    split
    · rfl
    · rw [foldl_removeItem]
      simp [hmem]
  · unfold loadUnifiedClipboard
    rw [hkey]
  · intro hd
    cases display with
    | notDefined => exact ⟨rfl, rfl⟩
    | plainDisplay => exact ⟨rfl, rfl⟩
    | fixedDisplay => exact ⟨rfl, rfl⟩
    | enhancedDisplay => exact absurd rfl hd

/-- C10 (the code departs from the claim): in dome 1, with `updatePasteButtonDisplay`
bound to the `enhancedPasteButtonDisplay` of `paste_button_fix.js` and the key
`clipboardBackup_dome_1` holding a named entry of dome 1, `window.clearClipboardStorage()`
ends with `window.dragClipboard` and `window.clipboardArea` holding that entry again and
the paste button shown: the backup key is not among the keys that
`clearAllClipboardData` removes, and the display call that ends the clear restores the
mirrors from it. -/
theorem clearClipboardStorage_restored_from_backup :
    BACKUP_KEY 1 ∉ allPossibleKeys 1 ∧
    (clearClipboardStorage 1 .enhancedDisplay backupStoredBrowser).page.localStorage
      (BACKUP_KEY 1) = some (.json (.object singleTreeEntry)) ∧
    (clearClipboardStorage 1 .enhancedDisplay backupStoredBrowser).page._dragClipboard =
      some singleTreeEntry ∧
    (clearClipboardStorage 1 .enhancedDisplay backupStoredBrowser).page._clipboardArea =
      some singleTreeEntry ∧
    (clearClipboardStorage 1 .enhancedDisplay backupStoredBrowser).pasteBtn.map
      (fun b => b.display) = some "block" := by
  refine ⟨?_, ?_, ?_, ?_, ?_⟩ <;> decide

/-! ## Claims on `loadUnifiedClipboard` -/

/-- C11, as stated, fails: with `crossDomeEntry` (tagged with dome 2) persisted under the
unified key of dome 1, `loadUnifiedClipboard()` in dome 1 does not return the entry. -/
theorem loadUnifiedClipboard_cross_dome_fails :
    ¬ (∀ (domeId : Int) (s : PageState) (data : ClipboardEntry),
      s.localStorage (UNIFIED_CLIPBOARD_KEY domeId) = some (.json (.object data)) →
      data.source_dome_id ≠ some domeId →
      (loadUnifiedClipboard domeId s).1 = some data ∧
        (loadUnifiedClipboard domeId s).2._dragClipboard = some data ∧
        (loadUnifiedClipboard domeId s).2._clipboardArea = some data) := by
  intro h
  have h0 := (h 1 foreignStoredPage crossDomeEntry
    (by simp [foreignStoredPage, Storage.setItem]) (by decide)).1
  simp [loadUnifiedClipboard, foreignStoredPage, Storage.setItem, StoredText.truthy,
    crossDomeEntry] at h0

/-- C11, amended: an entry persisted under the active dome's unified key is returned and
installed in `window.dragClipboard` and `window.clipboardArea` when its `source_dome_id`
equals the active `domeId`; when its `source_dome_id` differs, the load returns null and
leaves the page state, mirrors included, unchanged. -/
theorem loadUnifiedClipboard_dome_gate (domeId : Int) (s : PageState)
    (data : ClipboardEntry)
    (hstored : s.localStorage (UNIFIED_CLIPBOARD_KEY domeId) = some (.json (.object data))) :
    (data.source_dome_id = some domeId →
      (loadUnifiedClipboard domeId s).1 = some data ∧
        (loadUnifiedClipboard domeId s).2._dragClipboard = some data ∧
        (loadUnifiedClipboard domeId s).2._clipboardArea = some data) ∧
    (data.source_dome_id ≠ some domeId → loadUnifiedClipboard domeId s = (none, s)) := by
  constructor
  · intro h
    simp [loadUnifiedClipboard, hstored, StoredText.truthy, h, PageState.setDragClipboard,
      PageState.setClipboardArea]
  · intro h
    simp [loadUnifiedClipboard, hstored, StoredText.truthy, h]

/-- Witness of the amended C11: in dome 1 the stored `crossDomeEntry` (dome 2) is not
loaded, and in dome 2 the same stored entry is. -/
theorem loadUnifiedClipboard_dome_gate_witness :
    loadUnifiedClipboard 1 foreignStoredPage = (none, foreignStoredPage) ∧
    (loadUnifiedClipboard 2
      { emptyPage with
        localStorage := emptyPage.localStorage.setItem (UNIFIED_CLIPBOARD_KEY 2)
          (.json (.object crossDomeEntry)) }).1 = some crossDomeEntry :=
  ⟨(loadUnifiedClipboard_dome_gate 1 foreignStoredPage crossDomeEntry
      (by simp [foreignStoredPage, Storage.setItem])).2 (by decide),
    ((loadUnifiedClipboard_dome_gate 2 _ crossDomeEntry
      (by simp [Storage.setItem])).1 (by decide)).1⟩

/-- C13: when the string stored under the unified key is not the JSON of an object
(a text on which `JSON.parse` throws, JSON `null`, or a number, string or boolean),
`loadUnifiedClipboard()` returns null and leaves the page state, `window.dragClipboard`
and `window.clipboardArea` included, unchanged; the call always returns. -/
theorem loadUnifiedClipboard_fails_open (domeId : Int) (s : PageState) (stored : StoredText)
    (hstored : s.localStorage (UNIFIED_CLIPBOARD_KEY domeId) = some stored)
    (hbad : ∀ data, stored ≠ .json (.object data)) :
    loadUnifiedClipboard domeId s = (none, s) := by
  unfold loadUnifiedClipboard
  rw [hstored]
  cases stored with
  | unparseable t => simp
  | json v =>
    cases v with
    | null => simp
    | scalar b => simp
    | object data => exact absurd rfl (hbad data)

/-- Witness of C13 on a page whose unified key holds a text that is not JSON. -/
theorem loadUnifiedClipboard_fails_open_witness :
    loadUnifiedClipboard 1 corruptStoredPage = (none, corruptStoredPage) :=
  loadUnifiedClipboard_fails_open 1 corruptStoredPage (.unparseable "not json")
    (by simp [corruptStoredPage, Storage.setItem]) (by intro data h; cases h)

/-! ## Claims on `loadExistingClipboard` -/

theorem readUnifiedEntry_some (domeId : Int) (s : PageState) (data : ClipboardEntry)
    (h : readUnifiedEntry domeId s = some data) :
    s.localStorage (UNIFIED_KEY domeId) = some (.json (.object data)) ∧
      data.source_dome_id = some domeId := by
  unfold readUnifiedEntry at h
  split at h
  · cases h
  · rename_i stored hst
    split at h
    · split at h
      · cases h
      · cases h
      · cases h
      · rename_i data'
        split at h
        · rename_i hc
          cases h
          simp only [Bool.and_eq_true, decide_eq_true_eq] at hc
          exact ⟨hst, hc.1⟩
        · cases h
    · cases h

theorem migrateOtherKeys_some (domeId : Int) (isoNow : String) (setItemThrows : Bool)
    (s : PageState) (keys : List String) (d : ClipboardEntry)
    (h : (migrateOtherKeys domeId isoNow setItemThrows s keys).1 = some d) :
    d.source_dome_id = some domeId ∧
    (migrateOtherKeys domeId isoNow setItemThrows s keys).2._dragClipboard = some d ∧
    (migrateOtherKeys domeId isoNow setItemThrows s keys).2._clipboardArea = some d ∧
    (migrateOtherKeys domeId isoNow setItemThrows s keys).2.localStorage (UNIFIED_KEY domeId) =
      some (.json (.object d)) ∧
    ∃ key ∈ keys, ∃ data, s.localStorage key = some (.json (.object data)) ∧
      d = { data with
        source_dome_id := some domeId
        copied_at := some isoNow
        unified_version := some "1.0" } := by
  induction keys with
  | nil => simp [migrateOtherKeys] at h
  | cons key rest ih =>
    have next : (migrateOtherKeys domeId isoNow setItemThrows s (key :: rest) =
        migrateOtherKeys domeId isoNow setItemThrows s rest) →
        d.source_dome_id = some domeId ∧
        (migrateOtherKeys domeId isoNow setItemThrows s (key :: rest)).2._dragClipboard
          = some d ∧
        (migrateOtherKeys domeId isoNow setItemThrows s (key :: rest)).2._clipboardArea
          = some d ∧
        (migrateOtherKeys domeId isoNow setItemThrows s (key :: rest)).2.localStorage
          (UNIFIED_KEY domeId) = some (.json (.object d)) ∧
        ∃ key' ∈ key :: rest, ∃ data, s.localStorage key' = some (.json (.object data)) ∧
          d = { data with
            source_dome_id := some domeId
            copied_at := some isoNow
            unified_version := some "1.0" } := by
      intro heq
      rw [heq] at h ⊢
      obtain ⟨h1, h2, h3, h4, k, hk, data, hst, hd⟩ := ih h
      exact ⟨h1, h2, h3, h4, k, List.mem_cons_of_mem _ hk, data, hst, hd⟩
    cases hst : s.localStorage key with
    | none => exact next (by simp [migrateOtherKeys, hst])
    | some stored =>
      cases stored with
      | unparseable t => exact next (by simp [migrateOtherKeys, hst])
      | json v =>
        cases v with
        | null => exact next (by simp [migrateOtherKeys, hst])
        | scalar b => exact next (by simp [migrateOtherKeys, hst])
        | object data =>
          by_cases hname : truthyStr data.name = true
          · cases setItemThrows with
            | true => exact next (by simp [migrateOtherKeys, hst, hname, StoredText.truthy])
            | false =>
              simp only [migrateOtherKeys, hst, StoredText.truthy, hname, if_true,
                Bool.false_eq_true, if_false, Option.some.injEq] at h ⊢
              subst h
              refine ⟨rfl, rfl, rfl, ?_, key, List.mem_cons_self _ _, data, hst, rfl⟩
              simp [PageState.assignBoth, Storage.setItem]
          · exact next (by simp [migrateOtherKeys, hst, hname, StoredText.truthy])

/-- C12, as stated, fails: in dome 1, with `crossDomeEntry` (tagged with dome 2) persisted
under `globalDragClipboard`, `loadExistingClipboard()` returns an entry whose
`source_dome_id` is 1, while the only persisted entry carries 2. -/
theorem loadExistingClipboard_source_kept_fails :
    ¬ (∀ (domeId : Int) (isoNow : String) (setItemThrows : Bool) (s : PageState)
        (d : ClipboardEntry),
      (loadExistingClipboard domeId isoNow setItemThrows s).1 = some d →
      ∃ key ∈ UNIFIED_KEY domeId :: otherKeys, ∃ data,
        s.localStorage key = some (.json (.object data)) ∧ d.name = data.name ∧
          d.source_dome_id = data.source_dome_id) := by
  intro h
  obtain ⟨key, -, data, hst, -, hsrc⟩ := h 1 "" false legacyGlobalPage
    { crossDomeEntry with
      source_dome_id := some 1, copied_at := some "", unified_version := some "1.0" }
    (by decide)
  simp only [legacyGlobalPage, emptyPage, Storage.setItem] at hst
  split at hst
  · simp only [Option.some.injEq, StoredText.json.injEq, JsonValue.object.injEq] at hst
    subst hst
    revert hsrc
    decide
  · cases hst

/-- C12, amended: every entry that `loadExistingClipboard()` returns carries the active
`domeId` as `source_dome_id`, and is installed in both mirrors and held under the unified
key: it is either the entry persisted under the unified key, returned as it is (it is
accepted only with the active `domeId`), or an entry persisted under `globalDragClipboard`,
`globalTreeClipboard` or `copiedTreeData` whose `source_dome_id`, `copied_at` and
`unified_version` are rewritten, all other fields kept. -/
theorem loadExistingClipboard_stamps_dome (domeId : Int) (isoNow : String)
    (setItemThrows : Bool) (s : PageState) (d : ClipboardEntry)
    (h : (loadExistingClipboard domeId isoNow setItemThrows s).1 = some d) :
    d.source_dome_id = some domeId ∧
    (loadExistingClipboard domeId isoNow setItemThrows s).2._dragClipboard = some d ∧
    (loadExistingClipboard domeId isoNow setItemThrows s).2._clipboardArea = some d ∧
    (loadExistingClipboard domeId isoNow setItemThrows s).2.localStorage (UNIFIED_KEY domeId) =
      some (.json (.object d)) ∧
    ((s.localStorage (UNIFIED_KEY domeId) = some (.json (.object d))) ∨
      ∃ key ∈ otherKeys, ∃ data, s.localStorage key = some (.json (.object data)) ∧
        d = { data with
          source_dome_id := some domeId
          copied_at := some isoNow
          unified_version := some "1.0" }) := by
  unfold loadExistingClipboard at h ⊢
  cases hread : readUnifiedEntry domeId s with
  | some data =>
    simp only [hread, Option.some.injEq] at h ⊢
    subst h
    obtain ⟨hst, hsrc⟩ := readUnifiedEntry_some domeId s data hread
    exact ⟨hsrc, rfl, rfl, hst, Or.inl hst⟩
  | none =>
    simp only [hread] at h ⊢
    obtain ⟨h1, h2, h3, h4, h5⟩ := migrateOtherKeys_some domeId isoNow setItemThrows s _ d h
    exact ⟨h1, h2, h3, h4, Or.inr h5⟩

/-- Witness of the amended C12: `crossDomeEntry` under `globalDragClipboard`, loaded in
dome 1. -/
theorem loadExistingClipboard_stamps_dome_witness :
    (loadExistingClipboard 1 "" false legacyGlobalPage).1 =
      some { crossDomeEntry with
        source_dome_id := some 1, copied_at := some "", unified_version := some "1.0" } ∧
    (loadExistingClipboard 1 "" false legacyGlobalPage).2._dragClipboard =
      some { crossDomeEntry with
        source_dome_id := some 1, copied_at := some "", unified_version := some "1.0" } :=
  ⟨by decide,
    (loadExistingClipboard_stamps_dome 1 "" false legacyGlobalPage _ (by decide)).2.1⟩

/-! ## Claims on the paste-button display -/

theorem orStr_eq (o : Option String) (d : String) :
    orStr o d = if truthyStr o then o.getD "" else d := by
  cases o with
  | none => simp [orStr, truthyStr]
  | some v => by_cases h : v = "" <;> simp [orStr, truthyStr, h]

theorem orInt_eq (o : Option Int) (d : Int) :
    orInt o d = if truthyInt o then o.getD 0 else d := by
  cases o with
  | none => simp [orInt, truthyInt]
  | some v => by_cases h : v = 0 <;> simp [orInt, truthyInt, h]

theorem orInt_zero (o : Option Int) : orInt o 0 = o.getD 0 := by
  cases o with
  | none => simp [orInt]
  | some v => by_cases h : v = 0 <;> simp [orInt, h]

theorem entryLabel_eq_rule (e : ClipboardEntry) (hname : truthyStr e.name = true) :
    entryLabel e = "📋 " ++ labelRule e := by
  have hn : orStr e.name "Tree" = e.name.getD "" := by rw [orStr_eq]; simp [hname]
  have hn' : orStr e.name "Area" = e.name.getD "" := by rw [orStr_eq]; simp [hname]
  have l1 : "📋 Paste \"" = "📋 " ++ "Paste \"" := by decide
  have l2 : "\" (+" = "\"" ++ " (+" := by decide
  have l3 : "📋 Paste " = "📋 " ++ "Paste " := by decide
  unfold entryLabel labelRule
  by_cases ht : e.type = some "single_tree"
  · simp only [ht, if_true, hn, orInt_zero, treeLabel]
    rw [orStr_eq]
    by_cases hc : 0 < (e.copied_tree_data.bind fun c => c.total_cuttings).getD 0
    · simp only [gt_iff_lt, hc, if_true, l1, l2, String.append_assoc]
    · simp only [gt_iff_lt, hc, if_false, l1, String.append_assoc, String.append_empty]
  · simp only [ht, if_false, hn', orInt_zero, l3, String.append_assoc]
    rw [orInt_eq]

theorem markCrossDome_text (domeId : Int) (src : Option Int) (pasteBtn : PasteButton) :
    (markCrossDome domeId src pasteBtn).textContent =
      pasteBtn.textContent ++
        (if truthyInt src = true ∧ src ≠ some domeId then " [Cross-Dome]" else "") := by
  unfold markCrossDome
  by_cases h1 : truthyInt src = true <;> by_cases h2 : src = some domeId <;>
    simp [h1, h2]

theorem markCrossDome_class (domeId : Int) (src : Option Int) (pasteBtn : PasteButton) :
    (markCrossDome domeId src pasteBtn).crossDome =
      decide (truthyInt src = true ∧ src ≠ some domeId) := by
  unfold markCrossDome
  by_cases h1 : truthyInt src = true <;> by_cases h2 : src = some domeId <;>
    simp [h1, h2]

theorem append_paren_ne (x pre : String) : x ++ ")" ≠ pre ++ " [Cross-Dome]" := by
  intro h
  have h1 := congrArg (fun t => t.data.getLast?) h
  simp at h1

theorem append_quote_ne (x pre : String) : x ++ "\"" ≠ pre ++ " [Cross-Dome]" := by
  intro h
  have h1 := congrArg (fun t => t.data.getLast?) h
  simp at h1

theorem treeLabel_no_suffix (treeName : String) (n : Int) (pre : String) :
    treeLabel treeName n ≠ pre ++ " [Cross-Dome]" := by
  unfold treeLabel
  split
  · exact append_paren_ne _ _
  · exact append_quote_ne _ _

theorem entryLabel_no_suffix (e : ClipboardEntry) (pre : String) :
    entryLabel e ≠ pre ++ " [Cross-Dome]" := by
  unfold entryLabel
  split
  · exact treeLabel_no_suffix _ _ _
  · have : (" trees)" : String) = " trees" ++ ")" := by decide
    rw [this, ← String.append_assoc]
    exact append_paren_ne _ _

theorem updatePasteButtonDisplayFixed_shown (domeId : Int) (s : PageState)
    (pasteBtn : PasteButton) (e : ClipboardEntry) (hshown : ShownEntry s e) :
    ∃ base, (∀ pre, base ≠ pre ++ " [Cross-Dome]") ∧
      updatePasteButtonDisplayFixed domeId s (some pasteBtn) =
        some (markCrossDome domeId e.source_dome_id
          { pasteBtn with display := "block", textContent := base }) := by
  rcases hshown with ⟨hd, hn⟩ | ⟨hd, ha, hn⟩ | ⟨hd, ha, hc, hn⟩
  · refine ⟨entryLabel e, entryLabel_no_suffix e, ?_⟩
    simp [updatePasteButtonDisplayFixed, hd, Option.filter, hn, showEntry]
  · refine ⟨entryLabel e, entryLabel_no_suffix e, ?_⟩
    simp only [updatePasteButtonDisplayFixed, hd]
    simp [ha, Option.filter, hn, showEntry]
  · refine ⟨treeLabel ((e.tree.bind fun t => t.name).getD "") (orInt e.total_cuttings 0),
      treeLabel_no_suffix _ _, ?_⟩
    simp only [updatePasteButtonDisplayFixed, hd, ha]
    simp [hc, Option.filter, hn, showCopiedTree]

/-- C17 (the code departs from the claim): with the nameless area entry `namelessEntry` in
both mirrors, `updatePasteButtonDisplay` of `complete_clipboard_fix.js` shows the button
with the label `Paste Area (0 trees)`, while `updatePasteButtonDisplayFixed`, the strict
version, hides it and resets the label. -/
theorem updatePasteButtonDisplay_shows_nameless_entry :
    namelessEntry.name = none ∧
    updatePasteButtonDisplay 1 (emptyPage.assignBoth (some namelessEntry))
      (some hiddenButton) =
        some { display := "block", textContent := "📋 Paste Area (0 trees)",
               crossDome := false } ∧
    updatePasteButtonDisplayFixed 1 (emptyPage.assignBoth (some namelessEntry))
      (some hiddenButton) = some hiddenButton := by
  refine ⟨rfl, ?_, ?_⟩ <;> decide

/-- C18: for a named entry in `window.dragClipboard`, `updatePasteButtonDisplayFixed`
shows the button with the icon prefix, then the label of the rule (`Paste "<treeName>"`
with ` (+N)` exactly when `N > 0` for a single tree, `Paste <name> (<treeCount> trees)`
otherwise), then the cross-dome suffix, if any. -/
theorem updatePasteButtonDisplayFixed_label_rule (domeId : Int) (s : PageState)
    (pasteBtn : PasteButton) (e : ClipboardEntry) (hdrag : s._dragClipboard = some e)
    (hname : truthyStr e.name = true) :
    ∃ newBtn, updatePasteButtonDisplayFixed domeId s (some pasteBtn) = some newBtn ∧
      newBtn.display = "block" ∧
      newBtn.textContent = "📋 " ++ labelRule e ++
        (if truthyInt e.source_dome_id = true ∧ e.source_dome_id ≠ some domeId then
          " [Cross-Dome]" else "") := by
  refine ⟨showEntry domeId e pasteBtn, ?_, ?_, ?_⟩
  · simp [updatePasteButtonDisplayFixed, hdrag, Option.filter, hname]
  · unfold showEntry markCrossDome
    split <;> rfl
  · unfold showEntry
    rw [markCrossDome_text, entryLabel_eq_rule e hname]

/-- Witness of C18: the single-tree entry with two cuttings gets the label
`Paste "M1" (+2)`, and the scenario area entry `Paste A (1 trees)` with the cross-dome
suffix. -/
theorem updatePasteButtonDisplayFixed_label_rule_witness :
    labelRule singleTreeEntry = "Paste \"M1\" (+2)" ∧
    labelRule crossDomeEntry = "Paste A (1 trees)" ∧
    ∃ newBtn, updatePasteButtonDisplayFixed 1 (emptyPage.assignBoth (some singleTreeEntry))
        (some hiddenButton) = some newBtn ∧
      newBtn.display = "block" ∧
      newBtn.textContent = "📋 " ++ labelRule singleTreeEntry ++
        (if truthyInt singleTreeEntry.source_dome_id = true ∧
            singleTreeEntry.source_dome_id ≠ some 1 then " [Cross-Dome]" else "") :=
  ⟨by decide, by decide,
    updatePasteButtonDisplayFixed_label_rule 1 (emptyPage.assignBoth (some singleTreeEntry))
      hiddenButton singleTreeEntry rfl (by decide)⟩

/-- C19, as stated, fails: in dome 1 the named entry `zeroDomeEntry`, whose
`source_dome_id` is set to 0 and so differs from the active `domeId`, is shown without the
suffix and without the class: the code tests `source_dome_id` for truthiness. -/
theorem updatePasteButtonDisplayFixed_cross_dome_set_fails :
    ¬ (∀ (domeId : Int) (s : PageState) (pasteBtn : PasteButton) (e : ClipboardEntry),
      ShownEntry s e →
      ∃ newBtn, updatePasteButtonDisplayFixed domeId s (some pasteBtn) = some newBtn ∧
        (e.source_dome_id ≠ none ∧ e.source_dome_id ≠ some domeId →
          (∃ pre, newBtn.textContent = pre ++ " [Cross-Dome]") ∧ newBtn.crossDome = true) ∧
        (¬ (e.source_dome_id ≠ none ∧ e.source_dome_id ≠ some domeId) →
          (¬ ∃ pre, newBtn.textContent = pre ++ " [Cross-Dome]") ∧
            newBtn.crossDome = false)) := by
  intro h
  obtain ⟨newBtn, h1, h2, -⟩ := h 1 (emptyPage.assignBoth (some zeroDomeEntry)) hiddenButton
    zeroDomeEntry (Or.inl ⟨rfl, by decide⟩)
  have hx : updatePasteButtonDisplayFixed 1 (emptyPage.assignBoth (some zeroDomeEntry))
      (some hiddenButton) =
        some { display := "block", textContent := "📋 Paste Z (3 trees)",
               crossDome := false } := by decide
  rw [hx] at h1
  cases h1
  have h3 := (h2 ⟨by decide, by decide⟩).2
  simp at h3

/-- C19, amended: for every named entry that `updatePasteButtonDisplayFixed` shows, from
any of the three in-memory sources, the label ends with ` [Cross-Dome]` and the button
carries the class `paste-btn-cross-dome` if and only if the entry's `source_dome_id` is
present, non-zero and different from the active `domeId`; otherwise the label does not end
with the suffix and the class is removed. -/
theorem updatePasteButtonDisplayFixed_cross_dome (domeId : Int) (s : PageState)
    (pasteBtn : PasteButton) (e : ClipboardEntry) (hshown : ShownEntry s e) :
    ∃ newBtn, updatePasteButtonDisplayFixed domeId s (some pasteBtn) = some newBtn ∧
      (truthyInt e.source_dome_id = true ∧ e.source_dome_id ≠ some domeId →
        (∃ pre, newBtn.textContent = pre ++ " [Cross-Dome]") ∧ newBtn.crossDome = true) ∧
      (¬ (truthyInt e.source_dome_id = true ∧ e.source_dome_id ≠ some domeId) →
        (¬ ∃ pre, newBtn.textContent = pre ++ " [Cross-Dome]") ∧
          newBtn.crossDome = false) := by
  obtain ⟨base, hbase, hupd⟩ := updatePasteButtonDisplayFixed_shown domeId s pasteBtn e hshown
  refine ⟨_, hupd, ?_, ?_⟩
  · intro h
    rw [markCrossDome_text, markCrossDome_class, if_pos h]
    exact ⟨⟨base, rfl⟩, decide_eq_true h⟩
  · intro h
    rw [markCrossDome_text, markCrossDome_class, if_neg h]
    refine ⟨?_, decide_eq_false h⟩
    rintro ⟨pre, hpre⟩
    rw [String.append_empty] at hpre
    exact hbase pre hpre

/-- Witness of the amended C19: in dome 1 the entry `crossDomeEntry`, copied from dome 2, is shown
with the suffix and the class; the single-tree entry of dome 1 is shown without. -/
theorem updatePasteButtonDisplayFixed_cross_dome_witness :
    (∃ newBtn, updatePasteButtonDisplayFixed 1 (emptyPage.assignBoth (some crossDomeEntry))
        (some hiddenButton) = some newBtn ∧
      (∃ pre, newBtn.textContent = pre ++ " [Cross-Dome]") ∧ newBtn.crossDome = true) ∧
    (∃ newBtn, updatePasteButtonDisplayFixed 1 (emptyPage.assignBoth (some singleTreeEntry))
        (some hiddenButton) = some newBtn ∧
      (¬ ∃ pre, newBtn.textContent = pre ++ " [Cross-Dome]") ∧ newBtn.crossDome = false) := by
  constructor
  · obtain ⟨newBtn, h1, h2, -⟩ := updatePasteButtonDisplayFixed_cross_dome 1
      (emptyPage.assignBoth (some crossDomeEntry)) hiddenButton crossDomeEntry
      (Or.inl ⟨rfl, by decide⟩)
    exact ⟨newBtn, h1, h2 (by decide)⟩
  · obtain ⟨newBtn, h1, -, h3⟩ := updatePasteButtonDisplayFixed_cross_dome 1
      (emptyPage.assignBoth (some singleTreeEntry)) hiddenButton singleTreeEntry
      (Or.inl ⟨rfl, by decide⟩)
    exact ⟨newBtn, h1, h3 (by decide)⟩

/-! ## Claims on `enhancedPasteButtonDisplay` -/

theorem showEntry_const (domeId : Int) (e : ClipboardEntry) (b b' : PasteButton) :
    showEntry domeId e b = showEntry domeId e b' := by
  unfold showEntry markCrossDome
  split <;> rfl

theorem hidePasteButton_idem (b : PasteButton) :
    hidePasteButton (hidePasteButton b) = hidePasteButton b := rfl

theorem findClipboardData_idem (domeId : Int) (s : PageState) :
    findClipboardData domeId (findClipboardData domeId s).2 = findClipboardData domeId s := by
  have same : ∀ r : Option ClipboardEntry, findClipboardData domeId s = (r, s) →
      findClipboardData domeId (findClipboardData domeId s).2 = findClipboardData domeId s := by
    intro r hr
    rw [hr]
    exact hr
  cases hd : s._dragClipboard.filter fun d => truthyStr d.name with
  | some d => exact same (some d) (by simp [findClipboardData, hd])
  | none =>
    cases ha : s._clipboardArea.filter fun a => truthyStr a.name with
    | some a => exact same (some a) (by simp [findClipboardData, hd, ha])
    | none =>
      cases hc : s.copiedTreeData.filter fun c => truthyStr (c.tree.bind fun t => t.name) with
      | some c => exact same (some c) (by simp [findClipboardData, hd, ha, hc])
      | none =>
        have hfind : findClipboardData domeId s =
            (match (match (s.localStorage (UNIFIED_KEY domeId)).filter fun t => t.truthy with
                | some stored => some stored
                | none => s.localStorage (BACKUP_KEY domeId)) with
              | none => (none, s)
              | some stored =>
                if stored.truthy then
                  match stored with
                  | .unparseable _ => (none, s)
                  | .json .null => (none, s)
                  | .json (.scalar _) => (none, s)
                  | .json (.object data) =>
                    if truthyStr data.name && decide (data.source_dome_id = some domeId) then
                      (some data, s.assignBoth (some data))
                    else (none, s)
                else (none, s)) := by
          simp [findClipboardData, hd, ha, hc]
        generalize (match (s.localStorage (UNIFIED_KEY domeId)).filter fun t => t.truthy with
                | some stored => some stored
                | none => s.localStorage (BACKUP_KEY domeId)) = st at hfind
        cases st with
        | none => exact same none hfind
        | some stored =>
          cases stored with
          | unparseable t =>
            refine same none ?_
            rw [hfind]
            simp
          | json v =>
            cases v with
            | null => exact same none (by rw [hfind]; simp)
            | scalar b => exact same none (by rw [hfind]; simp)
            | object data =>
              by_cases hok : (truthyStr data.name &&
                  decide (data.source_dome_id = some domeId)) = true
              · have hres : findClipboardData domeId s =
                    (some data, s.assignBoth (some data)) := by
                  rw [hfind]
                  simp [StoredText.truthy, hok]
                rw [hres]
                have hname : truthyStr data.name = true := by
                  simp only [Bool.and_eq_true] at hok
                  exact hok.1
                simp [findClipboardData, PageState.assignBoth, Option.filter, hname]
              · exact same none (by rw [hfind]; simp [StoredText.truthy, hok])

theorem enhancedPasteButtonDisplay_idempotent_all (domeId : Int) (s : PageState)
    (pasteBtn : Option PasteButton) :
    enhancedPasteButtonDisplay domeId (enhancedPasteButtonDisplay domeId s pasteBtn).1
        (enhancedPasteButtonDisplay domeId s pasteBtn).2 =
      enhancedPasteButtonDisplay domeId s pasteBtn := by
  cases pasteBtn with
  | none => rfl
  | some b =>
    cases hf : (findClipboardData domeId s).1.filter fun c => truthyStr c.name with
    | some c =>
      have h1 : enhancedPasteButtonDisplay domeId s (some b) =
          ((findClipboardData domeId s).2, some (showEntry domeId c b)) := by
        simp [enhancedPasteButtonDisplay, hf]
      rw [h1]
      simp only [enhancedPasteButtonDisplay, findClipboardData_idem, hf]
      rw [showEntry_const domeId c (showEntry domeId c b) b]
    | none =>
      have h1 : enhancedPasteButtonDisplay domeId s (some b) =
          ((findClipboardData domeId s).2, some (hidePasteButton b)) := by
        simp [enhancedPasteButtonDisplay, hf]
      rw [h1]
      simp only [enhancedPasteButtonDisplay, findClipboardData_idem, hf, hidePasteButton_idem]

/-- C20: from every state of the mirrors and of `localStorage`, and whatever the paste
button, calling `enhancedPasteButtonDisplay` twice in succession leaves the button with
the same visibility, label and cross-dome class as calling it once, and the same page
state (the first call may have restored the mirrors from storage). -/
theorem enhancedPasteButtonDisplay_idempotent (domeId : Int) (s : PageState)
    (pasteBtn : Option PasteButton) :
    (enhancedPasteButtonDisplay domeId (enhancedPasteButtonDisplay domeId s pasteBtn).1
        (enhancedPasteButtonDisplay domeId s pasteBtn).2).2 =
      (enhancedPasteButtonDisplay domeId s pasteBtn).2 ∧
    (enhancedPasteButtonDisplay domeId (enhancedPasteButtonDisplay domeId s pasteBtn).1
        (enhancedPasteButtonDisplay domeId s pasteBtn).2).1 =
      (enhancedPasteButtonDisplay domeId s pasteBtn).1 := by
  rw [enhancedPasteButtonDisplay_idempotent_all]
  exact ⟨rfl, rfl⟩

/-! ## Claims on the backend clipboard -/

theorem saveToBackend_fails (bc : BackendClipboard) (w : Browser) (domeId : Int)
    (farmId : Option Int) (now : Nat) (response : SaveResponse) (e : ClipboardEntry)
    (x : Option Int) (hfail : response.fails) :
    (bc.saveToBackend w domeId farmId now response e x).1.success = false ∧
    (bc.saveToBackend w domeId farmId now response e x).2.2.page = w.page ∧
    (bc.saveToBackend w domeId farmId now response e x).2.2.statuses = w.statuses ∧
    (bc.saveToBackend w domeId farmId now response e x).2.2.showStatusDefined =
      w.showStatusDefined := by
  unfold BackendClipboard.saveToBackend
  cases hen : bc.isEnabled with
  | false => simp [SaveOutcome.success]
  | true =>
    cases response with
    | threw m => simp [SaveOutcome.success]
    | answer success id cd err =>
      have hs : success = false := hfail
      subst hs
      simp [SaveOutcome.success]

/-- C14, as stated, fails: when `localStorage.setItem` throws (the `catch` of
`enhancedCopy` only logs it) and the remote save answers `success: false`, the key
`globalDragClipboard` does not hold the entry. -/
theorem enhancedCopy_storage_fails :
    ¬ (∀ (bc : BackendClipboard) (w : Browser) (domeId : Int) (farmId : Option Int)
        (now : Nat) (throwsOn : String → Bool) (response : SaveResponse)
        (e : ClipboardEntry), response.fails →
      (bc.enhancedCopy w domeId farmId now throwsOn response e).1.success = true ∧
      (bc.enhancedCopy w domeId farmId now throwsOn response e).1.frontend = true ∧
      (bc.enhancedCopy w domeId farmId now throwsOn response e).1.backend = false ∧
      (bc.enhancedCopy w domeId farmId now throwsOn response e).2.2.page._dragClipboard =
        some e ∧
      (bc.enhancedCopy w domeId farmId now throwsOn response e).2.2.page._clipboardArea =
        some e ∧
      (bc.enhancedCopy w domeId farmId now throwsOn response e).2.2.page.localStorage
        "globalDragClipboard" = some (.json (.object e)) ∧
      (copyAreaToBackendClipboard bc w domeId farmId now throwsOn response e).1 = true ∧
      ∃ reported,
        (copyAreaToBackendClipboard bc w domeId farmId now throwsOn response e).2.2.statuses =
          w.statuses ++ reported ∧
        (∀ st ∈ reported, st.level = "warning") ∧
        (w.showStatusDefined = true → reported.length = 1)) := by
  intro h
  have h0 := (h {} emptyBrowser 1 none 0 (fun _ => true)
    (.answer false none none (some "server error")) crossDomeEntry rfl).2.2.2.2.2.1
  revert h0
  simp [BackendClipboard.enhancedCopy, BackendClipboard.saveToBackend, backupToStorage,
    SaveOutcome.success, PageState.assignBoth, emptyBrowser, emptyPage]

theorem enhancedCopy_of_fails (bc : BackendClipboard) (w : Browser) (domeId : Int)
    (farmId : Option Int) (now : Nat) (throwsOn : String → Bool) (response : SaveResponse)
    (e : ClipboardEntry) (hfail : response.fails) :
    (bc.enhancedCopy w domeId farmId now throwsOn response e).1.success = true ∧
    (bc.enhancedCopy w domeId farmId now throwsOn response e).1.frontend = true ∧
    (bc.enhancedCopy w domeId farmId now throwsOn response e).1.backend = false ∧
    (bc.enhancedCopy w domeId farmId now throwsOn response e).2.2.page =
      { w.page.assignBoth (some e) with
        localStorage := backupToStorage domeId throwsOn e w.page.localStorage } ∧
    (bc.enhancedCopy w domeId farmId now throwsOn response e).2.2.statuses = w.statuses ∧
    (bc.enhancedCopy w domeId farmId now throwsOn response e).2.2.showStatusDefined =
      w.showStatusDefined := by
  unfold BackendClipboard.enhancedCopy
  simp only
  generalize hw0 : ({ w with page := { w.page.assignBoth (some e) with
    localStorage := backupToStorage domeId throwsOn e
      (w.page.assignBoth (some e)).localStorage } } : Browser) = w0
  obtain ⟨hs, hpage, hst, hdef⟩ :=
    saveToBackend_fails bc w0 domeId farmId now response e none hfail
  simp only [hs, Bool.false_eq_true, if_false]
  refine ⟨trivial, trivial, trivial, ?_, ?_, ?_⟩
  · rw [hpage, ← hw0]
    rfl
  · rw [hst, ← hw0]
  · rw [hdef, ← hw0]

/-- C14, amended: when the remote save answers `success: false` or the request throws,
`enhancedCopy` returns `success = true`, `frontend = true`, `backend = false`, and both
mirrors equal the entry; `localStorage` holds the entry under `globalDragClipboard`
provided `setItem` does not throw for that key (when it throws, `localStorage` is left as
it was); `copyAreaToBackendClipboard` returns true, and every status it reports has level
`'warning'`, exactly one being reported when `showStatus` is defined. -/
theorem enhancedCopy_remote_failure (bc : BackendClipboard) (w : Browser) (domeId : Int)
    (farmId : Option Int) (now : Nat) (throwsOn : String → Bool) (response : SaveResponse)
    (e : ClipboardEntry) (hfail : response.fails) :
    (bc.enhancedCopy w domeId farmId now throwsOn response e).1.success = true ∧
    (bc.enhancedCopy w domeId farmId now throwsOn response e).1.frontend = true ∧
    (bc.enhancedCopy w domeId farmId now throwsOn response e).1.backend = false ∧
    (bc.enhancedCopy w domeId farmId now throwsOn response e).2.2.page._dragClipboard =
      some e ∧
    (bc.enhancedCopy w domeId farmId now throwsOn response e).2.2.page._clipboardArea =
      some e ∧
    (throwsOn "globalDragClipboard" = false →
      (bc.enhancedCopy w domeId farmId now throwsOn response e).2.2.page.localStorage
        "globalDragClipboard" = some (.json (.object e))) ∧
    (throwsOn "globalDragClipboard" = true →
      (bc.enhancedCopy w domeId farmId now throwsOn response e).2.2.page.localStorage =
        w.page.localStorage) ∧
    (copyAreaToBackendClipboard bc w domeId farmId now throwsOn response e).1 = true ∧
    ∃ reported,
      (copyAreaToBackendClipboard bc w domeId farmId now throwsOn response e).2.2.statuses =
        w.statuses ++ reported ∧
      (∀ st ∈ reported, st.level = "warning") ∧
      (w.showStatusDefined = true → reported.length = 1) := by
  obtain ⟨h1, h2, h3, h4, h5, h6⟩ :=
    enhancedCopy_of_fails bc w domeId farmId now throwsOn response e hfail
  refine ⟨h1, h2, h3, ?_, ?_, ?_, ?_, ?_, ?_⟩
  · rw [h4]
    rfl
  · rw [h4]
    rfl
  · intro hthrow
    rw [h4]
    by_cases hd : throwsOn ("domeClipboard_" ++ toString domeId) = true
    · simp [backupToStorage, hthrow, hd, Storage.setItem, PageState.assignBoth]
    · by_cases hk : "globalDragClipboard" = "domeClipboard_" ++ toString domeId
      · simp [backupToStorage, hthrow, hd, Storage.setItem, PageState.assignBoth, ← hk]
      · simp [backupToStorage, hthrow, hd, Storage.setItem, PageState.assignBoth, hk]
  · intro hthrow
    rw [h4]
    simp [backupToStorage, hthrow, PageState.assignBoth]
  · unfold copyAreaToBackendClipboard
    simp only [h1, if_true]
  · unfold copyAreaToBackendClipboard
    simp only [h1, h3, if_true, Bool.false_eq_true, if_false]
    unfold Browser.showStatus
    rw [h5, h6]
    cases hshow : w.showStatusDefined with
    | true =>
      exact ⟨[{ message := "Area \"" ++ e.name.getD "undefined" ++
          "\" copied to clipboard (frontend only)", level := "warning" }],
        by simp [h5], by simp, by simp⟩
    | false => exact ⟨[], by simp [h5], by simp, by simp⟩

theorem loadFromBackend_page (bc : BackendClipboard) (w : Browser) (response : LoadResponse) :
    (bc.loadFromBackend w response).2.2.page = w.page := by
  unfold BackendClipboard.loadFromBackend
  cases bc.isEnabled <;> simp
  cases response with
  | threw => rfl
  | answer success has cd =>
    cases success <;> cases has <;> cases cd <;> rfl

theorem loadFromBackend_holds (bc : BackendClipboard) (w : Browser) (response : LoadResponse)
    (henabled : bc.isEnabled = true) (content : ClipboardEntry)
    (h : response.holds content) : (bc.loadFromBackend w response).1 = some content := by
  obtain ⟨cd, rfl, hcd⟩ := h
  simp [BackendClipboard.loadFromBackend, henabled, hcd]

theorem loadFromBackend_none (bc : BackendClipboard) (w : Browser) (response : LoadResponse)
    (h : ∀ content, ¬ response.holds content) : (bc.loadFromBackend w response).1 = none := by
  unfold BackendClipboard.loadFromBackend
  cases bc.isEnabled <;> simp
  cases response with
  | threw => rfl
  | answer success has cd =>
    cases success <;> cases has <;> cases cd <;> try rfl
    rename_i val
    cases hc : val.clipboard_content with
    | none => simp [hc]
    | some content => exact absurd ⟨val, rfl, hc⟩ (h content)

theorem enhancedLoad_frontend (bc : BackendClipboard) (w : Browser) (response : LoadResponse)
    (h : (bc.loadFromBackend w response).1 = none) :
    (bc.enhancedLoad w response).1 =
      (if (match w.page._dragClipboard with
            | some dragClipboard => JsonValue.object dragClipboard
            | none =>
              match w.page._clipboardArea with
              | some clipboardArea => JsonValue.object clipboardArea
              | none =>
                match w.page.localStorage "globalDragClipboard" with
                | none => JsonValue.null
                | some globalClipboard =>
                  if globalClipboard.truthy then
                    match globalClipboard with
                    | .unparseable _ => JsonValue.null
                    | .json v => v
                  else JsonValue.null).truthy
        then { success := true,
               data := (match w.page._dragClipboard with
                | some dragClipboard => JsonValue.object dragClipboard
                | none =>
                  match w.page._clipboardArea with
                  | some clipboardArea => JsonValue.object clipboardArea
                  | none =>
                    match w.page.localStorage "globalDragClipboard" with
                    | none => JsonValue.null
                    | some globalClipboard =>
                      if globalClipboard.truthy then
                        match globalClipboard with
                        | .unparseable _ => JsonValue.null
                        | .json v => v
                      else JsonValue.null),
               source := "frontend" }
        else { success := false, data := .null, source := "none" }) := by
  unfold BackendClipboard.enhancedLoad
  simp only [h, loadFromBackend_page]
  split <;> rfl

/-- C15: for an enabled `BackendClipboard` (the constructor sets `isEnabled` and nothing
resets it), whenever the backend holds a clipboard `enhancedLoad` returns it with source
`'backend'` and overwrites both mirrors with it; otherwise it returns, with source
`'frontend'`, `window.dragClipboard`, else `window.clipboardArea`, else the truthy parsed
value of `globalDragClipboard`; and it returns `success: false`, `data: null`, source
`'none'` if and only if the backend holds nothing, both mirrors are empty and
`globalDragClipboard` is empty or unreadable. -/
theorem enhancedLoad_priority (bc : BackendClipboard) (w : Browser) (response : LoadResponse)
    (henabled : bc.isEnabled = true) :
    (∀ content, response.holds content →
      (bc.enhancedLoad w response).1 =
        { success := true, data := .object content, source := "backend" } ∧
      (bc.enhancedLoad w response).2.2.page._dragClipboard = some content ∧
      (bc.enhancedLoad w response).2.2.page._clipboardArea = some content) ∧
    ((∀ content, ¬ response.holds content) →
      (∀ d, w.page._dragClipboard = some d →
        (bc.enhancedLoad w response).1 =
          { success := true, data := .object d, source := "frontend" }) ∧
      (∀ a, w.page._dragClipboard = none → w.page._clipboardArea = some a →
        (bc.enhancedLoad w response).1 =
          { success := true, data := .object a, source := "frontend" }) ∧
      (∀ v, w.page._dragClipboard = none → w.page._clipboardArea = none →
        w.page.localStorage "globalDragClipboard" = some (.json v) → v.truthy = true →
        (bc.enhancedLoad w response).1 =
          { success := true, data := v, source := "frontend" })) ∧
    ((bc.enhancedLoad w response).1 = { success := false, data := .null, source := "none" } ↔
      (∀ content, ¬ response.holds content) ∧ w.page._dragClipboard = none ∧
        w.page._clipboardArea = none ∧ globalEmpty w.page) := by
  refine ⟨?_, ?_, ?_⟩
  · intro content hc
    have hl := loadFromBackend_holds bc w response henabled content hc
    unfold BackendClipboard.enhancedLoad
    simp only [hl]
    exact ⟨trivial, rfl, rfl⟩
  · intro hno
    have hl := loadFromBackend_none bc w response hno
    have hf := enhancedLoad_frontend bc w response hl
    refine ⟨?_, ?_, ?_⟩
    · intro d hd
      rw [hf]
      simp [hd, JsonValue.truthy]
    · intro a hd ha
      rw [hf]
      simp [hd, ha, JsonValue.truthy]
    · intro v hd ha hg hv
      rw [hf]
      simp [hd, ha, hg, StoredText.truthy, hv]
  · constructor
    · intro hres
      by_cases hex : ∃ content, response.holds content
      · obtain ⟨content, hc⟩ := hex
        have hl := loadFromBackend_holds bc w response henabled content hc
        unfold BackendClipboard.enhancedLoad at hres
        simp [hl] at hres
      · have hno : ∀ content, ¬ response.holds content := fun c hc => hex ⟨c, hc⟩
        have hl := loadFromBackend_none bc w response hno
        rw [enhancedLoad_frontend bc w response hl] at hres
        refine ⟨hno, ?_⟩
        cases hd : w.page._dragClipboard with
        | some d => simp [hd, JsonValue.truthy] at hres
        | none =>
          cases ha : w.page._clipboardArea with
          | some a => simp [hd, ha, JsonValue.truthy] at hres
          | none =>
            refine ⟨rfl, rfl, ?_⟩
            unfold globalEmpty
            cases hg : w.page.localStorage "globalDragClipboard" with
            | none => trivial
            | some st =>
              cases st with
              | unparseable t => trivial
              | json v =>
                cases hv : v.truthy with
                | false => simpa using hv
                | true => simp [hd, ha, hg, StoredText.truthy, hv] at hres
    · rintro ⟨hno, hd, ha, hg⟩
      have hl := loadFromBackend_none bc w response hno
      rw [enhancedLoad_frontend bc w response hl]
      unfold globalEmpty at hg
      cases hst : w.page.localStorage "globalDragClipboard" with
      | none => simp [hd, ha, hst, JsonValue.truthy]
      | some st =>
        cases st with
        | unparseable t =>
          by_cases ht : t = "" <;> simp [hd, ha, hst, StoredText.truthy, JsonValue.truthy, ht]
        | json v =>
          rw [hst] at hg
          simp [hd, ha, hst, StoredText.truthy, hg]

/-- C16: on page start (the instance is enabled), when the backend answers that it has no
clipboard and `localStorage` has no `globalDragClipboard` entry, `checkForClipboard` leaves
the paste button hidden (class removed), the mirrors and the storage untouched, sends
exactly one request, the load, and reports no status. -/
theorem checkForClipboard_empty_stores (cg : CrossGridClipboard) (w : Browser)
    (domeId : Int) (farmId : Option Int) (throwsOn : String → Bool)
    (success has_clipboard : Bool) (clipboard_data : Option BackendRecord)
    (saveResponse : SaveResponse) (henabled : cg.isEnabled = true)
    (hno : (success && has_clipboard) = false)
    (hlocal : w.page.localStorage "globalDragClipboard" = none) :
    (cg.checkForClipboard w domeId farmId throwsOn
        (.answer success has_clipboard clipboard_data) saveResponse).pasteBtn =
      w.pasteBtn.map (fun b => { b with display := "none", crossDome := false }) ∧
    (cg.checkForClipboard w domeId farmId throwsOn
        (.answer success has_clipboard clipboard_data) saveResponse).page = w.page ∧
    (cg.checkForClipboard w domeId farmId throwsOn
        (.answer success has_clipboard clipboard_data) saveResponse).requests =
      w.requests ++ [.load] ∧
    (cg.checkForClipboard w domeId farmId throwsOn
        (.answer success has_clipboard clipboard_data) saveResponse).statuses =
      w.statuses := by
  have hload : cg.loadFromBackend w throwsOn (.answer success has_clipboard clipboard_data) =
      (none, CrossGridClipboard.updatePasteButton
        { w with requests := w.requests ++ [.load] } false none) := by
    simp [CrossGridClipboard.loadFromBackend, henabled, hno]
  have hpage : (CrossGridClipboard.updatePasteButton
      { w with requests := w.requests ++ [.load] } false none).page = w.page := by
    unfold CrossGridClipboard.updatePasteButton
    cases w.pasteBtn <;> rfl
  unfold CrossGridClipboard.checkForClipboard
  simp only [hload, hpage, hlocal]
  unfold CrossGridClipboard.updatePasteButton
  cases hb : w.pasteBtn with
  | none => simp [hb]
  | some b => simp [hb]

/-- Witness of the amended C14: a failed remote save of `crossDomeEntry` with a working
`localStorage`. -/
theorem enhancedCopy_remote_failure_witness :
    (({} : BackendClipboard).enhancedCopy emptyBrowser 1 none 0 (fun _ => false)
        (.answer false none none (some "server error")) crossDomeEntry).1.backend = false ∧
    (({} : BackendClipboard).enhancedCopy emptyBrowser 1 none 0 (fun _ => false)
        (.answer false none none (some "server error")) crossDomeEntry).2.2.page.localStorage
      "globalDragClipboard" = some (.json (.object crossDomeEntry)) ∧
    (copyAreaToBackendClipboard {} emptyBrowser 1 none 0 (fun _ => false)
        (.answer false none none (some "server error")) crossDomeEntry).1 = true :=
  ⟨(enhancedCopy_remote_failure {} emptyBrowser 1 none 0 (fun _ => false)
      (.answer false none none (some "server error")) crossDomeEntry rfl).2.2.1,
   (enhancedCopy_remote_failure {} emptyBrowser 1 none 0 (fun _ => false)
      (.answer false none none (some "server error")) crossDomeEntry rfl).2.2.2.2.2.1 rfl,
   (enhancedCopy_remote_failure {} emptyBrowser 1 none 0 (fun _ => false)
      (.answer false none none (some "server error")) crossDomeEntry rfl).2.2.2.2.2.2.2.1⟩

/-- Witness of C15: the backend content wins over a mirror holding another entry, and
with nothing anywhere the result has source `'none'`. -/
theorem enhancedLoad_priority_witness :
    (({} : BackendClipboard).enhancedLoad
        { emptyBrowser with page := emptyPage.assignBoth (some singleTreeEntry) }
        (.answer true true (some { clipboard_content := some crossDomeEntry }))).1 =
      { success := true, data := .object crossDomeEntry, source := "backend" } ∧
    (({} : BackendClipboard).enhancedLoad emptyBrowser (.answer true false none)).1 =
      { success := false, data := .null, source := "none" } :=
  ⟨((enhancedLoad_priority {} _ _ rfl).1 crossDomeEntry ⟨_, rfl, rfl⟩).1,
   (enhancedLoad_priority {} emptyBrowser (.answer true false none) rfl).2.2.mpr
     ⟨(fun content hc => by
        obtain ⟨cd, h, -⟩ := hc
        cases h),
      rfl, rfl, (by simp [globalEmpty, emptyBrowser, emptyPage])⟩⟩

/-- Witness of C16 on the empty page: one load request, button hidden. -/
theorem checkForClipboard_empty_stores_witness :
    (({} : CrossGridClipboard).checkForClipboard emptyBrowser 1 none (fun _ => false)
        (.answer true false none) (.threw "unused")).requests = [.load] ∧
    (({} : CrossGridClipboard).checkForClipboard emptyBrowser 1 none (fun _ => false)
        (.answer true false none) (.threw "unused")).pasteBtn = some hiddenButton :=
  ⟨(checkForClipboard_empty_stores {} emptyBrowser 1 none (fun _ => false) true false none
      (.threw "unused") rfl rfl rfl).2.2.1,
   (checkForClipboard_empty_stores {} emptyBrowser 1 none (fun _ => false) true false none
      (.threw "unused") rfl rfl rfl).1⟩

/-! ## Decimal rendering of dome ids -/

theorem digitChar_value (k : Nat) (hk : k < 10) : (Nat.digitChar k).toNat - 48 = k := by
  interval_cases k <;> rfl

theorem decimalValue_toDigitsCore (fuel n : Nat) (ds : List Char) (h : n < fuel) :
    decimalValue (Nat.toDigitsCore 10 fuel n ds) 0 = decimalValue ds n := by
  induction fuel generalizing n ds with
  | zero => omega
  | succ fuel ih =>
    unfold Nat.toDigitsCore
    simp only
    split
    · rename_i h0
      have hn : n % 10 = n := by omega
      have hd := digitChar_value (n % 10) (Nat.mod_lt _ (by norm_num))
      rw [hn] at hd
      simp [decimalValue, hn, hd]
    · rename_i h0
      rw [ih (n / 10) _ (by omega)]
      simp only [decimalValue, List.foldl_cons,
        digitChar_value (n % 10) (Nat.mod_lt _ (by norm_num))]
      congr 1
      omega

theorem decimalValue_repr (n : Nat) : decimalValue (Nat.repr n).data 0 = n := by
  unfold Nat.repr Nat.toDigits
  simp only [List.asString]
  rw [decimalValue_toDigitsCore (n + 1) n [] (by omega)]
  rfl

theorem nat_repr_injective (a b : Nat) (h : Nat.repr a = Nat.repr b) : a = b := by
  rw [← decimalValue_repr a, ← decimalValue_repr b, h]

theorem decimalValue_minus (s : String) :
    decimalValue ("-" ++ s).data 0 = decimalValue s.data 0 := by
  simp [decimalValue, String.data_append]

theorem int_toString_injective (a b : Int) (h : toString a = toString b) : a = b := by
  cases a with
  | ofNat m =>
    cases b with
    | ofNat k =>
      have : Nat.repr m = Nat.repr k := h
      rw [nat_repr_injective m k this]
    | negSucc k =>
      exfalso
      have h1 : Nat.repr m = "-" ++ Nat.repr (k + 1) := h
      have h2 := congrArg (fun t => decimalValue t.data 0) h1
      simp only [decimalValue_minus, decimalValue_repr] at h2
      subst h2
      have h3 := congrArg String.length h1
      rw [String.length_append] at h3
      have : ("-" : String).length = 1 := rfl
      omega
  | negSucc m =>
    cases b with
    | ofNat k =>
      exfalso
      have h1 : "-" ++ Nat.repr (m + 1) = Nat.repr k := h
      have h2 := congrArg (fun t => decimalValue t.data 0) h1
      simp only [decimalValue_minus, decimalValue_repr] at h2
      subst h2
      have h3 := congrArg String.length h1
      rw [String.length_append] at h3
      have : ("-" : String).length = 1 := rfl
      omega
    | negSucc k =>
      have h1 : "-" ++ Nat.repr (m + 1) = "-" ++ Nat.repr (k + 1) := h
      have h2 := congrArg (fun t => decimalValue t.data 0) h1
      simp only [decimalValue_minus, decimalValue_repr] at h2
      have : m = k := by omega
      rw [this]

theorem string_append_left_cancel (p x y : String) (h : p ++ x = p ++ y) : x = y := by
  have h1 := congrArg String.data h
  simp only [String.data_append] at h1
  have h2 := List.append_cancel_left h1
  exact String.ext h2

theorem UNIFIED_CLIPBOARD_KEY_injective (a b : Int)
    (h : UNIFIED_CLIPBOARD_KEY a = UNIFIED_CLIPBOARD_KEY b) : a = b :=
  int_toString_injective a b (string_append_left_cancel _ _ _ h)

/-! ## Claims on click-to-paste mode -/

/-- C21 (the code departs from the claim): with the scenario-A clipboard present, two calls
of `enableClickToPaste()` leave two `click` listeners registered, each call of `bind`
returning a new function, so one click on a valid cell starts `executePaste` twice; and
`disableClickToPaste()`, which passes the unbound method `this.handlePasteClick` to
`removeEventListener`, leaves both registered. -/
theorem enableClickToPaste_twice_two_listeners :
    (enableClickToPaste (enableClickToPaste clickStart)).listeners =
      [.boundHandlePasteClick 0, .boundHandlePasteClick 1] ∧
    pastesStartedByClick (enableClickToPaste (enableClickToPaste clickStart)) = 2 ∧
    (disableClickToPaste (enableClickToPaste (enableClickToPaste clickStart))).listeners =
      [.boundHandlePasteClick 0, .boundHandlePasteClick 1] := by
  refine ⟨?_, ?_, ?_⟩ <;> decide

/-- C23 (the code departs from the claim): pasting the scenario-A clipboard at (5,5) with
the first request answered ok and the second not ok ends with `createdCount = 1` and
`failedCount = 1`, and the only message shown after `Pasting trees...` is
`Successfully pasted 1 trees!` at level `success`: the number of failures is counted but
never reported. -/
theorem executePaste_partial_failure_message :
    (executePaste scenarioClipboard firstOkThenFail 5 5).createdCount = 1 ∧
    (executePaste scenarioClipboard firstOkThenFail 5 5).failedCount = 1 ∧
    (executePaste scenarioClipboard firstOkThenFail 5 5).statuses =
      [ { message := "Pasting trees...", level := "info" },
        { message := "Successfully pasted 1 trees!", level := "success" } ] := by
  refine ⟨?_, ?_, ?_⟩ <;> decide

/-! ## Claims on the property watchers -/

theorem assignAll_snoc (s : PageState) (as : List MirrorAssignment) (a : MirrorAssignment) :
    s.assignAll (as ++ [a]) = (s.assignAll as).assign a := by
  simp [PageState.assignAll]

/-- C28: after the watchers of `unified_clipboard_system.js` are installed, for every
sequence of assignments to `window.dragClipboard` and `window.clipboardArea`, with any
values, the two properties read the same value, and when the sequence is not empty that
value is the one assigned last. -/
theorem watchers_keep_in_sync (s : PageState) (as : List MirrorAssignment) :
    ((installWatchers s).assignAll as)._dragClipboard =
      ((installWatchers s).assignAll as)._clipboardArea ∧
    (∀ (bs : List MirrorAssignment) (a : MirrorAssignment), as = bs ++ [a] →
      ((installWatchers s).assignAll as)._dragClipboard = a.value ∧
      ((installWatchers s).assignAll as)._clipboardArea = a.value) := by
  have last : ∀ (bs : List MirrorAssignment) (a : MirrorAssignment),
      ((installWatchers s).assignAll (bs ++ [a]))._dragClipboard = a.value ∧
      ((installWatchers s).assignAll (bs ++ [a]))._clipboardArea = a.value := by
    intro bs a
    rw [assignAll_snoc]
    cases a <;> exact ⟨rfl, rfl⟩
  constructor
  · rcases List.eq_nil_or_concat as with h | ⟨bs, a, h⟩
    · subst h
      rfl
    · rw [h, List.concat_eq_append]
      rw [(last bs a).1, (last bs a).2]
  · intro bs a h
    subst h
    exact last bs a

/-- Witness of C28: assigning `crossDomeEntry` to `dragClipboard`, then `null` to
`clipboardArea`, then `singleTreeEntry` to `clipboardArea` leaves both properties reading
`singleTreeEntry`. -/
theorem watchers_keep_in_sync_witness :
    ((installWatchers emptyPage).assignAll
        [.dragClipboard (some crossDomeEntry), .clipboardArea none,
          .clipboardArea (some singleTreeEntry)])._dragClipboard = some singleTreeEntry ∧
    ((installWatchers emptyPage).assignAll
        [.dragClipboard (some crossDomeEntry), .clipboardArea none,
          .clipboardArea (some singleTreeEntry)])._clipboardArea = some singleTreeEntry :=
  (watchers_keep_in_sync emptyPage
    [.dragClipboard (some crossDomeEntry), .clipboardArea none,
      .clipboardArea (some singleTreeEntry)]).2
    [.dragClipboard (some crossDomeEntry), .clipboardArea none]
    (.clipboardArea (some singleTreeEntry)) rfl

/-! ## Claims on the counters of `executePaste` -/

theorem pasteStep_counts (offsetRow offsetCol : Int) (outcome : Nat → FetchOutcome)
    (st : PasteLoop) (t : Tree)
    (hc : st.createdCount =
      ((List.range st.requests.length).filter fun k => outcome k = .ok).length)
    (hf : st.failedCount =
      ((List.range st.requests.length).filter fun k => outcome k ≠ .ok).length) :
    (pasteStep offsetRow offsetCol outcome st t).createdCount =
      ((List.range (pasteStep offsetRow offsetCol outcome st t).requests.length).filter
        fun k => outcome k = .ok).length ∧
    (pasteStep offsetRow offsetCol outcome st t).failedCount =
      ((List.range (pasteStep offsetRow offsetCol outcome st t).requests.length).filter
        fun k => outcome k ≠ .ok).length := by
  unfold pasteStep
  by_cases h : t.isInOriginalArea = some true
  · simp only [h, bne_self_eq_false, Bool.false_eq_true, if_false]
    cases ho : outcome st.requests.length <;>
      simp [List.range_succ, List.filter_append, ho, hc, hf]
  · simp [h, hc, hf]

theorem pasteLoop_counts (offsetRow offsetCol : Int) (outcome : Nat → FetchOutcome)
    (trees : List Tree) (st : PasteLoop)
    (hc : st.createdCount =
      ((List.range st.requests.length).filter fun k => outcome k = .ok).length)
    (hf : st.failedCount =
      ((List.range st.requests.length).filter fun k => outcome k ≠ .ok).length) :
    (trees.foldl (pasteStep offsetRow offsetCol outcome) st).createdCount =
      ((List.range (trees.foldl (pasteStep offsetRow offsetCol outcome) st).requests.length).filter
        fun k => outcome k = .ok).length ∧
    (trees.foldl (pasteStep offsetRow offsetCol outcome) st).failedCount =
      ((List.range (trees.foldl (pasteStep offsetRow offsetCol outcome) st).requests.length).filter
        fun k => outcome k ≠ .ok).length := by
  induction trees generalizing st with
  | nil => exact ⟨hc, hf⟩
  | cons t ts ih =>
    rw [List.foldl_cons]
    obtain ⟨h1, h2⟩ := pasteStep_counts offsetRow offsetCol outcome st t hc hf
    exact ih _ h1 h2

theorem filter_split_length {α : Type} (p : α → Prop) [DecidablePred p] (l : List α) :
    (l.filter fun a => p a).length + (l.filter fun a => ¬ p a).length = l.length := by
  induction l with
  | nil => rfl
  | cons a as ih =>
    simp only [decide_not] at ih ⊢
    by_cases h : p a <;> simp [List.filter_cons, h] <;> omega

/-- C26: for every clipboard and every pattern of request outcomes, `executePaste` issues
exactly one request per tree whose `isInOriginalArea` is true, in clipboard order and at
the shifted cell, whatever the outcomes of the earlier requests; at the end
`createdCount + failedCount` is the number of such trees and `createdCount` is the number
of requests answered ok. -/
theorem executePaste_requests_independent (clipboard : Clipboard) (outcome : Nat → FetchOutcome)
    (targetRow targetCol : Int) :
    (executePaste clipboard outcome targetRow targetCol).requests.length =
      (clipboard.trees.filter fun t => t.isInOriginalArea == some true).length ∧
    (executePaste clipboard outcome targetRow targetCol).requests.map
        (fun q => (q.internal_row, q.internal_col)) =
      (clipboard.trees.filter fun t => t.isInOriginalArea == some true).map
        (fun t => (t.internal_row + (targetRow - clipboard.minRow),
          t.internal_col + (targetCol - clipboard.minCol))) ∧
    (executePaste clipboard outcome targetRow targetCol).createdCount +
        (executePaste clipboard outcome targetRow targetCol).failedCount =
      (clipboard.trees.filter fun t => t.isInOriginalArea == some true).length ∧
    (executePaste clipboard outcome targetRow targetCol).createdCount =
      ((List.range (clipboard.trees.filter fun t => t.isInOriginalArea == some true).length).filter
        fun k => outcome k = .ok).length := by
  have hreq : (executePaste clipboard outcome targetRow targetCol).requests =
      (clipboard.trees.filter fun t => t.isInOriginalArea == some true).map fun t =>
        createRequest t (t.internal_row + (targetRow - clipboard.minRow))
          (t.internal_col + (targetCol - clipboard.minCol)) := by
    unfold executePaste
    simp only [pasteLoop_requests]
    simp
  have hlen : (executePaste clipboard outcome targetRow targetCol).requests.length =
      (clipboard.trees.filter fun t => t.isInOriginalArea == some true).length := by
    rw [hreq, List.length_map]
  obtain ⟨hc, hf⟩ := pasteLoop_counts (targetRow - clipboard.minRow)
    (targetCol - clipboard.minCol) outcome clipboard.trees {} rfl rfl
  have hc' : (executePaste clipboard outcome targetRow targetCol).createdCount =
      ((List.range (executePaste clipboard outcome targetRow targetCol).requests.length).filter
        fun k => outcome k = .ok).length := hc
  have hf' : (executePaste clipboard outcome targetRow targetCol).failedCount =
      ((List.range (executePaste clipboard outcome targetRow targetCol).requests.length).filter
        fun k => outcome k ≠ .ok).length := hf
  refine ⟨hlen, ?_, ?_, ?_⟩
  · rw [hreq, List.map_map]
    rfl
  · rw [hc', hf', filter_split_length, List.length_range, hlen]
  · rw [hc', hlen]

/-! ## Claims on the dome scoping of the unified store -/

/-- C24: for distinct dome ids `A` and `B`, a `saveUnifiedClipboard` run in dome `A`
leaves every `localStorage` key other than `unifiedClipboard_dome_A` unchanged, the key
`unifiedClipboard_dome_B` being one of them; when the save returns an entry, the key
`unifiedClipboard_dome_A` holds that entry, and when it returns `null` (the write threw)
the page is left as it was. -/
theorem saveUnifiedClipboard_dome_scoped (A B : Int) (hAB : A ≠ B) (isoNow : String)
    (setItemThrows : Bool) (clipboardData : Option ClipboardEntry) (source : Option String)
    (s : PageState) :
    (∀ key, key ≠ UNIFIED_CLIPBOARD_KEY A →
      (saveUnifiedClipboard A isoNow setItemThrows clipboardData source s).2.localStorage key =
        s.localStorage key) ∧
    UNIFIED_CLIPBOARD_KEY B ≠ UNIFIED_CLIPBOARD_KEY A ∧
    (saveUnifiedClipboard A isoNow setItemThrows clipboardData source s).2.localStorage
        (UNIFIED_CLIPBOARD_KEY B) = s.localStorage (UNIFIED_CLIPBOARD_KEY B) ∧
    (∀ u, (saveUnifiedClipboard A isoNow setItemThrows clipboardData source s).1 = some u →
      (saveUnifiedClipboard A isoNow setItemThrows clipboardData source s).2.localStorage
        (UNIFIED_CLIPBOARD_KEY A) = some (.json (.object u))) ∧
    ((saveUnifiedClipboard A isoNow setItemThrows clipboardData source s).1 = none →
      (saveUnifiedClipboard A isoNow setItemThrows clipboardData source s).2 = s) := by
  have hkey : UNIFIED_CLIPBOARD_KEY B ≠ UNIFIED_CLIPBOARD_KEY A :=
    fun h => hAB (UNIFIED_CLIPBOARD_KEY_injective B A h).symm
  have hframe : ∀ key, key ≠ UNIFIED_CLIPBOARD_KEY A →
      (saveUnifiedClipboard A isoNow setItemThrows clipboardData source s).2.localStorage key =
        s.localStorage key := by
    intro key hk
    cases setItemThrows <;>
      simp [saveUnifiedClipboard, PageState.setDragClipboard, PageState.setClipboardArea,
        Storage.setItem, hk]
  refine ⟨hframe, hkey, hframe _ hkey, ?_, ?_⟩
  · intro u hu
    cases setItemThrows with
    | true => simp [saveUnifiedClipboard] at hu
    | false =>
      simp only [saveUnifiedClipboard, Bool.false_eq_true, if_false, Option.some.injEq] at hu
      subst hu
      simp [saveUnifiedClipboard, PageState.setDragClipboard, PageState.setClipboardArea,
        Storage.setItem]
  · intro hn
    cases setItemThrows with
    | true => simp [saveUnifiedClipboard]
    | false => simp [saveUnifiedClipboard] at hn

/-- Witness of C24: on a page of dome 1 whose storage holds an entry under
`unifiedClipboard_dome_1`, a save run in dome 2 leaves that key as it was and writes the
saved entry, tagged with dome 2, under `unifiedClipboard_dome_2`. -/
theorem saveUnifiedClipboard_dome_scoped_witness :
    (2 : Int) ≠ 1 ∧
    (saveUnifiedClipboard 2 "t" false (some singleTreeEntry) none
        foreignStoredPage).2.localStorage (UNIFIED_CLIPBOARD_KEY 1) =
      some (.json (.object crossDomeEntry)) ∧
    (saveUnifiedClipboard 2 "t" false (some singleTreeEntry) none
        foreignStoredPage).2.localStorage (UNIFIED_CLIPBOARD_KEY 2) =
      some (.json (.object { singleTreeEntry with
        source_dome_id := some 2, copied_at := some "t", clipboard_source := none,
        unified_version := some "1.0" })) :=
  ⟨by decide,
   ((saveUnifiedClipboard_dome_scoped 2 1 (by decide) "t" false (some singleTreeEntry) none
      foreignStoredPage).1 (UNIFIED_CLIPBOARD_KEY 1) (by decide)).trans (by decide),
   (saveUnifiedClipboard_dome_scoped 2 1 (by decide) "t" false (some singleTreeEntry) none
      foreignStoredPage).2.2.2.1 _ rfl⟩

/-! ## Claims on the placement of pasted trees -/

theorem canPasteAt_upper (currentRows currentCols : Int) (trees : List Tree)
    (clipboard : Clipboard) (targetRow targetCol : Int)
    (h : canPasteAt currentRows currentCols trees clipboard targetRow targetCol = true) :
    targetRow + clipboard.height - 1 < currentRows ∧
      targetCol + clipboard.width - 1 < currentCols := by
  unfold canPasteAt at h
  by_cases h1 : targetRow + clipboard.height - 1 ≥ currentRows
  · simp [h1] at h
  · by_cases h2 : targetCol + clipboard.width - 1 ≥ currentCols
    · simp [h2] at h
    · omega

theorem clipboardOfArea_in_area_trees (domeId : Int) (now : Nat) (isoNow : String)
    (trees : List Tree) (area : Area) :
    ((clipboardOfArea domeId now isoNow trees area).trees.filter
        fun t => t.isInOriginalArea == some true) =
      (findTreesInArea trees area).map markInside := by
  have hrel : ((analyzeRelationships trees (findTreesInArea trees area)).relatedTrees.filter
      fun t => t.isInOriginalArea == some true) = [] := by
    rw [List.filter_eq_nil_iff]
    intro e he
    obtain ⟨t, _, _, rfl⟩ := related_from_outside trees (findTreesInArea trees area) e he
    simp [markOutside]
  have hin : ((findTreesInArea trees area).map markInside).filter
      (fun t => t.isInOriginalArea == some true) = (findTreesInArea trees area).map markInside := by
    rw [List.filter_eq_self]
    intro e he
    obtain ⟨t, _, rfl⟩ := List.mem_map.mp he
    simp [markInside]
  show ((((findTreesInArea trees area).map markInside) ++
      (analyzeRelationships trees (findTreesInArea trees area)).relatedTrees).filter
        fun t => t.isInOriginalArea == some true) = _
  rw [List.filter_append, hrel, hin, List.append_nil]

theorem mem_findTreesInArea (trees : List Tree) (area : Area) (t : Tree)
    (h : t ∈ findTreesInArea trees area) :
    t ∈ trees ∧ area.minRow ≤ t.internal_row ∧ t.internal_row ≤ area.maxRow ∧
      area.minCol ≤ t.internal_col ∧ t.internal_col ≤ area.maxCol := by
  unfold findTreesInArea at h
  simp only [List.mem_filter, Bool.and_eq_true, decide_eq_true_eq, ge_iff_le] at h
  obtain ⟨hm, ⟨⟨h1, h2⟩, h3⟩, h4⟩ := h
  exact ⟨hm, h1, h2, h3, h4⟩

/-- C25, as stated, fails: the scenario area carrying `width` and `height` 1 over its
2×2 bounds is copied with both in-area trees, and on the 10×10 grid `canPasteAt(3, 3)`
holds for the 1×1 destination rectangle; `executePaste(3, 3)` then requests the cutting
at (4,4), outside the rectangle and on the cell of the existing tree 3. -/
theorem executePaste_placement_fails :
    ¬ (∀ (currentRows currentCols : Int) (copyTrees pasteTrees : List Tree) (area : Area)
        (domeId : Int) (now : Nat) (isoNow : String) (outcome : Nat → FetchOutcome)
        (targetRow targetCol : Int),
        0 ≤ targetRow → 0 ≤ targetCol →
        canPasteAt currentRows currentCols pasteTrees
          (clipboardOfArea domeId now isoNow copyTrees area) targetRow targetCol = true →
        ∀ q ∈ (executePaste (clipboardOfArea domeId now isoNow copyTrees area) outcome
            targetRow targetCol).requests,
          PlacedSafely currentRows currentCols pasteTrees
            (clipboardOfArea domeId now isoNow copyTrees area) targetRow targetCol q) := by
  intro h
  have hq := h 10 10 scenarioTrees scenarioTrees narrowSizeArea 1 0 "" (fun _ => .ok) 3 3
    (by decide) (by decide) (by decide)
    { name := some "C2", breed := "", internal_row := 4, internal_col := 4,
      plant_type := "cutting", mother_plant_id := some 1, info := "" } (by decide)
  obtain ⟨-, -, -, -, -, hr, -⟩ := hq
  revert hr
  decide

/-- C25, amended: for every clipboard built by `copyDragArea` from an area and its
in-area trees whose width and height are at least the extent of the area bounds (as they
are whenever the area carries no `width` and `height` of its own), and every target with
`targetRow ≥ 0` and `targetCol ≥ 0` for which `canPasteAt` is true, `executePaste` issues
one request per in-area tree at the cell shifted by the paste offset; every request lies
in the grid, in the destination rectangle and on no cell of an existing tree; and two
in-area trees on distinct source cells get distinct destination cells. -/
theorem executePaste_placement_safe (currentRows currentCols : Int)
    (copyTrees pasteTrees : List Tree) (area : Area) (domeId : Int) (now : Nat)
    (isoNow : String) (outcome : Nat → FetchOutcome) (targetRow targetCol : Int)
    (hrow : 0 ≤ targetRow) (hcol : 0 ≤ targetCol)
    (hheight : area.maxRow - area.minRow + 1 ≤
      (clipboardOfArea domeId now isoNow copyTrees area).height)
    (hwidth : area.maxCol - area.minCol + 1 ≤
      (clipboardOfArea domeId now isoNow copyTrees area).width)
    (hcan : canPasteAt currentRows currentCols pasteTrees
      (clipboardOfArea domeId now isoNow copyTrees area) targetRow targetCol = true) :
    (executePaste (clipboardOfArea domeId now isoNow copyTrees area) outcome
        targetRow targetCol).requests =
      ((findTreesInArea copyTrees area).map fun t =>
        createRequest (markInside t) (t.internal_row + (targetRow - area.minRow))
          (t.internal_col + (targetCol - area.minCol))) ∧
    (∀ q ∈ (executePaste (clipboardOfArea domeId now isoNow copyTrees area) outcome
        targetRow targetCol).requests,
      PlacedSafely currentRows currentCols pasteTrees
        (clipboardOfArea domeId now isoNow copyTrees area) targetRow targetCol q) ∧
    (∀ t1 ∈ findTreesInArea copyTrees area, ∀ t2 ∈ findTreesInArea copyTrees area,
      (t1.internal_row ≠ t2.internal_row ∨ t1.internal_col ≠ t2.internal_col) →
      (t1.internal_row + (targetRow - area.minRow) ≠
          t2.internal_row + (targetRow - area.minRow) ∨
        t1.internal_col + (targetCol - area.minCol) ≠
          t2.internal_col + (targetCol - area.minCol))) := by
  have hreq : (executePaste (clipboardOfArea domeId now isoNow copyTrees area) outcome
      targetRow targetCol).requests =
      ((findTreesInArea copyTrees area).map fun t =>
        createRequest (markInside t) (t.internal_row + (targetRow - area.minRow))
          (t.internal_col + (targetCol - area.minCol))) := by
    have h0 : (executePaste (clipboardOfArea domeId now isoNow copyTrees area) outcome
        targetRow targetCol).requests =
        ((clipboardOfArea domeId now isoNow copyTrees area).trees.filter
          fun t => t.isInOriginalArea == some true).map fun t =>
            createRequest t
              (t.internal_row +
                (targetRow - (clipboardOfArea domeId now isoNow copyTrees area).minRow))
              (t.internal_col +
                (targetCol - (clipboardOfArea domeId now isoNow copyTrees area).minCol)) := by
      unfold executePaste
      simp only [pasteLoop_requests]
      simp
    rw [h0, clipboardOfArea_in_area_trees, List.map_map]
    rfl
  obtain ⟨hur, huc⟩ := canPasteAt_upper _ _ _ _ _ _ hcan
  have hfree := (canPasteAt_iff_of_upper _ _ _ _ _ _ hur huc).mp hcan
  refine ⟨hreq, ?_, ?_⟩
  · intro q hq
    rw [hreq] at hq
    obtain ⟨t, ht, rfl⟩ := List.mem_map.mp hq
    obtain ⟨-, h1, h2, h3, h4⟩ := mem_findTreesInArea copyTrees area t ht
    have hr : (createRequest (markInside t) (t.internal_row + (targetRow - area.minRow))
        (t.internal_col + (targetCol - area.minCol))).internal_row =
          t.internal_row + (targetRow - area.minRow) := rfl
    have hc : (createRequest (markInside t) (t.internal_row + (targetRow - area.minRow))
        (t.internal_col + (targetCol - area.minCol))).internal_col =
          t.internal_col + (targetCol - area.minCol) := rfl
    unfold PlacedSafely
    rw [hr, hc]
    refine ⟨by omega, by omega, by omega, by omega, by omega, by omega, by omega, by omega, ?_⟩
    intro e he ⟨her, hec⟩
    exact hfree e he ⟨by omega, by omega, by omega, by omega⟩
  · intro t1 _ t2 _ hne
    omega

/-- Witness of the amended C25: the scenario-A clipboard (2×2, built from an area without
`width` and `height`) pasted at (5,5) on the 10×10 grid issues its two requests at (5,5)
and (6,6), both placed safely. -/
theorem executePaste_placement_safe_witness :
    canPasteAt 10 10 scenarioTrees (clipboardOfArea 1 0 "" scenarioTrees scenarioArea) 5 5
      = true ∧
    ((executePaste (clipboardOfArea 1 0 "" scenarioTrees scenarioArea) (fun _ => .ok)
        5 5).requests.map fun q => (q.internal_row, q.internal_col)) = [(5, 5), (6, 6)] ∧
    (∀ q ∈ (executePaste (clipboardOfArea 1 0 "" scenarioTrees scenarioArea) (fun _ => .ok)
        5 5).requests,
      PlacedSafely 10 10 scenarioTrees (clipboardOfArea 1 0 "" scenarioTrees scenarioArea)
        5 5 q) :=
  ⟨by decide, by decide,
    (executePaste_placement_safe 10 10 scenarioTrees scenarioTrees scenarioArea 1 0 ""
      (fun _ => .ok) 5 5 (by decide) (by decide) (by decide) (by decide) (by decide)).2.1⟩

/-! ## Claims on `clearClipboardStorage` of `dome_isolation_fix.js` -/

theorem domeKey_ne_globalDrag (x : String) : "globalDragClipboard" ≠ "domeClipboard_" ++ x := by
  intro h
  have := congrArg (fun t => t.data.head?) h
  simp [String.data_append] at this

theorem domeKey_ne_globalTree (x : String) : "globalTreeClipboard" ≠ "domeClipboard_" ++ x := by
  intro h
  have := congrArg (fun t => t.data.head?) h
  simp [String.data_append] at this

theorem clearGlobalKey_none (domeId : Int) (key : String) (timestampKey : Option String)
    (stored : Option StoredText) (ls : Storage) (k : String) (h : ls k = none) :
    clearGlobalKey domeId key timestampKey stored ls k = none := by
  unfold clearGlobalKey
  cases stored with
  | none => exact h
  | some st =>
    cases st with
    | unparseable s =>
      by_cases hs : s = "" <;> simp [StoredText.truthy, Storage.removeItem, hs, h]
    | json v =>
      cases v with
      | null => simp [StoredText.truthy, Storage.removeItem, h]
      | scalar b =>
        cases timestampKey <;> simp [StoredText.truthy, Storage.removeItem, h]
      | object data =>
        simp only [StoredText.truthy, if_true]
        split
        · cases timestampKey <;> simp [Storage.removeItem, h]
        · exact h

theorem clearGlobalKey_other (domeId : Int) (key : String) (timestampKey : Option String)
    (stored : Option StoredText) (ls : Storage) (k : String) (hk : k ≠ key)
    (ht : timestampKey ≠ some k) :
    clearGlobalKey domeId key timestampKey stored ls k = ls k := by
  unfold clearGlobalKey
  cases stored with
  | none => rfl
  | some st =>
    cases st with
    | unparseable s =>
      by_cases hs : s = "" <;> simp [StoredText.truthy, Storage.removeItem, hs, hk]
    | json v =>
      cases v with
      | null => simp [StoredText.truthy, Storage.removeItem, hk]
      | scalar b =>
        cases timestampKey with
        | none => simp [StoredText.truthy, Storage.removeItem, hk]
        | some t =>
          have : k ≠ t := fun e => ht (by rw [e])
          simp [StoredText.truthy, Storage.removeItem, hk, this]
      | object data =>
        simp only [StoredText.truthy, if_true]
        split
        · cases timestampKey with
          | none => simp [Storage.removeItem, hk]
          | some t =>
            have : k ≠ t := fun e => ht (by rw [e])
            simp [Storage.removeItem, hk, this]
        · rfl

theorem clearGlobalKey_self (domeId : Int) (key : String) (timestampKey : Option String)
    (st : StoredText) (ls : Storage) (hls : ls key = some st) (ht : timestampKey ≠ some key) :
    (clearGlobalKey domeId key timestampKey (some st) ls key = none ↔
      st.truthy = true ∧ (st.unreadable = true ∨ truthyInt st.sourceDome = false ∨
        st.sourceDome = some domeId)) ∧
    (clearGlobalKey domeId key timestampKey (some st) ls key ≠ none →
      clearGlobalKey domeId key timestampKey (some st) ls key = some st) := by
  unfold clearGlobalKey
  cases st with
  | unparseable s =>
    by_cases hs : s = "" <;>
      simp [StoredText.truthy, StoredText.unreadable, Storage.removeItem, hs, hls]
  | json v =>
    cases v with
    | null => simp [StoredText.truthy, StoredText.unreadable, Storage.removeItem]
    | scalar b =>
      cases timestampKey with
      | none =>
        simp [StoredText.truthy, StoredText.unreadable, StoredText.sourceDome,
          Storage.removeItem, truthyInt]
      | some t =>
        have : key ≠ t := fun e => ht (by rw [e])
        simp [StoredText.truthy, StoredText.unreadable, StoredText.sourceDome,
          Storage.removeItem, truthyInt, this]
    | object data =>
      simp only [StoredText.truthy, if_true, StoredText.unreadable, StoredText.sourceDome]
      by_cases h1 : truthyInt data.source_dome_id = true
      · by_cases h2 : data.source_dome_id = some domeId
        · cases timestampKey with
          | none => simp [Storage.removeItem, h1, h2]
          | some t =>
            have : key ≠ t := fun e => ht (by rw [e])
            simp [Storage.removeItem, h1, h2, this]
        · simp [h1, h2, hls]
      · have h1' : truthyInt data.source_dome_id = false := by simpa using h1
        cases timestampKey with
        | none => simp [Storage.removeItem, h1']
        | some t =>
          have : key ≠ t := fun e => ht (by rw [e])
          simp [Storage.removeItem, h1', this]

theorem clearClipboardStorage_page (domeId : Int) (w : Browser) :
    (DomeIsolation.clearClipboardStorage domeId w).page =
      { localStorage :=
          clearGlobalKey domeId "globalTreeClipboard" none
            (w.page.localStorage.removeItem ("domeClipboard_" ++ toString domeId)
              "globalTreeClipboard")
            (clearGlobalKey domeId "globalDragClipboard" (some "globalDragClipboardTimestamp")
              (w.page.localStorage.removeItem ("domeClipboard_" ++ toString domeId)
                "globalDragClipboard")
              (w.page.localStorage.removeItem ("domeClipboard_" ++ toString domeId)))
        _dragClipboard := none
        _clipboardArea := none
        copiedTreeData := none } := by
  unfold DomeIsolation.clearClipboardStorage Browser.showStatus
  simp only
  split <;> rfl

theorem unreadable_of_truthy_source (st : StoredText) (h : truthyInt st.sourceDome = true) :
    st.unreadable = false := by
  cases st with
  | unparseable s => simp [StoredText.sourceDome, truthyInt] at h
  | json v =>
    cases v with
    | null => simp [StoredText.sourceDome, truthyInt] at h
    | scalar b => rfl
    | object data => rfl

/-- C27, as stated, fails: in dome 1, with `globalDragClipboard` holding the parseable
entry `zeroDomeEntry`, whose `source_dome_id` is 0 (present, and not the active dome),
`clearClipboardStorage` removes the key: the code tests `source_dome_id` for
truthiness. -/
theorem clearClipboardStorage_global_iff_fails :
    ¬ (∀ (domeId : Int) (w : Browser) (st : StoredText),
      w.page.localStorage "globalDragClipboard" = some st →
      ((DomeIsolation.clearClipboardStorage domeId w).page.localStorage
          "globalDragClipboard" = none ↔
        ((∃ s, st = .unparseable s) ∨ st.sourceDome = none ∨
          st.sourceDome = some domeId))) := by
  intro h
  have h1 := (h 1 zeroDomeGlobalBrowser (.json (.object zeroDomeEntry)) (by decide)).mp
    (by decide)
  rcases h1 with ⟨s, hs⟩ | h2 | h3
  · cases hs
  · revert h2
    decide
  · revert h3
    decide

/-- C27, amended: `clearClipboardStorage` always removes `domeClipboard_<domeId>` and
nulls the three in-memory mirrors; for each of the keys `globalDragClipboard` and
`globalTreeClipboard`, an absent key stays absent, and a stored text is removed if and
only if it is not the empty string and either cannot be read as an object (not parseable,
or `null`), or carries no `source_dome_id` or the value 0, or carries the active
`domeId`; a stored entry whose `source_dome_id` is non-zero and differs from the active
`domeId` is left as it was. -/
theorem clearClipboardStorage_global_iff (domeId : Int) (w : Browser) :
    (DomeIsolation.clearClipboardStorage domeId w).page.localStorage
      ("domeClipboard_" ++ toString domeId) = none ∧
    (DomeIsolation.clearClipboardStorage domeId w).page._dragClipboard = none ∧
    (DomeIsolation.clearClipboardStorage domeId w).page._clipboardArea = none ∧
    (DomeIsolation.clearClipboardStorage domeId w).page.copiedTreeData = none ∧
    (∀ key, key = "globalDragClipboard" ∨ key = "globalTreeClipboard" →
      (w.page.localStorage key = none →
        (DomeIsolation.clearClipboardStorage domeId w).page.localStorage key = none) ∧
      (∀ st, w.page.localStorage key = some st →
        ((DomeIsolation.clearClipboardStorage domeId w).page.localStorage key = none ↔
          st.truthy = true ∧ (st.unreadable = true ∨ truthyInt st.sourceDome = false ∨
            st.sourceDome = some domeId)) ∧
        (truthyInt st.sourceDome = true ∧ st.sourceDome ≠ some domeId →
          (DomeIsolation.clearClipboardStorage domeId w).page.localStorage key =
            some st))) := by
  rw [clearClipboardStorage_page]
  simp only
  refine ⟨?_, trivial, trivial, trivial, ?_⟩
  · apply clearGlobalKey_none
    apply clearGlobalKey_none
    simp [Storage.removeItem]
  · have hd : (w.page.localStorage.removeItem ("domeClipboard_" ++ toString domeId))
        "globalDragClipboard" = w.page.localStorage "globalDragClipboard" := by
      simp [Storage.removeItem, domeKey_ne_globalDrag]
    have ht : (w.page.localStorage.removeItem ("domeClipboard_" ++ toString domeId))
        "globalTreeClipboard" = w.page.localStorage "globalTreeClipboard" := by
      simp [Storage.removeItem, domeKey_ne_globalTree]
    have key : ∀ k, k = "globalDragClipboard" ∨ k = "globalTreeClipboard" →
        (w.page.localStorage k = none →
          clearGlobalKey domeId "globalTreeClipboard" none
            (w.page.localStorage.removeItem ("domeClipboard_" ++ toString domeId)
              "globalTreeClipboard")
            (clearGlobalKey domeId "globalDragClipboard"
              (some "globalDragClipboardTimestamp")
              (w.page.localStorage.removeItem ("domeClipboard_" ++ toString domeId)
                "globalDragClipboard")
              (w.page.localStorage.removeItem ("domeClipboard_" ++ toString domeId))) k =
            none) ∧
        (∀ st, w.page.localStorage k = some st →
          (clearGlobalKey domeId "globalTreeClipboard" none
            (w.page.localStorage.removeItem ("domeClipboard_" ++ toString domeId)
              "globalTreeClipboard")
            (clearGlobalKey domeId "globalDragClipboard"
              (some "globalDragClipboardTimestamp")
              (w.page.localStorage.removeItem ("domeClipboard_" ++ toString domeId)
                "globalDragClipboard")
              (w.page.localStorage.removeItem ("domeClipboard_" ++ toString domeId))) k =
            none ↔
            st.truthy = true ∧ (st.unreadable = true ∨ truthyInt st.sourceDome = false ∨
              st.sourceDome = some domeId)) ∧
          (clearGlobalKey domeId "globalTreeClipboard" none
            (w.page.localStorage.removeItem ("domeClipboard_" ++ toString domeId)
              "globalTreeClipboard")
            (clearGlobalKey domeId "globalDragClipboard"
              (some "globalDragClipboardTimestamp")
              (w.page.localStorage.removeItem ("domeClipboard_" ++ toString domeId)
                "globalDragClipboard")
              (w.page.localStorage.removeItem ("domeClipboard_" ++ toString domeId))) k ≠
            none →
           clearGlobalKey domeId "globalTreeClipboard" none
            (w.page.localStorage.removeItem ("domeClipboard_" ++ toString domeId)
              "globalTreeClipboard")
            (clearGlobalKey domeId "globalDragClipboard"
              (some "globalDragClipboardTimestamp")
              (w.page.localStorage.removeItem ("domeClipboard_" ++ toString domeId)
                "globalDragClipboard")
              (w.page.localStorage.removeItem ("domeClipboard_" ++ toString domeId))) k =
            some st)) := by
      rintro k (rfl | rfl)
      · rw [clearGlobalKey_other domeId "globalTreeClipboard" none _ _ "globalDragClipboard"
          (by decide) (by simp)]
        refine ⟨fun hn => clearGlobalKey_none _ _ _ _ _ _ (by rw [hd]; exact hn), ?_⟩
        intro st hst
        rw [hd, hst]
        exact clearGlobalKey_self domeId "globalDragClipboard" _ st _ (by rw [hd]; exact hst)
          (by decide)
      · refine ⟨fun hn => clearGlobalKey_none _ _ _ _ _ _
          (clearGlobalKey_none _ _ _ _ _ _ (by rw [ht]; exact hn)), ?_⟩
        intro st hst
        rw [ht, hst]
        exact clearGlobalKey_self domeId "globalTreeClipboard" none st _
          (by
            rw [clearGlobalKey_other domeId "globalDragClipboard" _ _ _ "globalTreeClipboard"
              (by decide) (by decide), ht]
            exact hst)
          (by simp)
    intro k hk
    obtain ⟨h1, h2⟩ := key k hk
    refine ⟨h1, fun st hst => ?_⟩
    obtain ⟨h3, h4⟩ := h2 st hst
    refine ⟨h3, fun hforeign => h4 ?_⟩
    intro hnone
    have h5 := h3.mp hnone
    rw [unreadable_of_truthy_source st hforeign.1, hforeign.1] at h5
    rcases h5.2 with h | h | h
    · cases h
    · cases h
    · exact hforeign.2 h

/-- Witness of the amended C27: in dome 1, with `domeClipboard_1` stored, the three mirrors
set and `globalDragClipboard` holding an entry of dome 2, `clearClipboardStorage` removes
`domeClipboard_1`, nulls the mirrors and leaves `globalDragClipboard` as it was. -/
theorem clearClipboardStorage_global_iff_witness :
    mixedStorageBrowser.page.localStorage "domeClipboard_1" ≠ none ∧
    (DomeIsolation.clearClipboardStorage 1 mixedStorageBrowser).page.localStorage
      "domeClipboard_1" = none ∧
    (DomeIsolation.clearClipboardStorage 1 mixedStorageBrowser).page._dragClipboard = none ∧
    (DomeIsolation.clearClipboardStorage 1 mixedStorageBrowser).page.localStorage
      "globalDragClipboard" = some (.json (.object crossDomeEntry)) :=
  ⟨by decide,
   (clearClipboardStorage_global_iff 1 mixedStorageBrowser).1,
   (clearClipboardStorage_global_iff 1 mixedStorageBrowser).2.1,
   ((clearClipboardStorage_global_iff 1 mixedStorageBrowser).2.2.2.2 "globalDragClipboard"
      (Or.inl rfl)).2 (.json (.object crossDomeEntry)) (by decide) |>.2
        ⟨by decide, by decide⟩⟩

/-! ## Claims on `enhanceClipboardData` -/

theorem fillName_fields (bd : BackendRecord) (c : ClipboardEntry) :
    (fillName bd c).name = filledWhenFalsy truthyStr c.name bd.name ∧
    (fillName bd c).tree_count = c.tree_count ∧ (fillName bd c).width = c.width ∧
    (fillName bd c).height = c.height := by
  unfold fillName filledWhenFalsy
  by_cases h1 : truthyStr c.name = true <;> by_cases h2 : truthyStr bd.name = true <;>
    simp [h1, h2]

theorem fillTreeCount_fields (bd : BackendRecord) (c : ClipboardEntry) :
    (fillTreeCount bd c).name = c.name ∧
    (fillTreeCount bd c).tree_count = filledWhenFalsy truthyInt c.tree_count bd.tree_count ∧
    (fillTreeCount bd c).width = c.width ∧ (fillTreeCount bd c).height = c.height := by
  unfold fillTreeCount filledWhenFalsy
  by_cases h1 : truthyInt c.tree_count = true <;>
    by_cases h2 : truthyInt bd.tree_count = true <;> simp [h1, h2]

theorem fillWidth_fields (bd : BackendRecord) (c : ClipboardEntry) :
    (fillWidth bd c).name = c.name ∧ (fillWidth bd c).tree_count = c.tree_count ∧
    (fillWidth bd c).width = filledWhenFalsy truthyInt c.width bd.width ∧
    (fillWidth bd c).height = c.height := by
  unfold fillWidth filledWhenFalsy
  by_cases h1 : truthyInt c.width = true <;> by_cases h2 : truthyInt bd.width = true <;>
    simp [h1, h2]

theorem fillHeight_fields (bd : BackendRecord) (c : ClipboardEntry) :
    (fillHeight bd c).name = c.name ∧ (fillHeight bd c).tree_count = c.tree_count ∧
    (fillHeight bd c).width = c.width ∧
    (fillHeight bd c).height = filledWhenFalsy truthyInt c.height bd.height := by
  unfold fillHeight filledWhenFalsy
  by_cases h1 : truthyInt c.height = true <;> by_cases h2 : truthyInt bd.height = true <;>
    simp [h1, h2]

theorem extractTrees_fields (c : ClipboardEntry) :
    (extractTrees c).name = c.name ∧ (extractTrees c).tree_count = c.tree_count ∧
    (extractTrees c).width = c.width ∧ (extractTrees c).height = c.height := by
  unfold extractTrees
  split
  · split
    · exact ⟨rfl, rfl, rfl, rfl⟩
    · split <;> exact ⟨rfl, rfl, rfl, rfl⟩
  · exact ⟨rfl, rfl, rfl, rfl⟩

theorem addSourceNames_fields (bd : BackendRecord) (c : ClipboardEntry) :
    (addSourceNames bd c).name = c.name ∧ (addSourceNames bd c).tree_count = c.tree_count ∧
    (addSourceNames bd c).width = c.width ∧ (addSourceNames bd c).height = c.height := by
  unfold addSourceNames
  split <;> exact ⟨rfl, rfl, rfl, rfl⟩

theorem enhanceClipboardData_fields (now : Nat) (b : BackendResult) (bd : BackendRecord)
    (content : ClipboardEntry) (hbd : b.clipboard_data = some bd)
    (hc : bd.clipboard_content = some content) :
    ∃ r, enhanceClipboardData now (some b) = some r ∧
      r.name = filledWhenFalsy truthyStr content.name bd.name ∧
      r.tree_count = filledWhenFalsy truthyInt content.tree_count bd.tree_count ∧
      r.width = filledWhenFalsy truthyInt content.width bd.width ∧
      r.height = filledWhenFalsy truthyInt content.height bd.height := by
  refine ⟨addSourceNames bd (addSourceInformation now bd (extractTrees
    (fillHeight bd (fillWidth bd (fillTreeCount bd (fillName bd content)))))), ?_, ?_⟩
  · simp only [enhanceClipboardData, hbd, hc]
  · obtain ⟨a1, a2, a3, a4⟩ := addSourceNames_fields bd (addSourceInformation now bd
      (extractTrees (fillHeight bd (fillWidth bd (fillTreeCount bd (fillName bd content))))))
    obtain ⟨e1, e2, e3, e4⟩ := extractTrees_fields
      (fillHeight bd (fillWidth bd (fillTreeCount bd (fillName bd content))))
    obtain ⟨h1, h2, h3, h4⟩ := fillHeight_fields bd
      (fillWidth bd (fillTreeCount bd (fillName bd content)))
    obtain ⟨w1, w2, w3, w4⟩ := fillWidth_fields bd (fillTreeCount bd (fillName bd content))
    obtain ⟨t1, t2, t3, t4⟩ := fillTreeCount_fields bd (fillName bd content)
    obtain ⟨n1, n2, n3, n4⟩ := fillName_fields bd content
    have s1 : ∀ x : ClipboardEntry, (addSourceInformation now bd x).name = x.name :=
      fun _ => rfl
    have s2 : ∀ x : ClipboardEntry,
      (addSourceInformation now bd x).tree_count = x.tree_count := fun _ => rfl
    have s3 : ∀ x : ClipboardEntry, (addSourceInformation now bd x).width = x.width :=
      fun _ => rfl
    have s4 : ∀ x : ClipboardEntry, (addSourceInformation now bd x).height = x.height :=
      fun _ => rfl
    refine ⟨?_, ?_, ?_, ?_⟩
    · rw [a1, s1, e1, h1, w1, t1, n1]
    · rw [a2, s2, e2, h2, w2, t2, n2]
    · rw [a3, s3, e3, h3, w3, t3, n3]
    · rw [a4, s4, e4, h4, w4, t4, n4]

/-- C29, as stated, fails: for the content of an empty area, which carries `tree_count` 0,
and backend metadata giving `tree_count` 3, `enhanceClipboardData` returns the entry with
`tree_count` 3: the guard `!clipboardContent.tree_count` takes 0 for a missing value. -/
theorem enhanceClipboardData_keeps_fields_fails :
    ¬ (∀ (now : Nat) (backendResult : BackendResult) (bd : BackendRecord)
        (content : ClipboardEntry),
      backendResult.clipboard_data = some bd → bd.clipboard_content = some content →
      ∃ r, enhanceClipboardData now (some backendResult) = some r ∧
        (content.name ≠ none → r.name = content.name) ∧
        (content.tree_count ≠ none → r.tree_count = content.tree_count) ∧
        (content.width ≠ none → r.width = content.width) ∧
        (content.height ≠ none → r.height = content.height)) := by
  intro h
  obtain ⟨r, hr, -, hcount, -, -⟩ := h 0 staleCountResult _ emptyAreaContent rfl rfl
  obtain ⟨r2, hr2, -, hcount2, -, -⟩ :=
    enhanceClipboardData_fields 0 staleCountResult _ emptyAreaContent rfl rfl
  rw [hr] at hr2
  cases hr2
  have h3 := hcount (by decide)
  rw [hcount2] at h3
  revert h3
  decide

/-- C29, amended: `enhanceClipboardData` returns `null` exactly when the backend result,
its `clipboard_data`, or an object-valued `clipboard_content` is missing; otherwise each of
`name`, `tree_count`, `width` and `height` of the returned entry is the content's own value
when that value is truthy, and else the backend's value when that one is truthy (a content
value of 0 or `''` counts as missing); in particular a truthy content value is returned
unchanged. -/
theorem enhanceClipboardData_fills_falsy (now : Nat) (backendResult : Option BackendResult) :
    (enhanceClipboardData now backendResult = none ↔
      (backendResult = none ∨
        (backendResult.bind fun b => b.clipboard_data) = none ∨
        ((backendResult.bind fun b => b.clipboard_data).bind fun d => d.clipboard_content)
          = none)) ∧
    (∀ (b : BackendResult) (bd : BackendRecord) (content : ClipboardEntry),
      backendResult = some b → b.clipboard_data = some bd →
      bd.clipboard_content = some content →
      ∃ r, enhanceClipboardData now backendResult = some r ∧
        r.name = filledWhenFalsy truthyStr content.name bd.name ∧
        r.tree_count = filledWhenFalsy truthyInt content.tree_count bd.tree_count ∧
        r.width = filledWhenFalsy truthyInt content.width bd.width ∧
        r.height = filledWhenFalsy truthyInt content.height bd.height ∧
        (truthyStr content.name = true → r.name = content.name) ∧
        (truthyInt content.tree_count = true → r.tree_count = content.tree_count) ∧
        (truthyInt content.width = true → r.width = content.width) ∧
        (truthyInt content.height = true → r.height = content.height)) := by
  constructor
  · cases backendResult with
    | none => simp [enhanceClipboardData]
    | some b =>
      cases hb : b.clipboard_data with
      | none => simp [enhanceClipboardData, hb]
      | some bd =>
        cases hc : bd.clipboard_content with
        | none => simp [enhanceClipboardData, hb, hc]
        | some content => simp [enhanceClipboardData, hb, hc]
  · intro b bd content hb hbd hc
    subst hb
    obtain ⟨r, hr, h1, h2, h3, h4⟩ := enhanceClipboardData_fields now b bd content hbd hc
    refine ⟨r, hr, h1, h2, h3, h4, ?_, ?_, ?_, ?_⟩
    · intro h
      rw [h1, filledWhenFalsy, if_pos h]
    · intro h
      rw [h2, filledWhenFalsy, if_pos h]
    · intro h
      rw [h3, filledWhenFalsy, if_pos h]
    · intro h
      rw [h4, filledWhenFalsy, if_pos h]

/-- Witness of the amended C29: a content without name and tree count gets both from the
backend metadata (`A`, 1); a content with the truthy name `Empty` and the width 2 keeps
them. -/
theorem enhanceClipboardData_fills_falsy_witness :
    (∃ r, enhanceClipboardData 0 (some bareContentResult) = some r ∧
      r.name = some "A" ∧ r.tree_count = some 1) ∧
    (∃ r, enhanceClipboardData 0 (some staleCountResult) = some r ∧
      r.name = some "Empty" ∧ r.width = some 2) := by
  constructor
  · obtain ⟨r, hr, h1, h2, -⟩ := (enhanceClipboardData_fills_falsy 0
      (some bareContentResult)).2 bareContentResult _ _ rfl rfl rfl
    exact ⟨r, hr, h1.trans (by decide), h2.trans (by decide)⟩
  · obtain ⟨r, hr, -, -, -, -, h1, -, h3, -⟩ := (enhanceClipboardData_fills_falsy 0
      (some staleCountResult)).2 staleCountResult _ _ rfl rfl rfl
    exact ⟨r, hr, h1 (by decide), h3 (by decide)⟩

/-! ## Claims on the auto-save hook -/

theorem backendContent_save (requests : List NetRequest) (payload : SavePayload) :
    backendContent (requests ++ [.save payload]) = some payload.clipboard_content := by
  simp [backendContent, List.foldl_append]

theorem savedContents_save (requests : List NetRequest) (payload : SavePayload) :
    savedContents (requests ++ [.save payload]) =
      savedContents requests ++ [payload.clipboard_content] := by
  simp [savedContents, List.filterMap_append]

/-- One copy through the hook that is not debounced: the entry is sent and accepted, and
`lastSaveTime` is the clock reading made when the answer had arrived. -/
theorem hookedCopy_sent (bc : BackendClipboard) (w : Browser) (domeId : Int)
    (farmId : Option Int) (now savedAt : Nat) (e : ClipboardEntry)
    (hen : bc.isEnabled = true) (hauto : bc.autoSaveEnabled = true)
    (hlast : ∀ t, bc.lastSaveTime = some t → t + 2000 ≤ now) :
    ∃ payload : SavePayload, payload.clipboard_content = e ∧
      (hookedCopyDragArea (copyLeaving e) bc w domeId farmId now savedAt
        (backendAccepts e)).2.2.requests = w.requests ++ [.save payload] ∧
      (hookedCopyDragArea (copyLeaving e) bc w domeId farmId now savedAt
        (backendAccepts e)).2.2.page = w.page.assignBoth (some e) ∧
      (hookedCopyDragArea (copyLeaving e) bc w domeId farmId now savedAt
        (backendAccepts e)).2.1.isEnabled = true ∧
      (hookedCopyDragArea (copyLeaving e) bc w domeId farmId now savedAt
        (backendAccepts e)).2.1.autoSaveEnabled = true ∧
      (hookedCopyDragArea (copyLeaving e) bc w domeId farmId now savedAt
        (backendAccepts e)).2.1.lastSaveTime = some savedAt := by
  refine ⟨{ clipboard_type := orStr e.type "drag_area"
            name := orStr e.name "Unnamed Clipboard"
            source_dome_id := orNull (some domeId)
            source_farm_id := orNull farmId
            clipboard_content := e
            expires_in_hours := orNull none }, rfl, ?_⟩
  cases hl : bc.lastSaveTime with
  | none =>
    simp [hookedCopyDragArea, copyLeaving, PageState.assignBoth, BackendClipboard.autoSave,
      BackendClipboard.saveToBackend, backendAccepts, hen, hauto, hl]
  | some t =>
    have ht := hlast t hl
    have hnot : ¬ ((now : Int) - (t : Int) < 2000) := by omega
    simp [hookedCopyDragArea, copyLeaving, PageState.assignBoth, BackendClipboard.autoSave,
      BackendClipboard.saveToBackend, backendAccepts, hen, hauto, hl, hnot]

/-- One copy through the hook whose debounce test comes less than 2000 ms after the stamp
of the last successful save: nothing is sent, whatever the answer the backend would
give. -/
theorem hookedCopy_debounced (original : Browser → Bool × Browser) (bc : BackendClipboard)
    (w : Browser) (domeId : Int) (farmId : Option Int) (now savedAt t : Nat)
    (response : SaveResponse) (hl : bc.lastSaveTime = some t) (ht : now < t + 2000) :
    (hookedCopyDragArea original bc w domeId farmId now savedAt response).2 =
      (bc, (original w).2) := by
  have hlt : (now : Int) - (t : Int) < 2000 := by omega
  unfold hookedCopyDragArea
  simp only
  split
  · cases hc : (original w).2.page._dragClipboard with
    | none => simp [BackendClipboard.autoSave]
    | some e =>
      by_cases ha : bc.autoSaveEnabled = true <;>
        simp [BackendClipboard.autoSave, ha, hl, hlt]
  · rfl

theorem runCopies_cons (domeId : Int) (farmId : Option Int)
    (start : BackendClipboard × Browser) (c : CopyEvent) (cs : List CopyEvent) :
    runCopies domeId farmId start (c :: cs) =
      runCopies domeId farmId
        (hookedCopyDragArea (copyLeaving c.entry) start.1 start.2 domeId farmId c.now
          c.savedAt (backendAccepts c.entry)).2 cs := rfl

theorem runCopies_spaced (domeId : Int) (farmId : Option Int) (copies : List CopyEvent) :
    ∀ (start : BackendClipboard × Browser) (c : CopyEvent),
      start.1.isEnabled = true → start.1.autoSaveEnabled = true →
      Spaced start.1.lastSaveTime (c :: copies) →
      savedContents (runCopies domeId farmId start (c :: copies)).2.requests =
        savedContents start.2.requests ++ (c :: copies).map (fun x => x.entry) ∧
      backendContent (runCopies domeId farmId start (c :: copies)).2.requests =
        (runCopies domeId farmId start (c :: copies)).2.page._dragClipboard ∧
      (runCopies domeId farmId start (c :: copies)).2.page._dragClipboard =
        ((c :: copies).getLast?).map (fun x => x.entry) := by
  induction copies with
  | nil =>
    intro start c hen hauto hsp
    obtain ⟨payload, hp, hreq, hpage, -, -, -⟩ :=
      hookedCopy_sent start.1 start.2 domeId farmId c.now c.savedAt c.entry hen hauto hsp.1
    rw [runCopies_cons]
    simp only [runCopies, List.foldl_nil]
    rw [hreq, hpage, savedContents_save, backendContent_save, hp]
    exact ⟨rfl, rfl, rfl⟩
  | cons d ds ih =>
    intro start c hen hauto hsp
    obtain ⟨payload, hp, hreq, -, hen1, hauto1, hlast1⟩ :=
      hookedCopy_sent start.1 start.2 domeId farmId c.now c.savedAt c.entry hen hauto hsp.1
    rw [runCopies_cons]
    have hsp1 : Spaced (hookedCopyDragArea (copyLeaving c.entry) start.1 start.2 domeId
        farmId c.now c.savedAt (backendAccepts c.entry)).2.1.lastSaveTime (d :: ds) := by
      rw [hlast1]
      exact hsp.2
    obtain ⟨h1, h2, h3⟩ := ih _ d hen1 hauto1 hsp1
    refine ⟨?_, h2, ?_⟩
    · rw [h1, hreq, savedContents_save, hp]
      simp
    · rw [h3]
      simp [List.getLast?_cons_cons]

/-- C30, as stated, fails: on a fresh page, a copy of `crossDomeEntry` reaches the
debounce test at time 1000, is sent, and its save is stamped at time 1150, when the
answer has arrived; a second copy, of `singleTreeEntry`, made 2000 ms after the first, at
time 3000, is not sent: the backend still holds the first entry while
`window.dragClipboard` holds the second. The auto-save is debounced for 2000 ms after the
stamp of a successful save. -/
theorem hookedCopyDragArea_always_saved_fails :
    ¬ (∀ (domeId : Int) (farmId : Option Int) (copies : List CopyEvent),
      copies ≠ [] →
      backendContent (runCopies domeId farmId freshBackend copies).2.requests =
        (runCopies domeId farmId freshBackend copies).2.page._dragClipboard) := by
  intro h
  have h1 := h 1 none
    [{ now := 1000, savedAt := 1150, entry := crossDomeEntry },
     { now := 3000, savedAt := 3150, entry := singleTreeEntry }] (by simp)
  obtain ⟨-, hb, hd⟩ := runCopies_spaced 1 none [] freshBackend
    { now := 1000, savedAt := 1150, entry := crossDomeEntry }
    rfl rfl ⟨(fun t ht => by cases ht), trivial⟩
  have hstep : runCopies 1 none freshBackend
      [{ now := 1000, savedAt := 1150, entry := crossDomeEntry },
       { now := 3000, savedAt := 3150, entry := singleTreeEntry }] =
      ((runCopies 1 none freshBackend
          [{ now := 1000, savedAt := 1150, entry := crossDomeEntry }]).1,
        (copyLeaving singleTreeEntry
          (runCopies 1 none freshBackend
            [{ now := 1000, savedAt := 1150, entry := crossDomeEntry }]).2).2) := by
    have hl : (runCopies 1 none freshBackend
        [{ now := 1000, savedAt := 1150, entry := crossDomeEntry }]).1.lastSaveTime =
        some 1150 := by
      obtain ⟨_, -, -, -, -, -, hlast⟩ := hookedCopy_sent freshBackend.1 freshBackend.2 1 none
        1000 1150 crossDomeEntry rfl rfl (fun t ht => by cases ht)
      exact hlast
    exact hookedCopy_debounced (copyLeaving singleTreeEntry) _ _ 1 none 3000 3150 1150
      (backendAccepts singleTreeEntry) hl (by decide)
  rw [hstep] at h1
  simp only [copyLeaving, PageState.assignBoth] at h1
  rw [hb, hd] at h1
  revert h1
  decide

/-- C30, amended: for every sequence of successful copies made through the hooked
`window.copyDragArea`, each ended before the next begins, with the backend clipboard
enabled, auto-save enabled and a backend that accepts the saves, in which every copy
reaches the debounce test of `autoSave` at least 2000 ms after `lastSaveTime`, the time
stamped when the answer of the previous successful save arrived, every copy's entry is
sent to `/api/clipboard/save`, in order, and after the sequence the backend's clipboard
content is the entry in `window.dragClipboard`, the one copied last. A copy that reaches
the test less than 2000 ms after `lastSaveTime` is debounced and sends nothing. -/
theorem hookedCopyDragArea_saves_spaced_copies (domeId : Int) (farmId : Option Int)
    (start : BackendClipboard × Browser) (copies : List CopyEvent)
    (hne : copies ≠ []) (hen : start.1.isEnabled = true)
    (hauto : start.1.autoSaveEnabled = true)
    (hsp : Spaced start.1.lastSaveTime copies) :
    savedContents (runCopies domeId farmId start copies).2.requests =
      savedContents start.2.requests ++ copies.map (fun x => x.entry) ∧
    backendContent (runCopies domeId farmId start copies).2.requests =
      (runCopies domeId farmId start copies).2.page._dragClipboard ∧
    (runCopies domeId farmId start copies).2.page._dragClipboard =
      (copies.getLast?).map (fun x => x.entry) ∧
    (∀ (original : Browser → Bool × Browser) (now savedAt t : Nat) (response : SaveResponse),
      start.1.lastSaveTime = some t → now < t + 2000 →
      (hookedCopyDragArea original start.1 start.2 domeId farmId now savedAt response).2 =
        (start.1, (original start.2).2)) := by
  cases copies with
  | nil => exact absurd rfl hne
  | cons c cs =>
    obtain ⟨h1, h2, h3⟩ := runCopies_spaced domeId farmId cs start c hen hauto hsp
    exact ⟨h1, h2, h3, fun original now savedAt t response hl ht =>
      hookedCopy_debounced original start.1 start.2 domeId farmId now savedAt t response
        hl ht⟩

/-- Witness of the amended C30: on a fresh page, a copy of `crossDomeEntry` tested at time
1000 and stamped at 1150, then a copy of `singleTreeEntry` tested at time 3150 and stamped
at 3300, are both sent, and the backend ends up holding `singleTreeEntry`, the entry in
`window.dragClipboard`. -/
theorem hookedCopyDragArea_saves_spaced_copies_witness :
    savedContents (runCopies 1 none freshBackend
        [{ now := 1000, savedAt := 1150, entry := crossDomeEntry },
         { now := 3150, savedAt := 3300, entry := singleTreeEntry }]).2.requests =
      [crossDomeEntry, singleTreeEntry] ∧
    backendContent (runCopies 1 none freshBackend
        [{ now := 1000, savedAt := 1150, entry := crossDomeEntry },
         { now := 3150, savedAt := 3300, entry := singleTreeEntry }]).2.requests =
      (runCopies 1 none freshBackend
        [{ now := 1000, savedAt := 1150, entry := crossDomeEntry },
         { now := 3150, savedAt := 3300, entry := singleTreeEntry }]).2.page._dragClipboard ∧
    (runCopies 1 none freshBackend
        [{ now := 1000, savedAt := 1150, entry := crossDomeEntry },
         { now := 3150, savedAt := 3300, entry := singleTreeEntry }]).2.page._dragClipboard =
      some singleTreeEntry :=
  ⟨(hookedCopyDragArea_saves_spaced_copies 1 none freshBackend
      [{ now := 1000, savedAt := 1150, entry := crossDomeEntry },
       { now := 3150, savedAt := 3300, entry := singleTreeEntry }] (by simp) rfl rfl
      ⟨(fun t ht => by cases ht), (fun t ht => by cases ht; decide), trivial⟩).1,
   (hookedCopyDragArea_saves_spaced_copies 1 none freshBackend
      [{ now := 1000, savedAt := 1150, entry := crossDomeEntry },
       { now := 3150, savedAt := 3300, entry := singleTreeEntry }] (by simp) rfl rfl
      ⟨(fun t ht => by cases ht), (fun t ht => by cases ht; decide), trivial⟩).2.1,
   (hookedCopyDragArea_saves_spaced_copies 1 none freshBackend
      [{ now := 1000, savedAt := 1150, entry := crossDomeEntry },
       { now := 3150, savedAt := 3300, entry := singleTreeEntry }] (by simp) rfl rfl
      ⟨(fun t ht => by cases ht), (fun t ht => by cases ht; decide), trivial⟩).2.2.1⟩

/-! ## Claims on `fixedHandlePasteButtonClick` -/

theorem processRelationships_withoutProcessed (e : ClipboardEntry) :
    withoutProcessed (processRelationships e) = withoutProcessed e := by
  unfold processRelationships
  split
  · rfl
  · dsimp only
    split <;> rfl

theorem processRelationships_no_pairs (e : ClipboardEntry)
    (h : (e.relationship_metadata.bind fun m => m.mother_cutting_pairs).getD [] = []) :
    processRelationships e = e := by
  unfold processRelationships
  cases hm : e.relationship_metadata with
  | none => rfl
  | some m =>
    rw [hm] at h
    simp only [Option.some_bind] at h
    simp [h]

theorem mutateEntry_self (s : PageState) (e : ClipboardEntry) : s.mutateEntry e e = s := by
  cases s with
  | mk ls d a c =>
    unfold PageState.mutateEntry
    simp only
    congr 1
    · split
      · rename_i h
        exact h.symm
      · rfl
    · split
      · rename_i h
        exact h.symm
      · rfl

theorem mutateEntry_mirrors (s : PageState) (e : ClipboardEntry) :
    (s.mutateEntry e (processRelationships e))._dragClipboard.map withoutProcessed =
        s._dragClipboard.map withoutProcessed ∧
    (s.mutateEntry e (processRelationships e))._clipboardArea.map withoutProcessed =
        s._clipboardArea.map withoutProcessed ∧
    (s.mutateEntry e (processRelationships e)).localStorage = s.localStorage ∧
    (s.mutateEntry e (processRelationships e)).copiedTreeData = s.copiedTreeData := by
  unfold PageState.mutateEntry
  refine ⟨?_, ?_, rfl, rfl⟩
  · simp only
    split
    · rename_i h
      rw [h]
      simp [processRelationships_withoutProcessed]
    · rfl
  · simp only
    split
    · rename_i h
      rw [h]
      simp [processRelationships_withoutProcessed]
    · rfl

theorem openPasteDialog_absent (clipboard : ClipboardEntry) (w : Browser)
    (hs : w.showStatusDefined = true) :
    openPasteDialog false clipboard w =
      (false, { w with
        page := w.page.mutateEntry clipboard (processRelationships clipboard)
        statuses := w.statuses ++ [dialogMissingStatus] }) := by
  simp [openPasteDialog, Browser.showStatus, hs, dialogMissingStatus]

/-- The three ways `fixedHandlePasteButtonClick` ends when the dialog renderer is
absent. -/
theorem fixedHandlePasteButtonClick_absent_cases (domeId : Int) (w : Browser)
    (hs : w.showStatusDefined = true) :
    (∃ e, (w.page._dragClipboard.orElse fun _ => w.page._clipboardArea) = some e ∧
      fixedHandlePasteButtonClick domeId false w =
        (false, { w with
          page := w.page.mutateEntry e (processRelationships e)
          statuses := w.statuses ++ [dialogMissingStatus] })) ∨
    (w.page._dragClipboard = none ∧ w.page._clipboardArea = none ∧
      ∃ data, (w.page.localStorage (UNIFIED_KEY domeId) = some (.json (.object data)) ∨
          w.page.localStorage (BACKUP_KEY domeId) = some (.json (.object data))) ∧
        truthyStr data.name = true ∧ data.source_dome_id = some domeId ∧
        fixedHandlePasteButtonClick domeId false w =
          (false, { w with
            page := { w.page with
              _dragClipboard := some (processRelationships data)
              _clipboardArea := some (processRelationships data) }
            statuses := w.statuses ++ [dialogMissingStatus] })) ∨
    (w.page._dragClipboard = none ∧ w.page._clipboardArea = none ∧
      ∃ st, (st = { message := "No area in clipboard", level := "warning" } ∨
          st = { message := "Error loading clipboard", level := "error" }) ∧
        fixedHandlePasteButtonClick domeId false w =
          (false, { w with statuses := w.statuses ++ [st] })) := by
  cases hd : w.page._dragClipboard with
  | some e =>
    left
    refine ⟨e, by simp, ?_⟩
    unfold fixedHandlePasteButtonClick
    simp only [hd, Option.orElse]
    exact openPasteDialog_absent e w hs
  | none =>
    cases ha : w.page._clipboardArea with
    | some e =>
      left
      refine ⟨e, by simp, ?_⟩
      unfold fixedHandlePasteButtonClick
      simp only [hd, ha, Option.orElse]
      exact openPasteDialog_absent e w hs
    | none =>
      right
      have hstored : ∀ t : StoredText,
          (w.page.localStorage (UNIFIED_KEY domeId) = some t ∨
            w.page.localStorage (BACKUP_KEY domeId) = some t) →
          (∃ data, (w.page.localStorage (UNIFIED_KEY domeId) = some (.json (.object data)) ∨
              w.page.localStorage (BACKUP_KEY domeId) = some (.json (.object data))) ∧
            truthyStr data.name = true ∧ data.source_dome_id = some domeId ∧
            (if t.truthy then
              match t with
              | .unparseable _ => (false, w.showStatus "Error loading clipboard" "error")
              | .json (.object data) =>
                if truthyStr data.name && decide (data.source_dome_id = some domeId) then
                  openPasteDialog false data
                    { w with page := w.page.assignBoth (some data) }
                else (false, w.showStatus "No area in clipboard" "warning")
              | .json _ => (false, w.showStatus "No area in clipboard" "warning")
            else (false, w.showStatus "No area in clipboard" "warning")) =
              (false, { w with
                page := { w.page with
                  _dragClipboard := some (processRelationships data)
                  _clipboardArea := some (processRelationships data) }
                statuses := w.statuses ++ [dialogMissingStatus] })) ∨
          (∃ st, (st = { message := "No area in clipboard", level := "warning" } ∨
              st = { message := "Error loading clipboard", level := "error" }) ∧
            (if t.truthy then
              match t with
              | .unparseable _ => (false, w.showStatus "Error loading clipboard" "error")
              | .json (.object data) =>
                if truthyStr data.name && decide (data.source_dome_id = some domeId) then
                  openPasteDialog false data
                    { w with page := w.page.assignBoth (some data) }
                else (false, w.showStatus "No area in clipboard" "warning")
              | .json _ => (false, w.showStatus "No area in clipboard" "warning")
            else (false, w.showStatus "No area in clipboard" "warning")) =
              (false, { w with statuses := w.statuses ++ [st] })) := by
        intro t ht
        cases t with
        | unparseable s =>
          right
          by_cases hsE : s = ""
          · exact ⟨_, Or.inl rfl, by simp [StoredText.truthy, hsE, Browser.showStatus, hs]⟩
          · exact ⟨_, Or.inr rfl, by simp [StoredText.truthy, hsE, Browser.showStatus, hs]⟩
        | json v =>
          cases v with
          | null =>
            right
            exact ⟨_, Or.inl rfl, by simp [StoredText.truthy, Browser.showStatus, hs]⟩
          | scalar b =>
            right
            exact ⟨_, Or.inl rfl, by simp [StoredText.truthy, Browser.showStatus, hs]⟩
          | object data =>
            by_cases hn : truthyStr data.name = true
            · by_cases hsd : data.source_dome_id = some domeId
              · left
                refine ⟨data, ht, hn, hsd, ?_⟩
                simp only [StoredText.truthy, if_true, hn, hsd, decide_True, Bool.and_self]
                rw [openPasteDialog_absent data { w with page := w.page.assignBoth (some data) } hs]
                simp [PageState.assignBoth, PageState.mutateEntry]
              · right
                exact ⟨_, Or.inl rfl,
                  by simp [StoredText.truthy, Browser.showStatus, hs, hn, hsd]⟩
            · right
              exact ⟨_, Or.inl rfl, by simp [StoredText.truthy, Browser.showStatus, hs, hn]⟩
      have hnone : (false, w.showStatus "No area in clipboard" "warning") =
          (false, { w with statuses := w.statuses ++
            [{ message := "No area in clipboard", level := "warning" }] }) := by
        simp [Browser.showStatus, hs]
      unfold fixedHandlePasteButtonClick
      simp only [hd, ha, Option.orElse]
      cases hu : w.page.localStorage (UNIFIED_KEY domeId) with
      | none =>
        simp only
        cases hb : w.page.localStorage (BACKUP_KEY domeId) with
        | none =>
          right
          exact ⟨trivial, trivial, _, Or.inl rfl, hnone⟩
        | some t =>
          simp only
          rcases hstored t (Or.inr hb) with ⟨data, h1, h2, h3, h4⟩ | ⟨st, h1, h2⟩
          · left
            rw [hu, hb] at h1
            exact ⟨trivial, trivial, data, h1, h2, h3, h4⟩
          · right
            exact ⟨trivial, trivial, st, h1, h2⟩
      | some u =>
        simp only
        by_cases htr : u.truthy = true
        · simp only [htr, if_true]
          have := hstored u (Or.inl hu)
          simp only [htr, if_true] at this
          rcases this with ⟨data, h1, h2, h3, h4⟩ | ⟨st, h1, h2⟩
          · left
            rw [hu] at h1
            exact ⟨trivial, trivial, data, h1, h2, h3, h4⟩
          · right
            exact ⟨trivial, trivial, st, h1, h2⟩
        · have htf : u.truthy = false := by simpa using htr
          simp only [htf, Bool.false_eq_true, if_false]
          cases hb : w.page.localStorage (BACKUP_KEY domeId) with
          | none =>
            right
            exact ⟨trivial, trivial, _, Or.inl rfl, hnone⟩
          | some t =>
            simp only
            rcases hstored t (Or.inr hb) with ⟨data, h1, h2, h3, h4⟩ | ⟨st, h1, h2⟩
            · left
              rw [hu, hb] at h1
              exact ⟨trivial, trivial, data, h1, h2, h3, h4⟩
            · right
              exact ⟨trivial, trivial, st, h1, h2⟩

/-- C22, as stated, fails: with `showPasteOptionsDialog` absent, empty mirrors and a named
entry of the active dome stored under the unified key, the call does not abort without
side effects: it installs the stored entry in `window.dragClipboard` and
`window.clipboardArea`, with `processedRelationships` attached to it, before it finds the
dialog missing. -/
theorem fixedHandlePasteButtonClick_no_dialog_fails :
    ¬ (∀ (domeId : Int) (w : Browser), w.showStatusDefined = true →
        (∃ m, (fixedHandlePasteButtonClick domeId false w).2.statuses =
          w.statuses ++ [{ message := m, level := "warning" }]) ∧
        (fixedHandlePasteButtonClick domeId false w).2.page._dragClipboard =
          w.page._dragClipboard ∧
        (fixedHandlePasteButtonClick domeId false w).2.page._clipboardArea =
          w.page._clipboardArea ∧
        (fixedHandlePasteButtonClick domeId false w).2.page.localStorage =
          w.page.localStorage) := by
  intro h
  have h1 := (h 1 storedRelationsBrowser rfl).2.1
  rcases fixedHandlePasteButtonClick_absent_cases 1 storedRelationsBrowser rfl with
    ⟨e, he, -⟩ | ⟨-, -, data, -, -, -, hr⟩ | ⟨-, -, st, -, hr⟩
  · have hnone : (storedRelationsBrowser.page._dragClipboard.orElse
        fun _ => storedRelationsBrowser.page._clipboardArea) = none := rfl
    rw [hnone] at he
    cases he
  · rw [hr] at h1
    exact absurd h1 (by simp [storedRelationsBrowser, emptyBrowser, emptyPage])
  · have hu : storedRelationsBrowser.page.localStorage (UNIFIED_KEY 1) =
        some (.json (.object relatedEntry)) := by decide
    have hx : fixedHandlePasteButtonClick 1 false storedRelationsBrowser =
        openPasteDialog false relatedEntry
          { storedRelationsBrowser with
            page := storedRelationsBrowser.page.assignBoth (some relatedEntry) } := by
      unfold fixedHandlePasteButtonClick
      have hd : storedRelationsBrowser.page._dragClipboard = none := rfl
      have ha : storedRelationsBrowser.page._clipboardArea = none := rfl
      simp only [hd, ha, Option.orElse, hu, StoredText.truthy, if_true]
      have hn : truthyStr relatedEntry.name = true := by decide
      have hsd : relatedEntry.source_dome_id = some 1 := rfl
      simp only [hn, hsd, decide_True, Bool.and_self, if_true]
    rw [hx, openPasteDialog_absent _ _ rfl] at hr
    have h2 := congrArg (fun r => r.2.page._dragClipboard) hr
    simp [PageState.assignBoth, PageState.mutateEntry, storedRelationsBrowser, emptyBrowser,
      emptyPage] at h2

/-- C22, amended: when `showPasteOptionsDialog` is absent, `fixedHandlePasteButtonClick`
does not show the dialog, leaves `localStorage` and `window.copiedTreeData` as they were
and reports exactly one status. With an entry in `window.dragClipboard` or
`window.clipboardArea` the status carries the message `Paste dialog not available`, and
the mirrors are as before up to the property `processedRelationships`, which the call
attaches to an entry that carries mother and cutting pairs; without such pairs the page is
unchanged. With both mirrors empty, either nothing usable is stored and the page is
unchanged under another status (`No area in clipboard` at `warning`, `Error loading
clipboard` at `error`), or the named entry of the active dome stored under the unified or
the backup key is installed in both mirrors and the status carries the message of the
absent dialog. The level of that status is left open. -/
theorem fixedHandlePasteButtonClick_no_dialog (domeId : Int) (w : Browser)
    (hs : w.showStatusDefined = true) :
    (fixedHandlePasteButtonClick domeId false w).1 = false ∧
    (fixedHandlePasteButtonClick domeId false w).2.page.localStorage = w.page.localStorage ∧
    (fixedHandlePasteButtonClick domeId false w).2.page.copiedTreeData =
      w.page.copiedTreeData ∧
    (∃ st, (fixedHandlePasteButtonClick domeId false w).2.statuses = w.statuses ++ [st] ∧
      (st.message = "Paste dialog not available" ∨
        st = { message := "No area in clipboard", level := "warning" } ∨
        st = { message := "Error loading clipboard", level := "error" })) ∧
    (∀ e, (w.page._dragClipboard.orElse fun _ => w.page._clipboardArea) = some e →
      (∃ level, (fixedHandlePasteButtonClick domeId false w).2.statuses =
        w.statuses ++ [{ message := "Paste dialog not available", level := level }]) ∧
      (fixedHandlePasteButtonClick domeId false w).2.page._dragClipboard.map withoutProcessed =
        w.page._dragClipboard.map withoutProcessed ∧
      (fixedHandlePasteButtonClick domeId false w).2.page._clipboardArea.map withoutProcessed =
        w.page._clipboardArea.map withoutProcessed ∧
      ((e.relationship_metadata.bind fun m => m.mother_cutting_pairs).getD [] = [] →
        (fixedHandlePasteButtonClick domeId false w).2.page = w.page)) ∧
    (w.page._dragClipboard = none → w.page._clipboardArea = none →
      ((fixedHandlePasteButtonClick domeId false w).2.page = w.page ∧
        ∃ st, (fixedHandlePasteButtonClick domeId false w).2.statuses = w.statuses ++ [st] ∧
          (st = { message := "No area in clipboard", level := "warning" } ∨
            st = { message := "Error loading clipboard", level := "error" })) ∨
      (∃ data,
        (w.page.localStorage (UNIFIED_KEY domeId) = some (.json (.object data)) ∨
          w.page.localStorage (BACKUP_KEY domeId) = some (.json (.object data))) ∧
        truthyStr data.name = true ∧ data.source_dome_id = some domeId ∧
        (fixedHandlePasteButtonClick domeId false w).2.page._dragClipboard =
          some (processRelationships data) ∧
        (fixedHandlePasteButtonClick domeId false w).2.page._clipboardArea =
          some (processRelationships data) ∧
        ∃ level, (fixedHandlePasteButtonClick domeId false w).2.statuses =
          w.statuses ++ [{ message := "Paste dialog not available", level := level }])) := by
  rcases fixedHandlePasteButtonClick_absent_cases domeId w hs with
    ⟨e0, he0, hr⟩ | ⟨hd, ha, data, hst, hn, hsd, hr⟩ | ⟨hd, ha, st, hst, hr⟩
  · rw [hr]
    obtain ⟨m1, m2, m3, m4⟩ := mutateEntry_mirrors w.page e0
    refine ⟨rfl, m3, m4, ⟨_, rfl, Or.inl rfl⟩, ?_, ?_⟩
    · intro e he
      rw [he0] at he
      cases he
      refine ⟨⟨_, rfl⟩, m1, m2, fun hp => ?_⟩
      show w.page.mutateEntry e0 (processRelationships e0) = w.page
      rw [processRelationships_no_pairs e0 hp, mutateEntry_self]
    · intro hd ha
      rw [hd, ha] at he0
      cases he0
  · rw [hr]
    refine ⟨rfl, rfl, rfl, ⟨_, rfl, Or.inl rfl⟩, ?_, ?_⟩
    · intro e he
      rw [hd, ha] at he
      cases he
    · intro _ _
      right
      exact ⟨data, hst, hn, hsd, rfl, rfl, _, rfl⟩
  · rw [hr]
    refine ⟨rfl, rfl, rfl, ⟨st, rfl, Or.inr hst⟩, ?_, ?_⟩
    · intro e he
      rw [hd, ha] at he
      cases he
    · intro _ _
      left
      exact ⟨rfl, st, rfl, hst⟩

/-- Witness of the amended C22: with `singleTreeEntry`, an entry without relationship
metadata, in the mirrors and the dialog renderer absent, the click reports `Paste dialog
not available` and leaves the page as it was. -/
theorem fixedHandlePasteButtonClick_no_dialog_witness :
    (fixedHandlePasteButtonClick 1 false heldEntryBrowser).1 = false ∧
    (∃ level, (fixedHandlePasteButtonClick 1 false heldEntryBrowser).2.statuses =
      heldEntryBrowser.statuses ++
        [{ message := "Paste dialog not available", level := level }]) ∧
    (fixedHandlePasteButtonClick 1 false heldEntryBrowser).2.page = heldEntryBrowser.page :=
  ⟨(fixedHandlePasteButtonClick_no_dialog 1 heldEntryBrowser rfl).1,
   ((fixedHandlePasteButtonClick_no_dialog 1 heldEntryBrowser rfl).2.2.2.2.1
      singleTreeEntry rfl).1,
   ((fixedHandlePasteButtonClick_no_dialog 1 heldEntryBrowser rfl).2.2.2.2.1
      singleTreeEntry rfl).2.2.2 rfl⟩

end Raisara
